import Mathlib

/-!
# CS2 admin: remote-admin (RCON) client, instance manager, watchdog and scheduler

A shallow embedding of `internal/rcon/packet.go`, `internal/rcon/client.go`,
`internal/rcon/pool.go` (namespace `Rcon`), of `internal/instance/manager.go` and
`internal/instance/watchdog.go` (namespace `Instance`) and of
`internal/scheduler/scheduler.go` (namespace `Sched`).

Conventions of the embedding:
* a Go `string` or `[]byte` that travels on the wire is a `List Byte`;
* a Go `int32` is an `Int`; conversions to and from `uint32` are explicit
  (`toUint32`, `toInt32`), arithmetic that can overflow goes through `wrapInt32`;
* a Go `(value, error)` result is an `Except`;
* the socket is explicit state: the bytes still to be delivered by the peer, how
  the stream ends, and the bytes written so far.
-/

set_option maxRecDepth 8192

namespace Rcon

/-! ## Bytes and fixed-width integers -/

/-- One octet. -/
abbrev Byte := Fin 256

/-- Go conversion `byte(v)`: the low eight bits. -/
def byteOf (v : Nat) : Byte := ⟨v % 256, Nat.mod_lt v (by decide)⟩

/-- Go conversion `uint32(x)` of an `int32` (two's complement). -/
def toUint32 (x : Int) : Nat := (x % 4294967296).toNat

/-- Go conversion `int32(v)` of a `uint32` (two's complement). -/
def toInt32 (v : Nat) : Int :=
  if v % 4294967296 < 2147483648 then ((v % 4294967296 : Nat) : Int)
  else ((v % 4294967296 : Nat) : Int) - 4294967296

/-- Result of `int32` arithmetic: the mathematical result reduced to 32 bits. -/
def wrapInt32 (x : Int) : Int := toInt32 (toUint32 x)

/-- The range of an `int32`. -/
def isInt32 (x : Int) : Prop := -2147483648 ≤ x ∧ x ≤ 2147483647

instance (x : Int) : Decidable (isInt32 x) := by unfold isInt32; infer_instance

/-- Library `binary.LittleEndian.PutUint32`: `b[0]=byte(v)`, `b[1]=byte(v>>8)`,
`b[2]=byte(v>>16)`, `b[3]=byte(v>>24)`. -/
def putUint32 (v : Nat) : List Byte :=
  [byteOf v, byteOf (v / 256), byteOf (v / 65536), byteOf (v / 16777216)]

/-- Library `binary.LittleEndian.Uint32`: `b[0] | b[1]<<8 | b[2]<<16 | b[3]<<24`.
The callers always pass four bytes; a shorter slice (a panic in Go) gives 0. -/
def uint32LE : List Byte → Nat
  | b0 :: b1 :: b2 :: b3 :: _ => b0.val + b1.val * 256 + b2.val * 65536 + b3.val * 16777216
  | _ => 0

/-- Library `bytes.IndexByte`: index of the first occurrence of `b`, `none` for -1. -/
def indexByte : List Byte → Byte → Option Nat
  | [], _ => none
  | x :: xs, b => if x = b then some 0 else (indexByte xs b).map (· + 1)

/-! ## Errors -/

/-- Errors of the `io` / `net` libraries that the code distinguishes. -/
inductive IOError where
  /-- The sentinel `io.EOF`. -/
  | EOF
  /-- The sentinel `io.ErrUnexpectedEOF`. -/
  | ErrUnexpectedEOF
  /-- Any other error of the connection (deadline exceeded, reset, refused, ...). -/
  | other (msg : String)
  deriving DecidableEq, Repr

/-- Errors returned by package `rcon`. -/
inductive Err where
  /-- `rcon: packet body too large (%d bytes)`. -/
  | bodyTooLarge (len : Nat)
  /-- `rcon: packet too short (%d bytes)`. -/
  | tooShort (len : Nat)
  /-- `rcon: packet too short for body and padding`. -/
  | tooShortForBody
  /-- `rcon: packet body not null-terminated`. -/
  | notNullTerminated
  /-- `rcon: invalid packet size %d`. -/
  | invalidSize (size : Int)
  /-- An error of the reader or writer, returned unwrapped. -/
  | io (e : IOError)
  /-- `rcon: incomplete write: %d/%d`. -/
  | incompleteWrite (n total : Nat)
  /-- `rcon: not connected`. -/
  | notConnected
  /-- `rcon: authentication failed`. -/
  | authFailed
  /-- `rcon: instance %s already connected`. -/
  | alreadyConnected (id : String)
  /-- `rcon: instance %s not connected`. -/
  | instanceNotConnected (id : String)
  /-- `fmt.Errorf("<ctx>: %w", err)`. -/
  | wrap (ctx : String) (e : Err)
  deriving DecidableEq, Repr

/-- Equality of results is decidable, so that the functions below can be
evaluated on concrete inputs. -/
instance instDecidableEqExcept {ε α : Type} [DecidableEq ε] [DecidableEq α] :
    DecidableEq (Except ε α)
  | .ok a, .ok b => if h : a = b then isTrue (by rw [h]) else isFalse (fun h2 => h (by cases h2; rfl))
  | .error a, .error b =>
    if h : a = b then isTrue (by rw [h]) else isFalse (fun h2 => h (by cases h2; rfl))
  | .ok _, .error _ => isFalse (fun h => by cases h)
  | .error _, .ok _ => isFalse (fun h => by cases h)

/-! ## packet.go -/

/-- Packet type constants for the Source RCON protocol. -/
def PacketTypeAuth : Int := 3
def PacketTypeExecCommand : Int := 2
def PacketTypeResponseValue : Int := 0
def PacketTypeAuthResponse : Int := 2

/-- A Source RCON binary packet. -/
structure Packet where
  Size : Int
  RequestID : Int
  /-- Field `Type` of the source (a reserved word here). -/
  Type_ : Int
  Body : List Byte
  deriving DecidableEq, Repr

/-- Embedding of `EncodePacket`. -/
def EncodePacket (p : Packet) : Except Err (List Byte) :=
  let bodyBytes := p.Body
  let remainderSize := 4 + 4 + bodyBytes.length + 1 + 1
  if remainderSize > 4096 then
    .error (.bodyTooLarge p.Body.length)
  else
    let buf : List Byte := []
    let buf := buf ++ putUint32 (toUint32 (remainderSize : Nat))
    let buf := buf ++ putUint32 (toUint32 p.RequestID)
    let buf := buf ++ putUint32 (toUint32 p.Type_)
    let buf := buf ++ bodyBytes
    let buf := buf ++ [0, 0]
    .ok buf

/-- Embedding of `DecodePacket`. -/
def DecodePacket (data : List Byte) : Except Err Packet :=
  if data.length < 12 then
    .error (.tooShort data.length)
  else
    let size := toInt32 (uint32LE (data.take 4))
    let requestID := toInt32 (uint32LE ((data.drop 4).take 4))
    let type := toInt32 (uint32LE ((data.drop 8).take 4))
    if data.length < 13 then
      .error .tooShortForBody
    else
      match indexByte (data.drop 12) 0 with
      | none => .error .notNullTerminated
      | some bodyEnd =>
        .ok { Size := size, RequestID := requestID, Type_ := type,
              Body := (data.drop 12).take bodyEnd }

/-- An `io.Reader` over a connection: the bytes that will still arrive, and the
error a read returns once they are used up (`EOF` when the peer closed the
stream, another error, such as the read deadline, otherwise). -/
structure Reader where
  data : List Byte
  atEnd : IOError
  deriving DecidableEq, Repr

/-- Library `io.ReadFull(r, buf)` with `len(buf) = n`: exactly `n` bytes, or an
error: the reader's own error if no byte was read, `ErrUnexpectedEOF` if the
stream ended after some but not all bytes. A zero-length read succeeds without
touching the reader. -/
def readFull (n : Nat) (r : Reader) : Except IOError (List Byte) × Reader :=
  if n = 0 then (.ok [], r)
  else if n ≤ r.data.length then (.ok (r.data.take n), { r with data := r.data.drop n })
  else if r.data = [] then (.error r.atEnd, r)
  else if r.atEnd = .EOF then (.error .ErrUnexpectedEOF, { r with data := [] })
  else (.error r.atEnd, { r with data := [] })

/-- Embedding of `ReadPacket`; the second component is the reader afterwards. -/
def ReadPacket (r : Reader) : Except Err Packet × Reader :=
  match readFull 4 r with
  | (.error e, r1) => (.error (.io e), r1)
  | (.ok sizeBuf, r1) =>
    let size := toInt32 (uint32LE sizeBuf)
    if size < 0 ∨ size > 4096 then
      (.error (.invalidSize size), r1)
    else
      match readFull size.toNat r1 with
      | (.error e, r2) => (.error (.io e), r2)
      | (.ok remainder, r2) => (DecodePacket (sizeBuf ++ remainder), r2)

/-! ## client.go -/

/-- Outcome of one call of `conn.Write(data)`, chosen by the environment. -/
inductive WriteOutcome where
  /-- All of `data` is written, no error. -/
  | full
  /-- Only the first `n` bytes are written, yet no error is reported. -/
  | short (n : Nat)
  /-- The first `n` bytes are written and the error `e` is reported. -/
  | fail (n : Nat) (e : IOError)
  deriving DecidableEq, Repr

/-- State of a `net.Conn`: the read side, the bytes written so far, the outcomes
of the coming writes (every write after the listed ones is `full`), and the
error `Close` will report, if any. -/
structure Conn where
  rd : Reader
  written : List Byte
  writes : List WriteOutcome
  closeErr : Option IOError
  deriving DecidableEq, Repr

/-- Library `conn.Write(data)`: the count written, the error, the connection after. -/
def Conn.Write (conn : Conn) (data : List Byte) : (Nat × Option IOError) × Conn :=
  match conn.writes with
  | [] => ((data.length, none), { conn with written := conn.written ++ data })
  | .full :: ws =>
    ((data.length, none), { conn with written := conn.written ++ data, writes := ws })
  | .short n :: ws =>
    (((data.take n).length, none),
      { conn with written := conn.written ++ data.take n, writes := ws })
  | .fail n e :: ws =>
    (((data.take n).length, some e),
      { conn with written := conn.written ++ data.take n, writes := ws })

/-- A single-connection RCON client (the mutex is not modelled: every method
below runs as one atomic step, which is what holding `mu` gives). -/
structure Client where
  addr : String
  password : List Byte
  conn : Option Conn
  requestID : Int
  connected : Bool
  deriving DecidableEq, Repr

/-- Embedding of `NewClient`. -/
def NewClient (addr : String) (password : List Byte) : Client :=
  { addr := addr, password := password, conn := none, requestID := 1, connected := false }

/-- Embedding of `Client.nextRequestID`: the id handed out and the client after. -/
def Client.nextRequestID (c : Client) : Int × Client :=
  let id := c.requestID
  let incremented := wrapInt32 (c.requestID + 1)
  (id, { c with requestID := if incremented < 1 then 1 else incremented })

/-- Embedding of `Client.sendPacketLocked`, on the connection `c.conn`. -/
def sendPacketLocked (conn : Conn) (p : Packet) : Option Err × Conn :=
  match EncodePacket p with
  | .error e => (some e, conn)
  | .ok data =>
    match conn.Write data with
    | ((_, some e), conn1) => (some (.io e), conn1)
    | ((n, none), conn1) =>
      if n ≠ data.length then (some (.incompleteWrite n data.length), conn1)
      else (none, conn1)

/-- Embedding of `Client.readPacketLocked`, on the connection `c.conn`. -/
def readPacketLocked (conn : Conn) : Except Err Packet × Conn :=
  let (res, rd) := ReadPacket conn.rd
  (res, { conn with rd := rd })

/-- Embedding of `Client.authenticate`. `conn` is the connection that `Connect`
has just stored in `c.conn`; the client returned holds it in its state after
the exchange. -/
def Client.authenticate (c : Client) (conn : Conn) : Option Err × Client :=
  let (reqID, c) := c.nextRequestID
  let p : Packet := { Size := 0, RequestID := reqID, Type_ := PacketTypeAuth, Body := c.password }
  match sendPacketLocked conn p with
  | (some e, conn) => (some (.wrap "rcon: auth send" e), { c with conn := some conn })
  | (none, conn) =>
    match readPacketLocked conn with
    | (.error e, conn) => (some (.wrap "rcon: auth read" e), { c with conn := some conn })
    | (.ok resp, conn) =>
      if resp.RequestID = -1 then (some .authFailed, { c with conn := some conn })
      else (none, { c with conn := some conn })

/-- What a call of `Connect` leaves behind: its error (`none` for `nil`), the
client afterwards, and the addresses it dialed. -/
structure ConnectResult where
  err : Option Err
  client : Client
  dialed : List String

/-- Embedding of `Client.Connect`. `dial addr` is what `net.DialTimeout` answers. -/
def Client.Connect (dial : String → Except IOError Conn) (c : Client) : ConnectResult :=
  if c.connected then
    { err := none, client := c, dialed := [] }
  else
    let addr := c.addr
    match dial addr with
    | .error e =>
      { err := some (.wrap "rcon: connect" (.io e)), client := c, dialed := [addr] }
    | .ok conn =>
      let c := { c with conn := some conn, connected := true }
      match c.authenticate conn with
      | (some e, c) =>
        { err := some e, client := { c with conn := none, connected := false },
          dialed := [addr] }
      | (none, c) => { err := none, client := c, dialed := [addr] }

/-- Embedding of `Client.Close`. -/
def Client.Close (c : Client) : Option Err × Client :=
  match c.connected, c.conn with
  | true, some conn =>
    let c := { c with conn := none, connected := false }
    match conn.closeErr with
    | some e => (some (.io e), c)
    | none => (none, c)
  | _, _ => (none, c)

/-- The read loop of `Client.Execute` (`for { ... }`), with the text collected so
far in `out`. Every round that goes on has consumed at least the four bytes of
a size field, so `fuel` greater than the number of bytes still to arrive is never
used up; `none` stands for running out of fuel. -/
def executeLoop (reqID sentinelID : Int) :
    Nat → Reader → List Byte → Option (Except Err (List Byte) × Reader)
  | 0, _, _ => none
  | fuel + 1, r, out =>
    match ReadPacket r with
    | (.error e, r1) =>
      if e = .io .EOF then some (.ok out, r1)
      else some (.error (.wrap "rcon: execute read" e), r1)
    | (.ok resp, r1) =>
      if resp.RequestID = sentinelID ∧ resp.Type_ = PacketTypeResponseValue ∧ resp.Body = [] then
        some (.ok out, r1)
      else if resp.RequestID = reqID ∧ resp.Type_ = PacketTypeResponseValue then
        executeLoop reqID sentinelID fuel r1 (out ++ resp.Body)
      else
        executeLoop reqID sentinelID fuel r1 out

/-- Embedding of `Client.Execute`: the result and the client afterwards. The
loop is given more fuel than it can use (`executeLoop_isSome`), so the last
branch is never taken. -/
def Client.Execute (c : Client) (command : List Byte) : Except Err (List Byte) × Client :=
  match c.connected, c.conn with
  | true, some conn =>
    let (reqID, c) := c.nextRequestID
    let cmdPkt : Packet :=
      { Size := 0, RequestID := reqID, Type_ := PacketTypeExecCommand, Body := command }
    match sendPacketLocked conn cmdPkt with
    | (some e, conn) => (.error (.wrap "rcon: execute send" e), { c with conn := some conn })
    | (none, conn) =>
      let (sentinelID, c) := c.nextRequestID
      let sentinelPkt : Packet :=
        { Size := 0, RequestID := sentinelID, Type_ := PacketTypeResponseValue, Body := [] }
      match sendPacketLocked conn sentinelPkt with
      | (some e, conn) =>
        (.error (.wrap "rcon: execute sentinel send" e), { c with conn := some conn })
      | (none, conn) =>
        match executeLoop reqID sentinelID (conn.rd.data.length + 1) conn.rd [] with
        | some (res, rd) => (res, { c with conn := some { conn with rd := rd } })
        | none => (.error (.io (.other "read loop out of fuel")), { c with conn := some conn })
  | _, _ => (.error .notConnected, c)

/-- Embedding of `Client.IsConnected`. -/
def Client.IsConnected (c : Client) : Bool := c.connected

/-- The id returned by call number `n + 1` of `nextRequestID` on `c`. -/
def nthRequestID (c : Client) : Nat → Int
  | 0 => c.nextRequestID.1
  | n + 1 => nthRequestID c.nextRequestID.2 n

/-- Bytes of an ASCII text. -/
def ascii (s : String) : List Byte := s.data.map (fun ch => byteOf ch.toNat)

/-! ### Streams of frames, for stating what the server sends -/

/-- The bytes `EncodePacket` gives for `p` (none when it refuses `p`). -/
def wire (p : Packet) : List Byte :=
  match EncodePacket p with
  | .ok data => data
  | .error _ => []

/-- A VALUE frame on the wire. -/
def valueFrame (requestID : Int) (body : List Byte) : List Byte :=
  wire { Size := 0, RequestID := requestID, Type_ := PacketTypeResponseValue, Body := body }

/-- The test by which `Execute` recognises the echo of its sentinel. -/
def isSentinel (sentinelID : Int) (p : Packet) : Prop :=
  p.RequestID = sentinelID ∧ p.Type_ = PacketTypeResponseValue ∧ p.Body = []

instance (sentinelID : Int) (p : Packet) : Decidable (isSentinel sentinelID p) := by
  unfold isSentinel; infer_instance

/-- The text `Execute` collects from the frames `ps`: the bodies of the VALUE
frames that carry the request-id of the command, in order. -/
def collect (reqID : Int) : List Packet → List Byte
  | [] => []
  | p :: ps =>
    if p.RequestID = reqID ∧ p.Type_ = PacketTypeResponseValue then p.Body ++ collect reqID ps
    else collect reqID ps

/-- Reading from `r` gives the frames `ps`, one after the other, and the read
after them fails with `err`. -/
def readsThenFails : List Packet → Reader → Err → Prop
  | [], r, err => (ReadPacket r).1 = .error err
  | p :: ps, r, err => (ReadPacket r).1 = .ok p ∧ readsThenFails ps (ReadPacket r).2 err

instance decReadsThenFails : (ps : List Packet) → (r : Reader) → (err : Err) →
    Decidable (readsThenFails ps r err)
  | [], r, err => by unfold readsThenFails; infer_instance
  | p :: ps, r, err => by
    unfold readsThenFails
    exact @instDecidableAnd _ _ _ (decReadsThenFails ps (ReadPacket r).2 err)

/-! ## pool.go -/

/-- A Go `map[string]*Client` as a list of entries. Only `Pool.Connect` inserts,
always a client it has just created, so no stored value is `nil`. -/
abbrev ClientMap := List (String × Client)

/-- Map lookup `m[key]`: `none` when the key is absent (`ok = false`). -/
def mapGet (key : String) : ClientMap → Option Client
  | [] => none
  | (k, v) :: rest => if k = key then some v else mapGet key rest

/-- Map removal `delete(m, key)`. -/
def mapDelete (key : String) : ClientMap → ClientMap
  | [] => []
  | (k, v) :: rest => if k = key then mapDelete key rest else (k, v) :: mapDelete key rest

/-- Map assignment `m[key] = v`. -/
def mapSet (key : String) (v : Client) (m : ClientMap) : ClientMap :=
  (key, v) :: mapDelete key m

/-- The effect on the map of a method that changes the client stored under
`key` through its pointer. -/
def mapUpdate (key : String) (v : Client) : ClientMap → ClientMap
  | [] => []
  | (k, w) :: rest => if k = key then (k, v) :: mapUpdate key v rest
                      else (k, w) :: mapUpdate key v rest

/-- Number of entries of the list under `key`. -/
def mapCount (key : String) : ClientMap → Nat
  | [] => 0
  | (k, _) :: rest => (if k = key then 1 else 0) + mapCount key rest

/-- The connection pool, keyed by instance id (the lock is not modelled: every
method runs as one atomic step). -/
structure Pool where
  clients : ClientMap
  deriving DecidableEq, Repr

/-- Embedding of `NewPool`. -/
def NewPool : Pool := { clients := [] }

/-- Embedding of `Pool.Get`. -/
def Pool.Get (p : Pool) (instanceID : String) : Option Client :=
  mapGet instanceID p.clients

/-- What a call of `Pool.Connect` leaves behind: its error (`none` for `nil`),
the pool afterwards, and the addresses it dialed. -/
structure PoolConnectResult where
  err : Option Err
  pool : Pool
  dialed : List String

/-- Embedding of `Pool.Connect`. -/
def Pool.Connect (dial : String → Except IOError Conn) (p : Pool)
    (instanceID addr : String) (password : List Byte) : PoolConnectResult :=
  match mapGet instanceID p.clients with
  | some _ => { err := some (.alreadyConnected instanceID), pool := p, dialed := [] }
  | none =>
    let client := NewClient addr password
    let r := client.Connect dial
    match r.err with
    | some e =>
      { err := some (.wrap ("rcon: connect " ++ instanceID) e), pool := p, dialed := r.dialed }
    | none =>
      { err := none, pool := { clients := mapSet instanceID r.client p.clients },
        dialed := r.dialed }

/-- Embedding of `Pool.Execute`: the result and the pool afterwards. -/
def Pool.Execute (p : Pool) (instanceID : String) (command : List Byte) :
    Except Err (List Byte) × Pool :=
  match mapGet instanceID p.clients with
  | none => (.error (.instanceNotConnected instanceID), p)
  | some client =>
    let (res, client) := client.Execute command
    let p : Pool := { clients := mapUpdate instanceID client p.clients }
    match res with
    | .error e => (.error (.wrap ("rcon: execute on " ++ instanceID) e), p)
    | .ok result => (.ok result, p)

/-- Embedding of `Pool.Disconnect`. -/
def Pool.Disconnect (p : Pool) (instanceID : String) : Option Err × Pool :=
  match mapGet instanceID p.clients with
  | none => (none, p)
  | some client =>
    let p : Pool := { clients := mapDelete instanceID p.clients }
    match client.Close with
    | (some e, _) => (some e, p)
    | (none, _) => (none, p)

/-- Embedding of `Pool.DisconnectAll`: every client is closed and deleted. -/
def Pool.DisconnectAll (_p : Pool) : Pool := { clients := [] }

/-- One call on the pool, together with the network's behaviour during it. -/
inductive PoolOp where
  | get (instanceID : String)
  | connect (dial : String → Except IOError Conn) (instanceID addr : String)
      (password : List Byte)
  | execute (instanceID : String) (command : List Byte)
  | disconnect (instanceID : String)
  | disconnectAll

/-- The pool after one call. -/
def Pool.step (p : Pool) : PoolOp → Pool
  | .get _ => p
  | .connect dial instanceID addr password => (p.Connect dial instanceID addr password).pool
  | .execute instanceID command => (p.Execute instanceID command).2
  | .disconnect instanceID => (p.Disconnect instanceID).2
  | .disconnectAll => p.DisconnectAll

/-- The pool after a sequence of calls. -/
def Pool.run (p : Pool) (ops : List PoolOp) : Pool := ops.foldl Pool.step p

/-- Whether a call removes the entry of `instanceID`. -/
def PoolOp.disconnects (instanceID : String) : PoolOp → Bool
  | .disconnect i => i = instanceID
  | .disconnectAll => true
  | _ => false

/-- Number of clients the pool holds for `instanceID`. -/
def Pool.count (p : Pool) (instanceID : String) : Nat :=
  mapCount instanceID p.clients

end Rcon

namespace Instance

/-! ## manager.go: launch arguments -/

/-- The fields of `models.ServerInstance` (identifier and timestamps left out). -/
structure ServerInstance where
  Name : String
  Port : Int
  RconPort : Int
  Status : String
  GameMode : String
  MaxPlayers : Int
  CurrentMap : String
  InstallPath : String
  LaunchArgs : String
  RconPassword : String
  GsltToken : String
  AutoRestart : Bool
  AutoStart : Bool
  deriving DecidableEq, Repr

/-- Library `fmt.Sprintf("%d", n)`. -/
def sprintfD (n : Int) : String := toString n

/-- Library `unicode.IsSpace`. -/
def isSpace (c : Char) : Bool :=
  let n := c.toNat
  (9 ≤ n ∧ n ≤ 13) ∨ n = 0x20 ∨ n = 0x85 ∨ n = 0xA0 ∨ n = 0x1680 ∨ (0x2000 ≤ n ∧ n ≤ 0x200A)
    ∨ n = 0x2028 ∨ n = 0x2029 ∨ n = 0x202F ∨ n = 0x205F ∨ n = 0x3000

/-- Splitting around runs of white space: `cur` is the field being read. -/
def fieldsAux : List Char → List Char → List String
  | [], cur => if cur = [] then [] else [String.mk cur]
  | c :: rest, cur =>
    if isSpace c then
      if cur = [] then fieldsAux rest [] else String.mk cur :: fieldsAux rest []
    else fieldsAux rest (cur ++ [c])

/-- Library `strings.Fields`. -/
def Fields (s : String) : List String := fieldsAux s.data []

/-- Library `strings.TrimSpace`. -/
def TrimSpace (s : String) : String :=
  String.mk ((s.data.dropWhile isSpace).reverse.dropWhile isSpace).reverse

/-- Lower case of one rune, as `unicode.ToLower` gives it, for the runes whose
lower case is an ASCII character (`A` to `Z`, U+0130 and U+212A) and for the
runes that are their own lower case. Go maps every other upper-case rune to a
non-ASCII rune; it is left as it is here, which cannot change the outcome of a
comparison with an ASCII text. -/
def toLowerRune (c : Char) : Char :=
  let n := c.toNat
  if 65 ≤ n ∧ n ≤ 90 then Char.ofNat (n + 32)
  else if n = 0x130 then Char.ofNat 105
  else if n = 0x212A then Char.ofNat 107
  else c

/-- Library `strings.ToLower`. -/
def ToLower (s : String) : String := String.mk (s.data.map toLowerRune)

/-- Embedding of `gameModeToValues`. -/
def gameModeToValues (mode : String) : Int × Int :=
  let m := ToLower mode
  if m = "competitive" then (1, 0)
  else if m = "casual" then (0, 0)
  else if m = "wingman" then (2, 0)
  else if m = "deathmatch" ∨ m = "dm" then (2, 1)
  else if m = "custom" then (3, 0)
  else (1, 0)

/-- Embedding of `Manager.buildLaunchArgs`. -/
def buildLaunchArgs (inst : ServerInstance) : List String :=
  let (gameMode, gameType) := gameModeToValues inst.GameMode
  let mapName := if inst.CurrentMap = "" then "de_dust2" else inst.CurrentMap
  let maxPlayers := if inst.MaxPlayers ≤ 0 then 10 else inst.MaxPlayers
  let rconPass := if inst.RconPassword = "" then "changeme" else inst.RconPassword
  let args := [
    "-dedicated",
    "-port", sprintfD inst.Port,
    "+sv_lan", "1",
    "+game_mode", sprintfD gameMode,
    "+game_type", sprintfD gameType,
    "+map", mapName,
    "-maxplayers", sprintfD maxPlayers,
    "+rcon_password", rconPass,
    "-console",
    "-usercon"]
  if TrimSpace inst.LaunchArgs ≠ "" then
    let extra := Fields inst.LaunchArgs
    args ++ extra
  else args

end Instance

namespace Instance

/-! ## watchdog.go -/

/-- One second, as a `time.Duration` (nanoseconds). -/
def second : Int := 1000000000

/-- State of a `Watchdog`. Durations and instants are in nanoseconds; the zero
`time.Time` is `none`; `exitCh`, a channel of capacity one, holds at most one
exit code. -/
structure Watchdog where
  instanceID : String
  running : Bool
  exitCh : Option Int
  backoff : Int
  maxBackoff : Int
  lastStartAt : Option Int
  deriving DecidableEq, Repr

/-- Embedding of `NewWatchdog`. -/
def NewWatchdog (instanceID : String) : Watchdog :=
  { instanceID := instanceID, running := false, exitCh := none,
    backoff := 1 * second, maxBackoff := 30 * second, lastStartAt := none }

/-- Embedding of `Watchdog.SetLastStartAt`; `now` is the reading of `time.Now()`. -/
def Watchdog.SetLastStartAt (w : Watchdog) (now : Int) : Watchdog :=
  { w with lastStartAt := some now }

/-- Embedding of `Watchdog.NotifyExit`: a send that does not block; the code
is dropped when the channel is full. -/
def Watchdog.NotifyExit (w : Watchdog) (exitCode : Int) : Watchdog :=
  match w.exitCh with
  | none => { w with exitCh := some exitCode }
  | some _ => w

/-- Embedding of `Watchdog.Start`, as far as the state goes: the goroutine it
launches is the loop whose exit branch is `Watchdog.exitBranch`. -/
def Watchdog.Start (w : Watchdog) : Watchdog :=
  if w.running then w else { w with running := true }

/-- Embedding of `Watchdog.Stop`. -/
def Watchdog.Stop (w : Watchdog) : Watchdog :=
  if !w.running then w else { w with running := false }

/-- The exit branch of the watchdog loop, from taking the lock to releasing it:
the delay the loop is going to sleep, and the watchdog afterwards. `now` is the
reading of the clock used by `time.Since`. -/
def Watchdog.exitBranch (w : Watchdog) (now : Int) : Int × Watchdog :=
  let ranLongEnough :=
    match w.lastStartAt with
    | none => false
    | some t => decide (now - t > 60 * second)
  let w := if ranLongEnough then { w with backoff := 1 * second } else w
  let backoff := w.backoff
  let w := { w with backoff := w.backoff * 2 }
  let w := if w.backoff > w.maxBackoff then { w with backoff := w.maxBackoff } else w
  (backoff, w)

/-- The delays slept by a watchdog over a succession of runs of the process.
Each run is given by the instant recorded in `lastStartAt` when it started and
the instant at which the loop handles its exit. -/
def Watchdog.delays (w : Watchdog) : List (Int × Int) → List Int
  | [] => []
  | (startedAt, exitAt) :: rest =>
    let r := (w.SetLastStartAt startedAt).exitBranch exitAt
    r.1 :: Watchdog.delays r.2 rest

/-- The reference of the specification for the delays: one second for the first
exit and after a run of more than sixty seconds, otherwise the double of the
previous delay, at most thirty seconds. `prev` is the previous delay. -/
def referenceDelays (prev : Option Int) : List (Int × Int) → List Int
  | [] => []
  | (startedAt, exitAt) :: rest =>
    let d :=
      match prev with
      | none => 1 * second
      | some p => if exitAt - startedAt > 60 * second then 1 * second else min (2 * p) (30 * second)
    d :: referenceDelays (some d) rest

/-! ## manager.go: the life cycle of an instance -/

def StatusStopped : String := "stopped"
def StatusStarting : String := "starting"
def StatusRunning : String := "running"
def StatusStopping : String := "stopping"
def StatusCrashed : String := "crashed"
def StatusUpdating : String := "updating"
def StatusInstalling : String := "installing"

/-- What `NewProcess(execPath, args)` holds of the command to run. -/
structure Process where
  execPath : String
  args : List String
  deriving DecidableEq, Repr

/-- Embedding of `NewProcess`. -/
def NewProcess (execPath : String) (args : List String) : Process :=
  { execPath := execPath, args := args }

/-- State of a `Manager`. The store `db` maps a parsed identifier to its row and
answers every query (a lookup fails only when there is no row); the two maps are
keyed by the identifier as passed in; `statusLog` records, oldest first, every
status that `updateStatus` has written, with the instance it was written for. -/
structure Manager where
  db : String → Option ServerInstance
  processes : String → Option Process
  watchdogs : String → Option Watchdog
  statusLog : List (String × String)

/-- Embedding of `NewManager`. -/
def NewManager (db : String → Option ServerInstance) : Manager :=
  { db := db, processes := fun _ => none, watchdogs := fun _ => none, statusLog := [] }

/-- Map assignment `m[key] = v` and removal `delete(m, key)` on a map given as a
function: `some v` assigns, `none` deletes. -/
def setKey {α : Type} (m : String → Option α) (key : String) (v : Option α) :
    String → Option α :=
  fun k => if k = key then v else m k

/-- Errors returned by `Manager.Start`. -/
inductive StartError where
  /-- `instance %s already has a running process`. -/
  | alreadyRunning (instanceID : String)
  /-- `invalid instance ID: %w`. -/
  | invalidID
  /-- `instance %s not found`. -/
  | notFound (instanceID : String)
  /-- `start process: %w`. -/
  | startProcess
  deriving DecidableEq, Repr

/-- Embedding of `Manager.updateStatus`. `parse` is `uuid.Parse`. An update of
a row that does not exist changes nothing in the store; the status callback is
called all the same. -/
def Manager.updateStatus (parse : String → Option String) (m : Manager)
    (instanceID status : String) : Manager :=
  match parse instanceID with
  | none => m
  | some id =>
    { m with
      db := (match m.db id with
             | none => m.db
             | some inst => setKey m.db id (some { inst with Status := status })),
      statusLog := m.statusLog ++ [(instanceID, status)] }

/-- Embedding of `Manager.getCS2ExePath` (`filepath.Join` taken as joining with
the separator, without its cleaning of the result). -/
def getCS2ExePath (inst : ServerInstance) : String :=
  String.intercalate "/" [inst.InstallPath, "game", "bin", "win64", "cs2.exe"]

/-- Embedding of `Manager.Start`, for a call that no other call overlaps (its
steps, for calls that overlap, are those of `Manager.startStep`). `spawnOk`
tells whether `proc.Start()` succeeds and `now` is the reading of the clock in
`SetLastStartAt`. -/
def Manager.Start (parse : String → Option String) (spawnOk : Bool) (now : Int) (m : Manager)
    (instanceID : String) : Option StartError × Manager :=
  match m.processes instanceID with
  | some _ => (some (.alreadyRunning instanceID), m)
  | none =>
    match parse instanceID with
    | none => (some .invalidID, m)
    | some id =>
      match m.db id with
      | none => (some (.notFound instanceID), m)
      | some inst =>
        let m := m.updateStatus parse instanceID StatusStarting
        let exePath := getCS2ExePath inst
        let args := buildLaunchArgs inst
        let proc := NewProcess exePath args
        let w := m.watchdogs instanceID
        let w := if inst.AutoRestart ∧ w = none then some (NewWatchdog instanceID) else w
        let m := { m with watchdogs := setKey m.watchdogs instanceID w }
        if ¬ spawnOk then
          let m := { m with watchdogs := setKey m.watchdogs instanceID none }
          let m := m.updateStatus parse instanceID StatusStopped
          (some .startProcess, m)
        else
          let m := { m with processes := setKey m.processes instanceID (some proc) }
          let m :=
            match w with
            | some w =>
              { m with watchdogs :=
                  setKey m.watchdogs instanceID (some (w.SetLastStartAt now).Start) }
            | none => m
          let m := m.updateStatus parse instanceID StatusRunning
          (none, m)

/-- Embedding of `Manager.Stop`, for a call that no other call overlaps (its
steps are those of `Manager.stopStep`); `proc.Stop()` returns no error. -/
def Manager.Stop (parse : String → Option String) (m : Manager) (instanceID : String) :
    Option StartError × Manager :=
  let proc := m.processes instanceID
  let m := { m with processes := setKey m.processes instanceID none,
                    watchdogs := setKey m.watchdogs instanceID none }
  match proc with
  | none =>
    let m := m.updateStatus parse instanceID StatusStopped
    (none, m)
  | some _ =>
    let m := m.updateStatus parse instanceID StatusStopping
    let m := m.updateStatus parse instanceID StatusStopped
    (none, m)

/-- The exit callback that `Manager.Start` registers on the process, for the
instance `instanceID` whose parsed identifier is `id`. -/
def Manager.exitCallback (parse : String → Option String) (m : Manager)
    (instanceID id : String) (code : Int) : Manager :=
  let m := { m with processes := setKey m.processes instanceID none }
  let w := m.watchdogs instanceID
  let m :=
    match m.db id with
    | some inst =>
      if inst.Status = StatusRunning then m.updateStatus parse instanceID StatusCrashed else m
    | none => m
  match w with
  | some w => { m with watchdogs := setKey m.watchdogs instanceID (some (w.NotifyExit code)) }
  | none => m

/-- Embedding of `Manager.hasProcess`. -/
def Manager.hasProcess (m : Manager) (instanceID : String) : Bool :=
  (m.processes instanceID).isSome

/-- One call on the manager that runs from its beginning to its end with no
other call in between, with what the environment decides in it. Calls that
overlap are those of `System`. -/
inductive ManagerOp where
  | start (instanceID : String) (spawnOk : Bool) (now : Int)
  | stop (instanceID : String)
  | exit (instanceID : String) (code : Int)

/-- The manager after one call run to its end with no other call in between.
An exit callback exists only for an identifier that `Start` could parse. -/
def Manager.step (parse : String → Option String) (m : Manager) : ManagerOp → Manager
  | .start instanceID spawnOk now => (m.Start parse spawnOk now instanceID).2
  | .stop instanceID => (m.Stop parse instanceID).2
  | .exit instanceID code =>
    match parse instanceID with
    | some id => m.exitCallback parse instanceID id code
    | none => m

/-- The manager after a sequence of calls none of which overlaps another. -/
def Manager.run (parse : String → Option String) (m : Manager) (ops : List ManagerOp) : Manager :=
  ops.foldl (Manager.step parse) m

/-- The statuses written for `instanceID`, oldest first. -/
def statusesOf (instanceID : String) (log : List (String × String)) : List String :=
  (log.filter (fun e => e.1 = instanceID)).map (fun e => e.2)

/-- Scan of a sequence of statuses: every `running` comes right after a
`starting`; `prev` is the status before the sequence, if any. -/
def runningAfterStarting : Option String → List String → Bool
  | _, [] => true
  | prev, s :: rest =>
    (decide (s ≠ StatusRunning) || decide (prev = some StatusStarting))
      && runningAfterStarting (some s) rest

/-- The instance of scenario S1: competitive, de_dust2, port 27015, ten players. -/
def scenarioInstance : ServerInstance :=
  { Name := "server", Port := 27015, RconPort := 27015, Status := "stopped",
    GameMode := "competitive", MaxPlayers := 10, CurrentMap := "de_dust2",
    InstallPath := "/srv/cs2", LaunchArgs := "", RconPassword := "cs2admin",
    GsltToken := "", AutoRestart := false, AutoStart := false }

/-- The identifier used for it in the examples. -/
def scenarioID : String := "6ba7b810-9dad-11d1-80b4-00c04fd430c8"

/-- A store holding one row, `inst`, under `scenarioID`. -/
def oneRow (inst : ServerInstance) : String → Option ServerInstance :=
  fun k => if k = scenarioID then some inst else none

/-- A stand-in for `uuid.Parse` in examples: it accepts the canonical form
`valid` and nothing else, which is what `uuid.Parse` answers on `valid` and on
any text that is not a UUID. -/
def parseOnly (valid : String) : String → Option String :=
  fun s => if s = valid then some valid else none

end Instance

namespace Sched

/-! ## Library `time`, as far as the scheduler uses it -/

/-! A `time.Time` is an instant, an `Int`: nanoseconds since the Unix epoch. -/

def nsPerSecond : Int := 1000000000
def nsPerMinute : Int := 60000000000
def nsPerHour : Int := 3600000000000
def nsPerDay : Int := 86400000000000

/-- The bounds `alpha` and `omega` that `lookup` gives to the first and to the
last period of a zone. -/
def alpha : Int := -9223372036854775808 * 1000000000
def omega : Int := 9223372036854775807 * 1000000000

/-- A `*time.Location`: the offset from UTC in force before the first
transition, and the transitions in ascending order, each with the instant it
happens and the offset in force from then on. -/
structure Location where
  offset0 : Int
  transitions : List (Int × Int)
  deriving DecidableEq, Repr

/-- Scan of the transitions for `Location.lookup`: `offset` is in force from
`start` on. -/
def lookupFrom (offset start : Int) : List (Int × Int) → Int → Int × Int × Int
  | [], _ => (offset, start, omega)
  | (at_, offset1) :: rest, t =>
    if t < at_ then (offset, start, at_) else lookupFrom offset1 at_ rest t

/-- Library `Location.lookup`: the offset in force at the instant `t`, and the
start and the end of the period in which it is in force. -/
def Location.lookup (l : Location) (t : Int) : Int × Int × Int :=
  lookupFrom l.offset0 alpha l.transitions t

/-- The reading of the local clock at the instant `t`, as nanoseconds since the
epoch of the local calendar. -/
def Location.wall (l : Location) (t : Int) : Int := t + (l.lookup t).1

/-- Library `Time.Hour`, in the location `l`. -/
def Hour (l : Location) (t : Int) : Int := (l.wall t % nsPerDay) / nsPerHour

/-- Library `Time.Minute`, in the location `l`. -/
def Minute (l : Location) (t : Int) : Int := (l.wall t % nsPerHour) / nsPerMinute

/-- Library `time.Date(now.Year(), now.Month(), now.Day(), hour, min, 0, 0,
now.Location())`: the instant at which the local clock reads `hour:min:00` on the
local calendar day of `now`. The reading wanted is first taken as if it were
UTC, then corrected by the offset found for it, looked up a second time when the
corrected instant falls outside the period of the first offset. -/
def dateToday (l : Location) (now : Int) (hour min : Int) : Int :=
  let unix := (l.wall now / nsPerDay) * nsPerDay + hour * nsPerHour + min * nsPerMinute
  match l.lookup unix with
  | (offset, start, end_) =>
    if offset ≠ 0 then
      let utc := unix - offset
      let offset := if utc < start ∨ utc ≥ end_ then (l.lookup utc).1 else offset
      unix - offset
    else unix

/-- Days from 1970-01-01 to the civil date `y`-`m`-`d` (Gregorian calendar). -/
def daysFromCivil (y m d : Int) : Int :=
  let y1 := if m ≤ 2 then y - 1 else y
  let era := y1 / 400
  let yoe := y1 - era * 400
  let mp := if m > 2 then m - 3 else m + 9
  let doy := (153 * mp + 2) / 5 + d - 1
  let doe := yoe * 365 + yoe / 4 - yoe / 100 + doy
  era * 146097 + doe - 719468

/-- The clock reading `y`-`mo`-`d` `h`:`mi`:`s`, as nanoseconds since the epoch. -/
def civil (y mo d h mi s : Int) : Int :=
  daysFromCivil y mo d * nsPerDay + h * nsPerHour + mi * nsPerMinute + s * nsPerSecond

/-- A location without daylight saving: one offset at all times. -/
def fixedZone (offset : Int) : Location := { offset0 := offset, transitions := [] }

/-- A location of the kind of America/New_York in the autumn of 2024: four
hours behind UTC until 2024-11-03 06:00 UTC, five hours behind from then on. -/
def autumnZone : Location :=
  { offset0 := -4 * nsPerHour, transitions := [(civil 2024 11 3 6 0 0, -5 * nsPerHour)] }

/-! ## Library `strconv` -/

/-- Result of `int` arithmetic: the mathematical result reduced to 64 bits. -/
def wrapInt64 (x : Int) : Int :=
  (x + 9223372036854775808) % 18446744073709551616 - 9223372036854775808

/-- Value of a run of decimal digits, `none` when a character is no digit. -/
def digitsValue : List Char → Int → Option Int
  | [], acc => some acc
  | c :: rest, acc =>
    if 48 ≤ c.toNat ∧ c.toNat ≤ 57 then digitsValue rest (acc * 10 + (c.toNat - 48 : Nat))
    else none

/-- The sign that may stand before the digits: whether it is `-`, and the rest. -/
def splitSign : List Char → Bool × List Char
  | '+' :: rest => (false, rest)
  | '-' :: rest => (true, rest)
  | cs => (false, cs)

/-- Library `strconv.Atoi`: an optional sign and at least one decimal digit,
the value within the range of `int`; `none` for every error. -/
def Atoi (s : String) : Option Int :=
  let p := splitSign s.data
  if p.2 = [] then none
  else
    match digitsValue p.2 0 with
    | none => none
    | some v =>
      let w := if p.1 then -v else v
      if -9223372036854775808 ≤ w ∧ w ≤ 9223372036854775807 then some w else none

/-! ## scheduler.go -/

/-- Errors of the calendar parser. -/
inductive CronError where
  /-- `cron must have 5 fields: min hour day month dow`. -/
  | fieldCount
  /-- `invalid step: %s`. -/
  | invalidStep (f : String)
  /-- `invalid number: %s`. -/
  | invalidNumber (f : String)
  /-- `out of range [%d,%d]: %d`. -/
  | outOfRange (lo hi v : Int)
  /-- `minute: %w`. -/
  | minute (e : CronError)
  /-- `hour: %w`. -/
  | hour (e : CronError)
  deriving DecidableEq, Repr

/-- Library `strings.HasPrefix(f, "*/")`. -/
def hasStepPrefix (f : String) : Bool :=
  match f.data with
  | '*' :: '/' :: _ => true
  | _ => false

/-- Embedding of `parseCronField`. `f[2:]` is `f` without the two characters of
the prefix; `current / step` is the truncated division of Go. -/
def parseCronField (f : String) (lo hi current : Int) : Except CronError Int :=
  if f = "*" then .ok current
  else if hasStepPrefix f then
    match Atoi (String.mk (f.data.drop 2)) with
    | none => .error (.invalidStep f)
    | some step =>
      if step ≤ 0 then .error (.invalidStep f)
      else
        let v := wrapInt64 (wrapInt64 (Int.tdiv current step + 1) * step)
        let v := if v > hi then 0 else v
        .ok v
  else
    match Atoi f with
    | none => .error (.invalidNumber f)
    | some v =>
      if v < lo ∨ v > hi then .error (.outOfRange lo hi v)
      else .ok v

/-- Embedding of `ParseSimpleCron`. `now` is the reading of `time.Now()` and `l`
its location. -/
def ParseSimpleCron (l : Location) (now : Int) (expr : String) : Except CronError Int :=
  match Instance.Fields (Instance.TrimSpace expr) with
  | [f0, f1, _, _, _] =>
    match parseCronField f0 0 59 (Minute l now) with
    | .error e => .error (.minute e)
    | .ok min =>
      match parseCronField f1 0 23 (Hour l now) with
      | .error e => .error (.hour e)
      | .ok hour =>
        let next := dateToday l now hour min
        if next < now ∨ next = now then .ok (next + 24 * nsPerHour) else .ok next
  | _ => .error .fieldCount

/-- The fields of `models.ScheduledTask` (creation time left out). -/
structure ScheduledTask where
  ID : String
  InstanceID : String
  CronExpr : String
  Action : String
  Payload : String
  Enabled : Bool
  LastRun : Option Int
  NextRun : Option Int
  deriving DecidableEq, Repr

/-- A task and its next run time. -/
structure ScheduledEntry where
  Task : ScheduledTask
  NextRun : Int
  deriving DecidableEq, Repr

/-- State of the `Scheduler`: the table of entries by task id (a Go map, here
in the order in which a tick visits it), the rows of the store, whether the
ticker runs (`stopCh != nil`), whether an action callback is set, and the calls
made to it so far, oldest first, each with instance id, action and payload. -/
structure Scheduler where
  tasks : List (String × ScheduledEntry)
  db : List ScheduledTask
  started : Bool
  hasOnAction : Bool
  actions : List (String × String × String)
  deriving DecidableEq, Repr

/-- The update of the store in a tick: `last_run` and `next_run` of the row of
the task. -/
def updateRuns (db : List ScheduledTask) (id : String) (lastRun nextRun : Int) :
    List ScheduledTask :=
  db.map (fun t => if t.ID = id then { t with LastRun := some lastRun, NextRun := some nextRun }
                   else t)

/-- The body of the loop of `checkAndRun` for one entry of the table. `now` is
the reading of the clock at the start of the tick and `parseNow` the one taken
by `ParseSimpleCron` for this entry. -/
def checkEntry (l : Location) (now parseNow : Int) (s : Scheduler)
    (entry : ScheduledEntry) : Scheduler × ScheduledEntry :=
  if !entry.Task.Enabled ∨ entry.NextRun > now then (s, entry)
  else
    let instanceID := entry.Task.InstanceID
    let action := entry.Task.Action
    let payload := entry.Task.Payload
    let lastRun := now
    let nextRun :=
      match ParseSimpleCron l parseNow entry.Task.CronExpr with
      | .ok t => t
      | .error _ => now + 24 * nsPerHour
    let s := { s with db := updateRuns s.db entry.Task.ID lastRun nextRun }
    let entry := { entry with NextRun := nextRun }
    let s := if s.hasOnAction then { s with actions := s.actions ++ [(instanceID, action, payload)] }
             else s
    (s, entry)

/-- The loop of `checkAndRun` over the entries still to visit; `done` holds the
entries visited, in reverse. -/
def checkLoop (l : Location) (now : Int) (parseNow : String → Int) :
    Scheduler → List (String × ScheduledEntry) → List (String × ScheduledEntry) →
    Scheduler × List (String × ScheduledEntry)
  | s, done, [] => (s, done.reverse)
  | s, done, (key, entry) :: rest =>
    let r := checkEntry l now (parseNow key) s entry
    checkLoop l now parseNow r.1 ((key, r.2) :: done) rest

/-- Embedding of `Scheduler.checkAndRun`. -/
def Scheduler.checkAndRun (l : Location) (now : Int) (parseNow : String → Int)
    (s : Scheduler) : Scheduler :=
  let r := checkLoop l now parseNow s [] s.tasks
  { r.1 with tasks := r.2 }

/-- Whether a tick at `now` finds the entry due. -/
def isDue (now : Int) (entry : ScheduledEntry) : Bool :=
  entry.Task.Enabled && decide (entry.NextRun ≤ now)

end Sched

namespace Instance

/-! ## watchdog.go: the restart after the delay -/

end Instance

namespace App

/-! ## app.go: the admin password -/

/-- Embedding of `App.getRconPassword`. `decrypt` is `crypto.Decrypt` with the
key of the application, `none` standing for an error. -/
def getRconPassword (decrypt : String → Option String) (inst : Instance.ServerInstance) :
    String :=
  if inst.RconPassword = "" then "cs2admin"
  else
    match decrypt inst.RconPassword with
    | none => "cs2admin"
    | some password => password

/-- The part of `InstanceConfig` that `CreateInstance` reads for the password. -/
structure InstanceConfig where
  RconPassword : String
  deriving DecidableEq, Repr

/-- The value that `App.CreateInstance` stores in `RconPassword`: the password
of the configuration, or `cs2admin` when that is empty, encrypted. `encrypt` is
`crypto.Encrypt` with the key of the application, `none` standing for an error,
on which no instance is created. -/
def createdRconPassword (encrypt : String → Option String) (cfg : InstanceConfig) :
    Option String :=
  let rconPass := if cfg.RconPassword = "" then "cs2admin" else cfg.RconPassword
  encrypt rconPass

end App

namespace Sched

/-! ## scheduler.go: adding and loading tasks -/

/-- Map assignment `m[key] = v` on a table given as a list: the entry of an
existing key is replaced, a new key is added at the end. -/
def tableSet : List (String × ScheduledEntry) → String → ScheduledEntry →
    List (String × ScheduledEntry)
  | [], key, v => [(key, v)]
  | (k, e) :: rest, key, v =>
    if k = key then (key, v) :: rest else (k, e) :: tableSet rest key v

/-- Map lookup `m[key]` on a table given as a list. -/
def tableGet : List (String × ScheduledEntry) → String → Option ScheduledEntry
  | [], _ => none
  | (k, e) :: rest, key => if k = key then some e else tableGet rest key

/-- The text of `uuid.Nil`. -/
def nilUUID : String := "00000000-0000-0000-0000-000000000000"

/-- Errors returned by `Scheduler.AddTask` and `Scheduler.Start`. -/
inductive SchedulerError where
  /-- `invalid cron: %w`. -/
  | invalidCron (e : CronError)
  /-- The error of `db.Create`. -/
  | create
  /-- `load tasks: %w`. -/
  | loadTasks
  deriving DecidableEq, Repr

/-- Embedding of `Scheduler.AddTask`. `now` is the reading of the clock taken by
`ParseSimpleCron`, `createOk` tells whether `db.Create` succeeds, and `newID` is
the identifier that `BeforeCreate` draws for a task that has none. -/
def Scheduler.AddTask (l : Location) (now : Int) (newID : String) (createOk : Bool)
    (s : Scheduler) (task : ScheduledTask) : Option SchedulerError × Scheduler :=
  match ParseSimpleCron l now task.CronExpr with
  | .error e => (some (.invalidCron e), s)
  | .ok nextRun =>
    let task := { task with Enabled := true, NextRun := some nextRun }
    if ¬ createOk then (some .create, s)
    else
      let task := if task.ID = nilUUID then { task with ID := newID } else task
      let s := { s with db := s.db ++ [task] }
      (none, { s with tasks := tableSet s.tasks task.ID { Task := task, NextRun := nextRun } })

/-- The loop of `Scheduler.Start` over the rows loaded; `parseNow` gives, for
each task, the reading of the clock taken by `ParseSimpleCron`. A row whose
expression is refused is skipped. -/
def loadLoop (l : Location) (parseNow : String → Int) :
    List (String × ScheduledEntry) → List ScheduledTask → List (String × ScheduledEntry)
  | tasks, [] => tasks
  | tasks, t :: rest =>
    match ParseSimpleCron l (parseNow t.ID) t.CronExpr with
    | .error _ => loadLoop l parseNow tasks rest
    | .ok nextRun => loadLoop l parseNow (tableSet tasks t.ID { Task := t, NextRun := nextRun }) rest

/-- Embedding of `Scheduler.Start`, as far as the state goes (the ticker it
launches runs `checkAndRun`). `loadOk` tells whether the query for the enabled
rows succeeds. -/
def Scheduler.Start (l : Location) (parseNow : String → Int) (loadOk : Bool) (s : Scheduler) :
    Option SchedulerError × Scheduler :=
  if s.started then (none, s)
  else if ¬ loadOk then (some .loadTasks, s)
  else
    let dbTasks := s.db.filter (fun t => t.Enabled)
    (none, { s with started := true, tasks := loadLoop l parseNow s.tasks dbTasks })

end Sched

namespace Benchmark

/-! ## benchmark.go -/

/-- The loop of `splitLines` over the indices `i` from 0 to `len(s)`, with the
start of the current line and the lines found so far; `n` counts the indices
still to visit. -/
def splitLinesLoop (s : List Rcon.Byte) :
    Nat → Nat → Nat → List (List Rcon.Byte) → List (List Rcon.Byte)
  | 0, _, _, lines => lines
  | n + 1, i, start, lines =>
    if i = s.length ∨ s[i]? = some 10 then
      let lines := if i > start then lines ++ [(s.drop start).take (i - start)] else lines
      splitLinesLoop s n (i + 1) (i + 1) lines
    else splitLinesLoop s n (i + 1) start lines

/-- Embedding of `splitLines`: the lines of `s`, without the empty ones. -/
def splitLines (s : List Rcon.Byte) : List (List Rcon.Byte) :=
  splitLinesLoop s (s.length + 1) 0 0 []

/-- The slice expression `line[:n]` of Go: `none` stands for the run-time panic
`slice bounds out of range` raised when `n` exceeds the length. -/
def sliceTo (line : List Rcon.Byte) (n : Nat) : Option (List Rcon.Byte) :=
  if n ≤ line.length then some (line.take n) else none

/-- The loop of `parseTickFromStatus` over the lines. The condition
`len(line) > 4 && (line[:4] == "tick" || line[:8] == "tickrate")` is evaluated
from left to right, the right side of `&&` and of `||` only when the left side
does not decide. `scanTick` and `scanTickrate` give the value left in `v` by
`fmt.Sscanf(line, "tick : %f", &v)` and by `fmt.Sscanf(line, "tickrate : %f",
&v)`, `isZero` is the test `v == 0`. The result `none` is a panic. -/
def parseTickLines {F : Type} (scanTick scanTickrate : List Rcon.Byte → F) (isZero : F → Bool)
    (zero : F) : List (List Rcon.Byte) → Option F
  | [] => some zero
  | line :: rest =>
    if line.length > 4 then
      match sliceTo line 4 with
      | none => none
      | some p4 =>
        if p4 = Rcon.ascii "tick" then
          let v := scanTick line
          some (if isZero v then scanTickrate line else v)
        else
          match sliceTo line 8 with
          | none => none
          | some p8 =>
            if p8 = Rcon.ascii "tickrate" then
              let v := scanTick line
              some (if isZero v then scanTickrate line else v)
            else parseTickLines scanTick scanTickrate isZero zero rest
    else parseTickLines scanTick scanTickrate isZero zero rest

/-- Embedding of `parseTickFromStatus`; `none` is a panic. -/
def parseTickFromStatus {F : Type} (scanTick scanTickrate : List Rcon.Byte → F)
    (isZero : F → Bool) (zero : F) (out : List Rcon.Byte) : Option F :=
  parseTickLines scanTick scanTickrate isZero zero (splitLines out)

/-- The fields of `BenchmarkConfig`; the duration is in nanoseconds. -/
structure BenchmarkConfig where
  InstanceID : String
  MaxBots : Int
  StepSize : Int
  StepDuration : Int
  deriving DecidableEq, Repr

/-- State of a `BenchmarkRunner`: the configuration, whether a pool is set
(`rconPool != nil`) and whether a progress callback is set. -/
structure BenchmarkRunner where
  config : BenchmarkConfig
  poolSet : Bool
  hasOnProgress : Bool
  deriving DecidableEq, Repr

/-- One pass through the sampling loop of a step, as the environment decides
it: whether the stop channel is found closed, and the reply to `status` when
the pool executes it without error and the reply is not empty. -/
structure Sample where
  stopSeen : Bool
  status : Option (List Rcon.Byte)
  deriving DecidableEq, Repr

/-- What the environment decides in a run: the answer of `uuid.Parse`; for each
step, whether the stop channel is found closed at its start, whether the pool
holds a client for the instance, and the passes of its sampling loop (as many
as the clock allows before the deadline); whether the pool holds a client when
the bots are reset; and whether the result is saved. -/
structure Env where
  parse : String → Option String
  stopAtStep : Int → Bool
  connected : Int → Bool
  samples : Int → List Sample
  connectedAtEnd : Bool
  saveOk : Bool

/-- Errors returned by `BenchmarkRunner.Run`. -/
inductive RunError where
  /-- `invalid config: MaxBots=%d StepSize=%d`. -/
  | invalidConfig (maxBots stepSize : Int)
  /-- `invalid instance id: %w`. -/
  | invalidInstanceID
  /-- `benchmark stopped`. -/
  | stopped
  /-- `save result: %w`. -/
  | saveResult
  deriving DecidableEq, Repr

/-- How a run ends: with the result saved (its instance and bot count; the
averages and the duration are left out), with an error, or with a panic. -/
inductive RunResult where
  | ok (instanceID : String) (botCount : Int)
  | error (e : RunError)
  | panicked
  deriving DecidableEq, Repr

/-- What a run has done so far: the progress events delivered, oldest first,
each with step, total of steps and bot count (the averages of `Metrics` are
left out), and the commands sent through the pool. -/
structure Trace where
  events : List (Int × Int × Int)
  commands : List String
  deriving DecidableEq, Repr

/-- How the sampling loop of a step ends. -/
inductive SampleEnd where
  | done
  | stopped
  | panicked
  deriving DecidableEq, Repr

/-- The sampling loop of one step: each pass looks at the stop channel and, when
a pool is set, gives a reply to `status` that is not empty to
`parseTickFromStatus`. -/
def sampleLoop {F : Type} (scanTick scanTickrate : List Rcon.Byte → F) (isZero : F → Bool)
    (zero : F) (poolSet : Bool) : List Sample → SampleEnd
  | [] => .done
  | s :: rest =>
    if s.stopSeen then .stopped
    else
      match (if poolSet then s.status else none) with
      | none => sampleLoop scanTick scanTickrate isZero zero poolSet rest
      | some out =>
        match parseTickFromStatus scanTick scanTickrate isZero zero out with
        | none => .panicked
        | some _ => sampleLoop scanTick scanTickrate isZero zero poolSet rest

/-- The loop `for step := 1; step <= totalSteps; step++` of `Run`, from `step`
on, with `n` steps still to do. The first component is `none` when the loop
runs to its end. -/
def runSteps {F : Type} (scanTick scanTickrate : List Rcon.Byte → F) (isZero : F → Bool)
    (zero : F) (env : Env) (r : BenchmarkRunner) (totalSteps : Int) :
    Nat → Int → Trace → Option RunResult × Trace
  | 0, _, tr => (none, tr)
  | n + 1, step, tr =>
    if env.stopAtStep step then (some (.error .stopped), tr)
    else
      let botCount := Sched.wrapInt64 (step * r.config.StepSize)
      let botCount := if botCount > r.config.MaxBots then r.config.MaxBots else botCount
      let tr :=
        if r.poolSet ∧ env.connected step
        then { tr with commands := tr.commands ++ ["bot_quota " ++ Instance.sprintfD botCount] }
        else tr
      match sampleLoop scanTick scanTickrate isZero zero r.poolSet (env.samples step) with
      | .stopped => (some (.error .stopped), tr)
      | .panicked => (some .panicked, tr)
      | .done =>
        let tr :=
          if r.hasOnProgress then { tr with events := tr.events ++ [(step, totalSteps, botCount)] }
          else tr
        runSteps scanTick scanTickrate isZero zero env r totalSteps n (step + 1) tr

/-- Embedding of `BenchmarkRunner.Run`. The arithmetic on `int` is reduced to 64
bits; the division is the truncated one of Go. The loop over the steps is run
`totalSteps` times, as the Go loop does for every `totalSteps` below
2^63 - 1. -/
def BenchmarkRunner.Run {F : Type} (scanTick scanTickrate : List Rcon.Byte → F)
    (isZero : F → Bool) (zero : F) (env : Env) (r : BenchmarkRunner) : RunResult × Trace :=
  let tr : Trace := { events := [], commands := [] }
  if r.config.MaxBots ≤ 0 ∨ r.config.StepSize ≤ 0 then
    (.error (.invalidConfig r.config.MaxBots r.config.StepSize), tr)
  else
    let totalSteps :=
      Int.tdiv (Sched.wrapInt64 (Sched.wrapInt64 (r.config.MaxBots + r.config.StepSize) - 1))
        r.config.StepSize
    let totalSteps := if totalSteps = 0 then 1 else totalSteps
    match env.parse r.config.InstanceID with
    | none => (.error .invalidInstanceID, tr)
    | some instUUID =>
      match runSteps scanTick scanTickrate isZero zero env r totalSteps totalSteps.toNat 1 tr with
      | (some res, tr) => (res, tr)
      | (none, tr) =>
        let tr :=
          if r.poolSet ∧ env.connectedAtEnd
          then { tr with commands := tr.commands ++ ["bot_quota 0"] }
          else tr
        if ¬ env.saveOk then (.error .saveResult, tr)
        else (.ok instUUID r.config.MaxBots, tr)

end Benchmark

namespace Monitor

/-! ## monitor.go: the network rates -/

/-- The two fields of `Metrics` that the network sampling writes. The `float64`
arithmetic is taken as exact arithmetic on rationals. -/
structure Metrics where
  NetInKbps : Rat
  NetOutKbps : Rat
  deriving DecidableEq

/-- The fields of a `Collector` kept for the network rates: the counters
(`uint64`) and the instant of the previous sample. -/
structure Collector where
  prevNetRecv : Nat
  prevNetSent : Nat
  prevNetTime : Int
  deriving DecidableEq, Repr

/-- Embedding of `NewCollector`; `now` is the reading of `time.Now()`. The
counters are left at their zero value. -/
def NewCollector (now : Int) : Collector :=
  { prevNetRecv := 0, prevNetSent := 0, prevNetTime := now }

/-- Subtraction of `uint64`. -/
def subUint64 (a b : Nat) : Nat :=
  (a + 18446744073709551616 - b % 18446744073709551616) % 18446744073709551616

/-- Library `Duration.Seconds`, for a duration in nanoseconds. -/
def seconds (d : Int) : Rat := (d : Rat) / 1000000000

/-- The network part of `collectMetrics`. `counters` is the first entry of
`net.IOCounters(false)`, received and sent bytes, `none` when the call fails or
gives no entry; `now` is the reading of `time.Now()`. -/
def collectMetrics (counters : Option (Nat × Nat)) (now : Int) (c : Collector) :
    Metrics × Collector :=
  let m : Metrics := { NetInKbps := 0, NetOutKbps := 0 }
  match counters with
  | none => (m, c)
  | some (totalRecv, totalSent) =>
    let elapsed := seconds (now - c.prevNetTime)
    let m :=
      if elapsed > 0 then
        { m with
          NetInKbps := ((subUint64 totalRecv c.prevNetRecv : Rat) / 1024) / elapsed,
          NetOutKbps := ((subUint64 totalSent c.prevNetSent : Rat) / 1024) / elapsed }
      else m
    (m, { c with prevNetRecv := totalRecv, prevNetSent := totalSent, prevNetTime := now })

end Monitor

namespace Instance

/-! ## manager.go: calls that overlap -/

/-- Where a call of `Manager.Start` stands. A step of the call is one access to
what it shares with the other goroutines: a stretch under `m.mu`, a query of
the store, an update of the status with its callback, the spawn of the process,
the calls on the watchdog. The local variables are kept with the position. -/
inductive StartPc where
  /-- Before the check, under the lock, that the instance has no process. -/
  | check
  /-- Before `uuid.Parse` and the query of the row. -/
  | load
  /-- Before `updateStatus(instanceID, StatusStarting)`. -/
  | markStarting (inst : ServerInstance)
  /-- Before the stretch under the lock that looks up or creates the watchdog. -/
  | register (inst : ServerInstance)
  /-- Before `proc.Start()`. -/
  | spawn (inst : ServerInstance) (w : Option Watchdog)
  /-- After a failed spawn, before the watchdog is deleted under the lock. -/
  | failUnregister
  /-- After a failed spawn, before `updateStatus(instanceID, StatusStopped)`. -/
  | failStatus
  /-- Before the process is stored in the map, under the lock. -/
  | putProcess (proc : Process) (w : Option Watchdog)
  /-- Before `w.SetLastStartAt()` and `w.Start()`. -/
  | arm (w : Option Watchdog)
  /-- Before `updateStatus(instanceID, StatusRunning)`. -/
  | markRunning
  /-- The call has returned, with this error. -/
  | done (err : Option StartError)
  deriving DecidableEq, Repr

/-- One step of a call of `Manager.Start`, from the position `pc`. The calls on
the watchdog reach the manager's map only while the map still holds a watchdog
for the instance. -/
def Manager.startStep (parse : String → Option String) (spawnOk : Bool) (now : Int)
    (instanceID : String) (m : Manager) : StartPc → StartPc × Manager
  | .check =>
    match m.processes instanceID with
    | some _ => (.done (some (.alreadyRunning instanceID)), m)
    | none => (.load, m)
  | .load =>
    match parse instanceID with
    | none => (.done (some .invalidID), m)
    | some id =>
      match m.db id with
      | none => (.done (some (.notFound instanceID)), m)
      | some inst => (.markStarting inst, m)
  | .markStarting inst => (.register inst, m.updateStatus parse instanceID StatusStarting)
  | .register inst =>
    let w := m.watchdogs instanceID
    let w := if inst.AutoRestart ∧ w = none then some (NewWatchdog instanceID) else w
    (.spawn inst w, { m with watchdogs := setKey m.watchdogs instanceID w })
  | .spawn inst w =>
    if ¬ spawnOk then (.failUnregister, m)
    else (.putProcess (NewProcess (getCS2ExePath inst) (buildLaunchArgs inst)) w, m)
  | .failUnregister => (.failStatus, { m with watchdogs := setKey m.watchdogs instanceID none })
  | .failStatus => (.done (some .startProcess), m.updateStatus parse instanceID StatusStopped)
  | .putProcess proc w =>
    (.arm w, { m with processes := setKey m.processes instanceID (some proc) })
  | .arm w =>
    match w, m.watchdogs instanceID with
    | some _, some cur =>
      (.markRunning,
        { m with watchdogs := setKey m.watchdogs instanceID (some (cur.SetLastStartAt now).Start) })
    | _, _ => (.markRunning, m)
  | .markRunning => (.done none, m.updateStatus parse instanceID StatusRunning)
  | .done err => (.done err, m)

/-- Where a call of `Manager.Stop` stands. -/
inductive StopPc where
  /-- Before the stretch under the lock that takes the process and the watchdog
  out of the maps. -/
  | take
  /-- Before `updateStatus(instanceID, StatusStopping)`. -/
  | markStopping
  /-- Before `proc.Stop()`. -/
  | stopProcess
  /-- Before `updateStatus(instanceID, StatusStopped)`. -/
  | markStopped
  /-- The call has returned. -/
  | done
  deriving DecidableEq, Repr

/-- One step of a call of `Manager.Stop`, from the position `pc`. -/
def Manager.stopStep (parse : String → Option String) (instanceID : String) (m : Manager) :
    StopPc → StopPc × Manager
  | .take =>
    let proc := m.processes instanceID
    let m := { m with processes := setKey m.processes instanceID none,
                      watchdogs := setKey m.watchdogs instanceID none }
    match proc with
    | none => (.markStopped, m)
    | some _ => (.markStopping, m)
  | .markStopping => (.stopProcess, m.updateStatus parse instanceID StatusStopping)
  | .stopProcess => (.markStopped, m)
  | .markStopped => (.done, m.updateStatus parse instanceID StatusStopped)
  | .done => (.done, m)

/-- Where a run of the exit callback stands. -/
inductive ExitPc where
  /-- Before the stretch under the lock that deletes the process and reads the
  watchdog. -/
  | unregister
  /-- Before the query of the stored status. -/
  | readStatus (w : Option Watchdog)
  /-- Before `updateStatus(instanceID, StatusCrashed)`. -/
  | markCrashed (w : Option Watchdog)
  /-- Before `w.NotifyExit(code)`. -/
  | notify (w : Option Watchdog)
  /-- The callback has returned. -/
  | done
  deriving DecidableEq, Repr

/-- One step of a run of the exit callback, from the position `pc`. -/
def Manager.exitStep (parse : String → Option String) (instanceID id : String) (code : Int)
    (m : Manager) : ExitPc → ExitPc × Manager
  | .unregister =>
    (.readStatus (m.watchdogs instanceID),
      { m with processes := setKey m.processes instanceID none })
  | .readStatus w =>
    match m.db id with
    | some inst => if inst.Status = StatusRunning then (.markCrashed w, m) else (.notify w, m)
    | none => (.notify w, m)
  | .markCrashed w => (.notify w, m.updateStatus parse instanceID StatusCrashed)
  | .notify w =>
    match w, m.watchdogs instanceID with
    | some _, some cur =>
      (.done, { m with watchdogs := setKey m.watchdogs instanceID (some (cur.NotifyExit code)) })
    | _, _ => (.done, m)
  | .done => (.done, m)

/-- A call in progress on some goroutine: what was called, with what the
environment decides in it, and where it stands. -/
inductive Call where
  | start (instanceID : String) (spawnOk : Bool) (now : Int) (pc : StartPc)
  | stop (instanceID : String) (pc : StopPc)
  | exit (instanceID id : String) (code : Int) (pc : ExitPc)
  deriving DecidableEq, Repr

/-- One step of a call. -/
def Call.step (parse : String → Option String) (m : Manager) : Call → Call × Manager
  | .start instanceID spawnOk now pc =>
    let r := m.startStep parse spawnOk now instanceID pc
    (.start instanceID spawnOk now r.1, r.2)
  | .stop instanceID pc =>
    let r := m.stopStep parse instanceID pc
    (.stop instanceID r.1, r.2)
  | .exit instanceID id code pc =>
    let r := m.exitStep parse instanceID id code pc
    (.exit instanceID id code r.1, r.2)

/-- The manager together with the calls begun on it, in the order in which they
began. -/
structure System where
  manager : Manager
  calls : List Call

/-- What happens next in a system: a goroutine begins a call, or the call
number `i` (from 0) does its next step. -/
inductive Event where
  | beginStart (instanceID : String) (spawnOk : Bool) (now : Int)
  | beginStop (instanceID : String)
  | beginExit (instanceID : String) (code : Int)
  | advance (i : Nat)
  deriving DecidableEq, Repr

/-- The system after one event. An exit callback exists only for an identifier
that `Start` could parse. -/
def System.step (parse : String → Option String) (s : System) : Event → System
  | .beginStart instanceID spawnOk now =>
    { s with calls := s.calls ++ [.start instanceID spawnOk now .check] }
  | .beginStop instanceID => { s with calls := s.calls ++ [.stop instanceID .take] }
  | .beginExit instanceID code =>
    match parse instanceID with
    | some id => { s with calls := s.calls ++ [.exit instanceID id code .unregister] }
    | none => s
  | .advance i =>
    match s.calls[i]? with
    | none => s
    | some c =>
      let r := c.step parse s.manager
      { manager := r.2, calls := s.calls.set i r.1 }

/-- The system after a sequence of events. -/
def System.run (parse : String → Option String) (s : System) (events : List Event) : System :=
  events.foldl (System.step parse) s

/-- A call of `Start` run for `n` steps with no other call in between. -/
def Manager.startSteps (parse : String → Option String) (spawnOk : Bool) (now : Int)
    (instanceID : String) : Nat → StartPc × Manager → StartPc × Manager
  | 0, s => s
  | n + 1, s =>
    let r := s.2.startStep parse spawnOk now instanceID s.1
    Manager.startSteps parse spawnOk now instanceID n r

/-- A call of `Stop` run for `n` steps with no other call in between. -/
def Manager.stopSteps (parse : String → Option String) (instanceID : String) :
    Nat → StopPc × Manager → StopPc × Manager
  | 0, s => s
  | n + 1, s =>
    let r := s.2.stopStep parse instanceID s.1
    Manager.stopSteps parse instanceID n r

/-- A run of the exit callback for `n` steps with no other call in between. -/
def Manager.exitSteps (parse : String → Option String) (instanceID id : String) (code : Int) :
    Nat → ExitPc × Manager → ExitPc × Manager
  | 0, s => s
  | n + 1, s =>
    let r := s.2.exitStep parse instanceID id code s.1
    Manager.exitSteps parse instanceID id code n r

end Instance

namespace Rcon

/-! ## Codec lemmas -/

theorem uint32LE_putUint32 (v : Nat) : uint32LE (putUint32 v) = v % 4294967296 := by
  simp only [uint32LE, putUint32, byteOf]
  omega

theorem toUint32_lt (x : Int) : toUint32 x < 4294967296 := by
  unfold toUint32
  omega

theorem toInt32_toUint32 (x : Int) (h : isInt32 x) : toInt32 (toUint32 x) = x := by
  unfold isInt32 at h
  unfold toInt32 toUint32
  split <;> omega

theorem toInt32_isInt32 (v : Nat) : isInt32 (toInt32 v) := by
  unfold isInt32 toInt32
  split <;> omega

theorem putUint32_length (v : Nat) : (putUint32 v).length = 4 := rfl

theorem indexByte_append_zero (body rest : List Byte) (h : (0 : Byte) ∉ body) :
    indexByte (body ++ 0 :: rest) 0 = some body.length := by
  induction body with
  | nil => simp [indexByte]
  | cons x xs ih =>
    have hx : x ≠ 0 := fun e => h (by simp [e])
    have hxs : (0 : Byte) ∉ xs := fun e => h (by simp [e])
    simp [indexByte, hx, ih hxs]

theorem indexByte_isSome (l : List Byte) (b : Byte) : (indexByte l b).isSome ↔ b ∈ l := by
  induction l with
  | nil => simp [indexByte]
  | cons x xs ih =>
    by_cases hx : x = b
    · simp [indexByte, hx]
    · have hx2 : ¬ b = x := fun e => hx e.symm
      simp [indexByte, hx, hx2, ih]

/-- The bytes `EncodePacket` produces when the body fits. -/
theorem EncodePacket_ok (p : Packet) (h : p.Body.length ≤ 4086) :
    EncodePacket p = .ok (putUint32 (p.Body.length + 10) ++ putUint32 (toUint32 p.RequestID)
      ++ putUint32 (toUint32 p.Type_) ++ p.Body ++ [0, 0]) := by
  have h1 : ¬ (4 + 4 + p.Body.length + 1 + 1 > 4096) := by omega
  have h2 : toUint32 ((4 + 4 + p.Body.length + 1 + 1 : Nat) : Int) = p.Body.length + 10 := by
    unfold toUint32
    omega
  simp only [EncodePacket, h1, if_false, h2, List.nil_append]

/-- Decoding a well-formed frame gives back its fields. -/
theorem DecodePacket_frame (size : Nat) (requestID type : Int) (body : List Byte)
    (hs : size ≤ 2147483647) (hid : isInt32 requestID) (hty : isInt32 type)
    (hz : (0 : Byte) ∉ body) :
    DecodePacket (putUint32 size ++ putUint32 (toUint32 requestID) ++ putUint32 (toUint32 type)
      ++ body ++ [0, 0])
      = .ok { Size := size, RequestID := requestID, Type_ := type, Body := body } := by
  have e1 : toInt32 (uint32LE (putUint32 size)) = size := by
    rw [uint32LE_putUint32]
    unfold toInt32
    split <;> omega
  have e2 : toInt32 (uint32LE (putUint32 (toUint32 requestID))) = requestID := by
    rw [uint32LE_putUint32, Nat.mod_eq_of_lt (toUint32_lt _), toInt32_toUint32 _ hid]
  have e3 : toInt32 (uint32LE (putUint32 (toUint32 type))) = type := by
    rw [uint32LE_putUint32, Nat.mod_eq_of_lt (toUint32_lt _), toInt32_toUint32 _ hty]
  have hidx := indexByte_append_zero body [0] hz
  unfold DecodePacket
  simp only [putUint32] at e1 e2 e3 ⊢
  simp [e1, e2, e3, hidx]
  rw [if_neg (by omega), if_neg (by omega)]

/-- A full read of bytes that are all there returns them and leaves the rest. -/
theorem readFull_append (bs rest : List Byte) (e : IOError) (n : Nat) (hn : bs.length = n)
    (h0 : n ≠ 0) :
    readFull n { data := bs ++ rest, atEnd := e } = (.ok bs, { data := rest, atEnd := e }) := by
  unfold readFull
  have hle : n ≤ (bs ++ rest).length := by simp; omega
  simp only [h0, if_false, hle, if_true, List.take_left' hn, List.drop_left' hn]

theorem readFull_ok_length (n : Nat) (r r1 : Reader) (bs : List Byte)
    (h : readFull n r = (.ok bs, r1)) : bs.length = n ∧ r1.data.length + n = r.data.length := by
  unfold readFull at h
  split at h
  · simp only [Prod.mk.injEq, Except.ok.injEq] at h
    obtain ⟨h1, h2⟩ := h
    subst h1 h2
    simp_all
  · split at h
    · simp only [Prod.mk.injEq, Except.ok.injEq] at h
      obtain ⟨h1, h2⟩ := h
      subst h1 h2
      simp
      omega
    · split at h
      · simp at h
      · split at h <;> simp at h

/-- Reading a well-formed frame from a stream returns its fields and leaves the
bytes that follow it. -/
theorem ReadPacket_frame (requestID type : Int) (body rest : List Byte) (e : IOError)
    (hid : isInt32 requestID) (hty : isInt32 type) (hz : (0 : Byte) ∉ body)
    (hlen : body.length ≤ 4086) :
    ReadPacket { data := putUint32 (body.length + 10) ++ putUint32 (toUint32 requestID)
        ++ putUint32 (toUint32 type) ++ body ++ [0, 0] ++ rest, atEnd := e }
      = (.ok { Size := (body.length + 10 : Nat), RequestID := requestID, Type_ := type,
               Body := body },
         { data := rest, atEnd := e }) := by
  have hsize : toInt32 (uint32LE (putUint32 (body.length + 10))) = (body.length + 10 : Nat) := by
    rw [uint32LE_putUint32]
    unfold toInt32
    split <;> omega
  have h1 := readFull_append (putUint32 (body.length + 10))
    (putUint32 (toUint32 requestID) ++ putUint32 (toUint32 type) ++ body ++ [0, 0] ++ rest) e 4
    rfl (by decide)
  have h2 := readFull_append
    (putUint32 (toUint32 requestID) ++ putUint32 (toUint32 type) ++ body ++ [0, 0]) rest e
    (body.length + 10) (by simp [putUint32_length]; omega) (by omega)
  have h3 := DecodePacket_frame (body.length + 10) requestID type body (by omega) hid hty hz
  simp only [List.append_assoc] at h1 h2 h3 ⊢
  unfold ReadPacket
  rw [h1]
  simp only [hsize]
  have hng : ¬ (((body.length + 10 : Nat) : Int) < 0 ∨ ((body.length + 10 : Nat) : Int) > 4096) := by
    omega
  rw [if_neg hng, Int.toNat_ofNat, h2]
  simp only [h3]

/-! ## Codec claims -/

/-- C1, as amended: for every packet with a 32-bit RequestID, a Type in {0,2,3}
and a Body without a zero byte with len(Body)+10 <= 4096, EncodePacket
succeeds, DecodePacket of its output succeeds, and the packet returned has the
RequestID, Type and Body of the input and Size = len(Body)+10. -/
theorem C1_roundtrip_amended (p : Packet) (hid : isInt32 p.RequestID)
    (hty : p.Type_ = 0 ∨ p.Type_ = 2 ∨ p.Type_ = 3) (hz : (0 : Byte) ∉ p.Body)
    (hlen : p.Body.length + 10 ≤ 4096) :
    ∃ bytes, EncodePacket p = .ok bytes ∧
      DecodePacket bytes = .ok { p with Size := (p.Body.length + 10 : Nat) } := by
  refine ⟨_, EncodePacket_ok p (by omega), ?_⟩
  have hty2 : isInt32 p.Type_ := by
    unfold isInt32
    omega
  exact DecodePacket_frame (p.Body.length + 10) p.RequestID p.Type_ p.Body (by omega) hid hty2 hz

/-- Witness of C1 as amended: the EXEC packet of the command `status`. -/
theorem C1_roundtrip_amended_witness :
    ∃ bytes, EncodePacket { Size := 0, RequestID := 7, Type_ := 2, Body := ascii "status" }
        = .ok bytes ∧
      DecodePacket bytes
        = .ok { Size := 16, RequestID := 7, Type_ := 2, Body := ascii "status" } :=
  C1_roundtrip_amended { Size := 0, RequestID := 7, Type_ := 2, Body := ascii "status" }
    (by decide) (by decide) (by decide) (by decide)

/-- C1 as stated fails on two counts. A body holding a zero byte (here the
ASCII, hence UTF-8, text `a\0b`) comes back cut at that byte; and the packets
the client builds, which leave Size at 0, come back with Size = len(Body)+10. -/
theorem C1_roundtrip_counterexample :
    (EncodePacket { Size := 13, RequestID := 1, Type_ := 2, Body := [97, 0, 98] }
        = .ok [13, 0, 0, 0, 1, 0, 0, 0, 2, 0, 0, 0, 97, 0, 98, 0, 0]
      ∧ DecodePacket [13, 0, 0, 0, 1, 0, 0, 0, 2, 0, 0, 0, 97, 0, 98, 0, 0]
        = .ok { Size := 13, RequestID := 1, Type_ := 2, Body := [97] }
      ∧ (∀ b ∈ ([97, 0, 98] : List Byte), b.val < 128))
    ∧ (EncodePacket { Size := 0, RequestID := 1, Type_ := 0, Body := [] }
        = .ok [10, 0, 0, 0, 1, 0, 0, 0, 0, 0, 0, 0, 0, 0]
      ∧ DecodePacket [10, 0, 0, 0, 1, 0, 0, 0, 0, 0, 0, 0, 0, 0]
        = .ok { Size := 10, RequestID := 1, Type_ := 0, Body := [] }
      ∧ ({ Size := 10, RequestID := 1, Type_ := 0, Body := [] } : Packet)
        ≠ { Size := 0, RequestID := 1, Type_ := 0, Body := [] }) := by
  decide

/-- `DecodePacket` does not read the four bytes of the size field for anything
but the Size it reports. -/
theorem DecodePacket_size_blind (s1 s2 rest : List Byte) (h1 : s1.length = 4)
    (h2 : s2.length = 4) :
    (DecodePacket (s1 ++ rest)).map (fun p => (p.RequestID, p.Type_, p.Body))
      = (DecodePacket (s2 ++ rest)).map (fun p => (p.RequestID, p.Type_, p.Body)) := by
  have hl : (s1 ++ rest).length = (s2 ++ rest).length := by
    simp only [List.length_append, h1, h2]
  have hd : ∀ (s : List Byte) (n : Nat), s.length = 4 → 4 ≤ n →
      (s ++ rest).drop n = rest.drop (n - 4) := by
    intro s n hs hn
    rw [List.drop_append_eq_append_drop, hs, List.drop_eq_nil_of_le (by omega), List.nil_append]
  have hd4 : (s1 ++ rest).drop 4 = (s2 ++ rest).drop 4 := by
    rw [hd s1 4 h1 (Nat.le_refl 4), hd s2 4 h2 (Nat.le_refl 4)]
  have hd8 : (s1 ++ rest).drop 8 = (s2 ++ rest).drop 8 := by
    rw [hd s1 8 h1 (by omega), hd s2 8 h2 (by omega)]
  have hd12 : (s1 ++ rest).drop 12 = (s2 ++ rest).drop 12 := by
    rw [hd s1 12 h1 (by omega), hd s2 12 h2 (by omega)]
  unfold DecodePacket
  rw [hl, hd4, hd8, hd12]
  by_cases hA : (s2 ++ rest).length < 12
  · simp only [if_pos hA, Except.map]
  · by_cases hB : (s2 ++ rest).length < 13
    · simp only [if_neg hA, if_pos hB, Except.map]
    · simp only [if_neg hA, if_neg hB]
      cases indexByte (List.drop 12 (s2 ++ rest)) 0 with
      | none => simp only [Except.map]
      | some k => simp only [Except.map]

/-- C3, as amended. EncodePacket writes the size len(Body)+10, never below 10,
and returns an error when that size is outside [10, 4096], that is above 4096.
ReadPacket returns an error for every input whose size field is outside
[10, 4096] (a size field of 9 is set aside). DecodePacket by itself does not
look at the size field: whether it succeeds, and the RequestID, Type and Body
it returns, are the same whatever the four bytes of the size field are. -/
theorem C3_size_guard_amended :
    (∀ p : Packet,
      (4096 < p.Body.length + 10 → EncodePacket p = .error (.bodyTooLarge p.Body.length)) ∧
      (p.Body.length + 10 ≤ 4096 → ∃ out, EncodePacket p = .ok out ∧
        uint32LE (out.take 4) = p.Body.length + 10 ∧ 10 ≤ uint32LE (out.take 4))) ∧
    (∀ r : Reader,
      (toInt32 (uint32LE (r.data.take 4)) < 10 ∨ 4096 < toInt32 (uint32LE (r.data.take 4))) →
      toInt32 (uint32LE (r.data.take 4)) ≠ 9 →
      ∃ e, (ReadPacket r).1 = .error e) ∧
    (∀ s1 s2 rest : List Byte, s1.length = 4 → s2.length = 4 →
      (DecodePacket (s1 ++ rest)).map (fun p => (p.RequestID, p.Type_, p.Body))
        = (DecodePacket (s2 ++ rest)).map (fun p => (p.RequestID, p.Type_, p.Body))) := by
  refine ⟨fun p => ⟨fun h => ?_, fun h => ?_⟩, fun r h h9 => ?_, DecodePacket_size_blind⟩
  · have h1 : 4 + 4 + p.Body.length + 1 + 1 > 4096 := by omega
    simp only [EncodePacket, h1, if_true]
  · refine ⟨_, EncodePacket_ok p (by omega), ?_⟩
    have e : uint32LE (List.take 4 (putUint32 (p.Body.length + 10) ++ putUint32 (toUint32 p.RequestID)
        ++ putUint32 (toUint32 p.Type_) ++ p.Body ++ [0, 0])) = p.Body.length + 10 := by
      simp only [List.append_assoc]
      rw [List.take_left' (putUint32_length _), uint32LE_putUint32]
      omega
    rw [e]
    omega
  · unfold ReadPacket
    by_cases h4 : r.data.length < 4
    · have hrf : ∃ e r1, readFull 4 r = (.error e, r1) := by
        unfold readFull
        simp only [show ¬ (4 = 0) by decide, if_false, show ¬ (4 ≤ r.data.length) by omega]
        split
        · exact ⟨_, _, rfl⟩
        · split <;> exact ⟨_, _, rfl⟩
      obtain ⟨e, r1, he⟩ := hrf
      rw [he]
      exact ⟨_, rfl⟩
    · have hrf : readFull 4 r = (.ok (r.data.take 4), { r with data := r.data.drop 4 }) := by
        unfold readFull
        simp only [show ¬ (4 = 0) by decide, if_false, show 4 ≤ r.data.length by omega, if_true]
      rw [hrf]
      simp only
      split
      · exact ⟨_, rfl⟩
      · rename_i hrange
        have hlt : toInt32 (uint32LE (List.take 4 r.data)) < 9 := by omega
        generalize hres : readFull (toInt32 (uint32LE (List.take 4 r.data))).toNat
          { r with data := r.data.drop 4 } = res
        obtain ⟨res1, r2⟩ := res
        cases res1 with
        | error e => exact ⟨_, rfl⟩
        | ok remainder =>
          have hl := (readFull_ok_length _ _ _ _ hres).1
          have hshort : (List.take 4 r.data ++ remainder).length < 13 := by
            simp only [List.length_append, List.length_take]
            omega
          simp only [DecodePacket]
          split
          · exact ⟨_, rfl⟩
          · exact ⟨_, rfl⟩

/-- C3 as stated fails: DecodePacket accepts fourteen bytes whose size field
says 5000, and fifteen bytes whose size field says 0. -/
theorem C3_size_guard_counterexample :
    (toInt32 (uint32LE [136, 19, 0, 0]) = 5000
      ∧ DecodePacket [136, 19, 0, 0, 1, 0, 0, 0, 0, 0, 0, 0, 0, 0]
        = .ok { Size := 5000, RequestID := 1, Type_ := 0, Body := [] })
    ∧ (toInt32 (uint32LE [0, 0, 0, 0]) = 0
      ∧ DecodePacket [0, 0, 0, 0, 1, 0, 0, 0, 0, 0, 0, 0, 97, 0, 0]
        = .ok { Size := 0, RequestID := 1, Type_ := 0, Body := [97] }) := by
  decide

/-- Witness of C3 as amended: the EXEC packet of `status` is encoded with the
size field 16, a frame announcing 8 bytes is refused by ReadPacket, and
DecodePacket gives the same fields for a frame under the size fields 5000 and
11. -/
theorem C3_size_guard_amended_witness :
    (∃ out, EncodePacket { Size := 0, RequestID := 1, Type_ := 2, Body := ascii "status" }
        = .ok out ∧ uint32LE (out.take 4) = 6 + 10 ∧ 10 ≤ uint32LE (out.take 4))
    ∧ (∃ e, (ReadPacket { data := [8, 0, 0, 0, 1, 0, 0, 0, 0, 0, 0, 0], atEnd := .EOF }).1
        = .error e)
    ∧ (DecodePacket ([136, 19, 0, 0] ++ [1, 0, 0, 0, 0, 0, 0, 0, 97, 0, 0])).map
          (fun p => (p.RequestID, p.Type_, p.Body))
        = (DecodePacket ([11, 0, 0, 0] ++ [1, 0, 0, 0, 0, 0, 0, 0, 97, 0, 0])).map
          (fun p => (p.RequestID, p.Type_, p.Body)) :=
  ⟨(C3_size_guard_amended.1
      { Size := 0, RequestID := 1, Type_ := 2, Body := ascii "status" }).2 (by decide),
   C3_size_guard_amended.2.1 { data := [8, 0, 0, 0, 1, 0, 0, 0, 0, 0, 0, 0], atEnd := .EOF }
      (Or.inl (by decide)) (by decide),
   C3_size_guard_amended.2.2 [136, 19, 0, 0] [11, 0, 0, 0]
      [1, 0, 0, 0, 0, 0, 0, 0, 97, 0, 0] rfl rfl⟩

/-- C4: for every packet whose Body has at most 4086 bytes, EncodePacket returns
LE32(len(Body)+10) ++ LE32(RequestID) ++ LE32(Type) ++ Body ++ [0, 0], each
integer as four little-endian bytes of its two's complement value, and the size
field, read back, equals the number of bytes that follow it. -/
theorem C4_encode_layout (p : Packet) (h : p.Body.length ≤ 4086) :
    ∃ out, EncodePacket p = .ok out ∧
      out = putUint32 (p.Body.length + 10) ++ putUint32 (toUint32 p.RequestID)
        ++ putUint32 (toUint32 p.Type_) ++ p.Body ++ [0, 0] ∧
      uint32LE (putUint32 (toUint32 p.RequestID)) = (p.RequestID % 4294967296).toNat ∧
      uint32LE (putUint32 (toUint32 p.Type_)) = (p.Type_ % 4294967296).toNat ∧
      uint32LE (out.take 4) = p.Body.length + 10 ∧
      uint32LE (out.take 4) = (out.drop 4).length := by
  refine ⟨_, EncodePacket_ok p h, rfl, ?_, ?_, ?_, ?_⟩
  · rw [uint32LE_putUint32, Nat.mod_eq_of_lt (toUint32_lt _)]
    rfl
  · rw [uint32LE_putUint32, Nat.mod_eq_of_lt (toUint32_lt _)]
    rfl
  · simp only [List.append_assoc]
    rw [List.take_left' (putUint32_length _), uint32LE_putUint32]
    omega
  · simp only [List.append_assoc]
    rw [List.take_left' (putUint32_length _), List.drop_left' (putUint32_length _),
      uint32LE_putUint32]
    simp [putUint32_length]
    omega

/-- Witness of C4: the AUTH packet with request-id -1 and body `pw`. -/
theorem C4_encode_layout_witness :
    ∃ out, EncodePacket { Size := 0, RequestID := -1, Type_ := 3, Body := ascii "pw" } = .ok out ∧
      out = putUint32 (2 + 10) ++ putUint32 (toUint32 (-1))
        ++ putUint32 (toUint32 3) ++ ascii "pw" ++ [0, 0] ∧
      uint32LE (putUint32 (toUint32 (-1))) = ((-1 : Int) % 4294967296).toNat ∧
      uint32LE (putUint32 (toUint32 3)) = ((3 : Int) % 4294967296).toNat ∧
      uint32LE (out.take 4) = 2 + 10 ∧
      uint32LE (out.take 4) = (out.drop 4).length :=
  C4_encode_layout { Size := 0, RequestID := -1, Type_ := 3, Body := ascii "pw" } (by decide)

/-! ## Request ids -/

theorem nextRequestID_fst (c : Client) : c.nextRequestID.1 = c.requestID := rfl

theorem nextRequestID_snd (c : Client) (h1 : 1 ≤ c.requestID) (h2 : c.requestID ≤ 2147483647) :
    c.nextRequestID.2.requestID = if c.requestID = 2147483647 then 1 else c.requestID + 1 := by
  simp only [Client.nextRequestID, wrapInt32, toInt32, toUint32]
  split <;> split <;> split <;> omega

theorem nthRequestID_closed (n : Nat) : ∀ c : Client, 1 ≤ c.requestID → c.requestID ≤ 2147483647 →
    nthRequestID c n = (c.requestID - 1 + n) % 2147483647 + 1 := by
  induction n with
  | zero =>
    intro c h1 h2
    simp only [nthRequestID, nextRequestID_fst]
    omega
  | succ k ih =>
    intro c h1 h2
    have hs := nextRequestID_snd c h1 h2
    have ih2 := ih c.nextRequestID.2 (by rw [hs]; split <;> omega) (by rw [hs]; split <;> omega)
    simp only [nthRequestID]
    rw [ih2, hs]
    split <;> omega

/-- The sentinel id differs from the command id, whatever the counter holds. -/
theorem sentinel_ne (c : Client) :
    c.nextRequestID.2.nextRequestID.1 ≠ c.nextRequestID.1
      ∧ isInt32 c.nextRequestID.2.nextRequestID.1 := by
  unfold isInt32
  simp only [Client.nextRequestID, wrapInt32, toInt32, toUint32]
  split <;> split <;> omega

/-- C5: on a client created by NewClient, the first id returned by
nextRequestID is 1; every id returned lies in [1, 2^31-1], so it is never 0 or
negative; each later id is the previous one plus 1, except that the id after
2^31-1 is 1; and that wrap does happen, at call number 2^31. -/
theorem C5_request_ids (addr : String) (password : List Byte) :
    nthRequestID (NewClient addr password) 0 = 1 ∧
    (∀ n, 1 ≤ nthRequestID (NewClient addr password) n ∧
      nthRequestID (NewClient addr password) n ≤ 2147483647 ∧
      nthRequestID (NewClient addr password) (n + 1) =
        if nthRequestID (NewClient addr password) n = 2147483647 then 1
        else nthRequestID (NewClient addr password) n + 1) ∧
    nthRequestID (NewClient addr password) 2147483646 = 2147483647 ∧
    nthRequestID (NewClient addr password) 2147483647 = 1 := by
  have h1 : (NewClient addr password).requestID = 1 := rfl
  have hc := fun n => nthRequestID_closed n (NewClient addr password) (by rw [h1]) (by rw [h1]; decide)
  refine ⟨rfl, fun n => ?_, ?_, ?_⟩
  · rw [hc n, hc (n + 1), h1]
    refine ⟨by omega, by omega, ?_⟩
    split <;> omega
  · rw [hc, h1]
    omega
  · rw [hc, h1]
    omega

/-! ## The read loop of Execute -/

theorem ReadPacket_ok_length (r : Reader) (p : Packet) (h : (ReadPacket r).1 = .ok p) :
    (ReadPacket r).2.data.length + 4 ≤ r.data.length := by
  unfold ReadPacket at h ⊢
  generalize hres : readFull 4 r = res at h ⊢
  obtain ⟨res1, r1⟩ := res
  cases res1 with
  | error e => simp at h
  | ok sizeBuf =>
    have hl := (readFull_ok_length _ _ _ _ hres).2
    simp only at h ⊢
    split
    · rename_i hbad
      rw [if_pos hbad] at h
      simp at h
    · generalize hres2 : readFull (toInt32 (uint32LE sizeBuf)).toNat r1 = res2
      obtain ⟨res3, r2⟩ := res2
      cases res3 with
      | error e =>
        rename_i hgood
        rw [if_neg hgood, hres2] at h
        simp at h
      | ok remainder =>
        have hl2 := (readFull_ok_length _ _ _ _ hres2).2
        simp only
        omega

/-- The loop on a stream that gives the frames `ps`, none of them the sentinel,
and then fails: a clean end of stream ends the loop with the text collected, any
other error is returned. -/
theorem executeLoop_fails (reqID sentinelID : Int) (err : Err) :
    ∀ (ps : List Packet) (fuel : Nat) (r : Reader) (out : List Byte),
      r.data.length < fuel → readsThenFails ps r err →
      (∀ p ∈ ps, ¬ isSentinel sentinelID p) →
      ∃ r1, executeLoop reqID sentinelID fuel r out
        = some (if err = .io .EOF then .ok (out ++ collect reqID ps)
                else .error (.wrap "rcon: execute read" err), r1) := by
  intro ps
  induction ps with
  | nil =>
    intro fuel r out hf hr _
    obtain ⟨f, rfl⟩ : ∃ f, fuel = f + 1 := ⟨fuel - 1, by omega⟩
    unfold readsThenFails at hr
    unfold executeLoop
    generalize ReadPacket r = res at hr
    obtain ⟨res1, r1⟩ := res
    simp only at hr
    subst hr
    simp only [collect, List.append_nil]
    split <;> exact ⟨_, rfl⟩
  | cons p ps ih =>
    intro fuel r out hf hr hns
    obtain ⟨f, rfl⟩ : ∃ f, fuel = f + 1 := ⟨fuel - 1, by omega⟩
    unfold readsThenFails at hr
    obtain ⟨hp, hrest⟩ := hr
    have hlen := ReadPacket_ok_length r p hp
    have hnp : ¬ isSentinel sentinelID p := hns p (by simp)
    unfold isSentinel at hnp
    unfold executeLoop
    generalize ReadPacket r = res at hp hrest hlen
    obtain ⟨res1, r1⟩ := res
    simp only at hp hrest hlen
    subst hp
    simp only [if_neg hnp]
    have hns2 : ∀ q ∈ ps, ¬ isSentinel sentinelID q := fun q hq => hns q (by simp [hq])
    by_cases hcmd : p.RequestID = reqID ∧ p.Type_ = PacketTypeResponseValue
    · obtain ⟨r2, h2⟩ := ih f r1 (out ++ p.Body) (by omega) hrest hns2
      refine ⟨r2, ?_⟩
      rw [if_pos hcmd, h2]
      simp only [collect, if_pos hcmd, List.append_assoc]
    · obtain ⟨r2, h2⟩ := ih f r1 out (by omega) hrest hns2
      refine ⟨r2, ?_⟩
      rw [if_neg hcmd, h2]
      simp only [collect, if_neg hcmd]

theorem valueFrame_eq (requestID : Int) (body : List Byte) (h : body.length ≤ 4086) :
    valueFrame requestID body = putUint32 (body.length + 10) ++ putUint32 (toUint32 requestID)
      ++ putUint32 (toUint32 0) ++ body ++ [0, 0] := by
  unfold valueFrame wire
  rw [EncodePacket_ok _ h]
  rfl

/-- One round of the loop after a frame has been read. -/
theorem executeLoop_step_ok (reqID sentinelID : Int) (fuel : Nat) (r r1 : Reader)
    (out : List Byte) (p : Packet) (h : ReadPacket r = (.ok p, r1)) :
    executeLoop reqID sentinelID (fuel + 1) r out
      = if p.RequestID = sentinelID ∧ p.Type_ = PacketTypeResponseValue ∧ p.Body = [] then
          some (.ok out, r1)
        else if p.RequestID = reqID ∧ p.Type_ = PacketTypeResponseValue then
          executeLoop reqID sentinelID fuel r1 (out ++ p.Body)
        else executeLoop reqID sentinelID fuel r1 out := by
  rw [executeLoop, h]

theorem valueFrame_length (requestID : Int) (body : List Byte) (h : body.length ≤ 4086) :
    (valueFrame requestID body).length = body.length + 14 := by
  rw [valueFrame_eq requestID body h]
  simp only [List.length_append, putUint32_length, List.length_cons, List.length_nil]
  omega

/-- The loop on a stream of VALUE frames of the command followed by the echo of
the sentinel: it ends with the bodies concatenated, and leaves what follows. -/
theorem executeLoop_frames (reqID sentinelID : Int) (hne : sentinelID ≠ reqID)
    (hR : isInt32 reqID) (hS : isInt32 sentinelID) (e : IOError) (rest : List Byte) :
    ∀ (bodies : List (List Byte)) (fuel : Nat) (out : List Byte),
      (∀ b ∈ bodies, (0 : Byte) ∉ b ∧ b.length ≤ 4086) →
      ((bodies.map (valueFrame reqID)).flatten ++ valueFrame sentinelID [] ++ rest).length < fuel →
      executeLoop reqID sentinelID fuel
          { data := (bodies.map (valueFrame reqID)).flatten ++ valueFrame sentinelID [] ++ rest,
            atEnd := e } out
        = some (.ok (out ++ bodies.flatten), { data := rest, atEnd := e }) := by
  have h0 : isInt32 0 := by decide
  intro bodies
  induction bodies with
  | nil =>
    intro fuel out _ hf
    obtain ⟨f, rfl⟩ : ∃ f, fuel = f + 1 := ⟨fuel - 1, by omega⟩
    have hrd := ReadPacket_frame sentinelID 0 [] rest e hS h0 (List.not_mem_nil 0)
      (Nat.zero_le 4086)
    rw [← valueFrame_eq sentinelID [] (Nat.zero_le 4086)] at hrd
    simp only [List.map_nil, List.flatten_nil, List.nil_append, List.append_nil]
    rw [executeLoop_step_ok reqID sentinelID f _ _ out _ hrd]
    have hs : sentinelID = sentinelID ∧ (0 : Int) = PacketTypeResponseValue
        ∧ ([] : List Byte) = [] := ⟨rfl, rfl, rfl⟩
    rw [if_pos hs]
  | cons b bs ih =>
    intro fuel out hb hf
    obtain ⟨f, rfl⟩ : ∃ f, fuel = f + 1 := ⟨fuel - 1, by omega⟩
    obtain ⟨hz, hl⟩ := hb b (List.mem_cons_self b bs)
    have hbs : ∀ x ∈ bs, (0 : Byte) ∉ x ∧ x.length ≤ 4086 :=
      fun x hx => hb x (List.mem_cons_of_mem b hx)
    have hrd := ReadPacket_frame reqID 0 b
      ((bs.map (valueFrame reqID)).flatten ++ valueFrame sentinelID [] ++ rest) e hR h0 hz hl
    rw [← valueFrame_eq reqID b hl] at hrd
    have hdata : ((b :: bs).map (valueFrame reqID)).flatten ++ valueFrame sentinelID [] ++ rest
        = valueFrame reqID b
          ++ ((bs.map (valueFrame reqID)).flatten ++ valueFrame sentinelID [] ++ rest) := by
      simp only [List.map_cons, List.flatten_cons, List.append_assoc]
    rw [hdata] at hf ⊢
    rw [executeLoop_step_ok reqID sentinelID f _ _ out _ hrd]
    have hns : ¬ (reqID = sentinelID ∧ (0 : Int) = PacketTypeResponseValue ∧ b = []) :=
      fun h => hne h.1.symm
    have hcmd : reqID = reqID ∧ (0 : Int) = PacketTypeResponseValue := ⟨rfl, rfl⟩
    rw [if_neg hns, if_pos hcmd]
    have hfu : ((bs.map (valueFrame reqID)).flatten ++ valueFrame sentinelID [] ++ rest).length
        < f := by
      rw [List.length_append, valueFrame_length reqID b hl] at hf
      omega
    rw [ih f (out ++ b) hbs hfu, List.flatten_cons, List.append_assoc]

/-- The loop never uses up a fuel greater than the number of bytes to come. -/
theorem executeLoop_isSome (reqID sentinelID : Int) :
    ∀ (fuel : Nat) (r : Reader) (out : List Byte), r.data.length < fuel →
      (executeLoop reqID sentinelID fuel r out).isSome := by
  intro fuel
  induction fuel with
  | zero => intro r out h; omega
  | succ f ih =>
    intro r out h
    unfold executeLoop
    cases hres : (ReadPacket r).1 with
    | error e =>
      generalize ReadPacket r = res at hres
      obtain ⟨res1, r1⟩ := res
      simp only at hres
      subst hres
      simp only
      split <;> rfl
    | ok p =>
      have hlen := ReadPacket_ok_length r p hres
      generalize ReadPacket r = res at hres hlen
      obtain ⟨res1, r1⟩ := res
      simp only at hres hlen
      subst hres
      simp only
      split
      · rfl
      · split
        · exact ih r1 _ (by omega)
        · exact ih r1 _ (by omega)

/-! ## Sending -/

theorem sendPacketLocked_ok (conn : Conn) (p : Packet) (hlen : p.Body.length ≤ 4086)
    (hw : ∀ w ∈ conn.writes.take 1, w = .full) :
    sendPacketLocked conn p
      = (none, { conn with written := conn.written ++ wire p, writes := conn.writes.tail }) := by
  obtain ⟨rd, written, writes, closeErr⟩ := conn
  unfold sendPacketLocked wire
  rw [EncodePacket_ok p hlen]
  cases writes with
  | nil => simp [Conn.Write]
  | cons w ws =>
    have hfull : w = .full := hw w (by simp)
    subst hfull
    simp [Conn.Write]

theorem Conn_Write_rd (conn : Conn) (data : List Byte) : (conn.Write data).2.rd = conn.rd := by
  unfold Conn.Write
  split <;> rfl

theorem sendPacketLocked_rd (conn : Conn) (p : Packet) :
    (sendPacketLocked conn p).2.rd = conn.rd := by
  unfold sendPacketLocked
  cases EncodePacket p with
  | error e => rfl
  | ok data =>
    have hw := Conn_Write_rd conn data
    simp only
    generalize conn.Write data = res at hw ⊢
    obtain ⟨⟨n, werr⟩, conn1⟩ := res
    simp only at hw
    cases werr with
    | some e => exact hw
    | none =>
      simp only
      split <;> exact hw

/-! ## Execute -/

/-- When both frames are sent, the result of `Execute` is that of the read loop
on the connection's incoming bytes. -/
theorem Execute_fst (c : Client) (conn : Conn) (command : List Byte)
    (hconn : c.connected = true) (hc : c.conn = some conn) (hcmd : command.length ≤ 4086)
    (hw : ∀ w ∈ conn.writes.take 2, w = .full) :
    ∃ res rd, executeLoop c.nextRequestID.1 c.nextRequestID.2.nextRequestID.1
        (conn.rd.data.length + 1) conn.rd [] = some (res, rd)
      ∧ (c.Execute command).1 = res := by
  obtain ⟨addr, password, conn0, requestID, connected⟩ := c
  simp only at hconn hc
  subst hconn hc
  have hw1 : ∀ w ∈ conn.writes.take 1, w = .full := by
    intro w hw1
    apply hw w
    cases hws : conn.writes with
    | nil => simp [hws] at hw1
    | cons a as =>
      simp [hws] at hw1
      simp [hw1]
  have hw2 : ∀ w ∈ conn.writes.tail.take 1, w = .full := by
    intro w hw2
    apply hw w
    cases hws : conn.writes with
    | nil => simp [hws] at hw2
    | cons a as =>
      cases has : as with
      | nil => simp [hws, has] at hw2
      | cons b bs =>
        simp [hws, has] at hw2
        simp [hw2]
  have hsome := executeLoop_isSome
    (Client.nextRequestID ⟨addr, password, some conn, requestID, true⟩).1
    (Client.nextRequestID (Client.nextRequestID ⟨addr, password, some conn, requestID, true⟩).2).1
    (conn.rd.data.length + 1) conn.rd [] (by omega)
  obtain ⟨⟨res, rd⟩, hloop⟩ := Option.isSome_iff_exists.mp hsome
  refine ⟨res, rd, hloop, ?_⟩
  simp only [Client.nextRequestID] at hloop
  simp only [Client.Execute, Client.nextRequestID]
  rw [sendPacketLocked_ok conn _ hcmd hw1]
  simp only
  rw [sendPacketLocked_ok _ _ (by simp) hw2]
  simp only [hloop]

/-- C2: in Client.Execute, with R the request-id drawn for the command and S
the one drawn for the sentinel, if the bytes that arrive are k >= 0 VALUE frames
with request-id R and bodies b1..bk (any of them may be empty) followed by a
VALUE frame with request-id S and empty body, then Execute returns exactly
b1 ++ ... ++ bk and no error. The command and the sentinel are taken to have been
sent (the command fits a frame, the two writes succeed). -/
theorem C2_sentinel_reassembly (c : Client) (conn : Conn) (command : List Byte)
    (bodies : List (List Byte)) (rest : List Byte)
    (hconn : c.connected = true) (hc : c.conn = some conn) (hid : isInt32 c.requestID)
    (hcmd : command.length ≤ 4086) (hw : ∀ w ∈ conn.writes.take 2, w = .full)
    (hb : ∀ b ∈ bodies, (0 : Byte) ∉ b ∧ b.length ≤ 4086)
    (hin : conn.rd.data = (bodies.map (valueFrame c.nextRequestID.1)).flatten
      ++ valueFrame c.nextRequestID.2.nextRequestID.1 [] ++ rest) :
    (c.Execute command).1 = .ok bodies.flatten := by
  obtain ⟨res, rd, hloop, hres⟩ := Execute_fst c conn command hconn hc hcmd hw
  obtain ⟨hne, hS⟩ := sentinel_ne c
  have hfr := executeLoop_frames c.nextRequestID.1 c.nextRequestID.2.nextRequestID.1 hne hid hS
    conn.rd.atEnd rest bodies (conn.rd.data.length + 1) [] hb (by rw [hin]; omega)
  rw [← hin] at hfr
  rw [hfr] at hloop
  simp only [Option.some.injEq, Prod.mk.injEq, List.nil_append] at hloop
  rw [hres, ← hloop.1]

/-- Witness of C2, scenario S3: the server answers `status` with the VALUE
frames `hostn`, `ame: x` and an empty one carrying the command's id 1, then
echoes the sentinel, id 2; Execute returns `hostname: x`. -/
theorem C2_sentinel_reassembly_witness :
    (Client.Execute
      { addr := "127.0.0.1:27015", password := ascii "cs2admin", requestID := 1,
        connected := true,
        conn := some
          { rd := { data := valueFrame 1 (ascii "hostn") ++ valueFrame 1 (ascii "ame: x")
                      ++ valueFrame 1 [] ++ valueFrame 2 [], atEnd := .other "i/o timeout" },
            written := [], writes := [], closeErr := none } }
      (ascii "status")).1 = .ok (ascii "hostname: x") :=
  C2_sentinel_reassembly
    { addr := "127.0.0.1:27015", password := ascii "cs2admin", requestID := 1,
      connected := true,
      conn := some
        { rd := { data := valueFrame 1 (ascii "hostn") ++ valueFrame 1 (ascii "ame: x")
                    ++ valueFrame 1 [] ++ valueFrame 2 [], atEnd := .other "i/o timeout" },
          written := [], writes := [], closeErr := none } }
    { rd := { data := valueFrame 1 (ascii "hostn") ++ valueFrame 1 (ascii "ame: x")
                ++ valueFrame 1 [] ++ valueFrame 2 [], atEnd := .other "i/o timeout" },
      written := [], writes := [], closeErr := none }
    (ascii "status") [ascii "hostn", ascii "ame: x", []] []
    rfl rfl (by decide) (by decide) (by decide) (by decide) (by decide)

/-! ## A stream that stops before the sentinel -/

/-- Reading a frame from a stream that stops before the frame is complete: the
error is the one of the stream when nothing of the part being read has arrived,
and otherwise `ErrUnexpectedEOF` for a closed stream, the error of the stream
for another one. -/
theorem ReadPacket_incomplete (tail : List Byte) (e : IOError)
    (htail : tail.length < 4 ∨
      (0 ≤ toInt32 (uint32LE (tail.take 4)) ∧ toInt32 (uint32LE (tail.take 4)) ≤ 4096 ∧
        tail.length < 4 + (toInt32 (uint32LE (tail.take 4))).toNat)) :
    (ReadPacket { data := tail, atEnd := e }).1
      = .error (.io (if tail.length = 0 ∨ tail.length = 4 then e
                     else if e = .EOF then .ErrUnexpectedEOF else e)) := by
  unfold ReadPacket
  by_cases h4 : tail.length < 4
  · have hn : ¬ (4 ≤ tail.length) := by omega
    unfold readFull
    simp only [show ¬ (4 = 0) by decide, if_false, hn]
    by_cases h0 : tail = []
    · subst h0
      simp
    · have hl : ¬ (tail.length = 0 ∨ tail.length = 4) := by
        have : tail.length ≠ 0 := fun h => h0 (List.length_eq_zero.mp h)
        omega
      simp only [h0, if_false, hl]
      by_cases he : e = .EOF
      · simp [he]
      · simp [he]
  · rcases htail with h | ⟨hs0, hs1, hlt⟩
    · exact absurd h h4
    · have hrf : readFull 4 { data := tail, atEnd := e }
          = (.ok (tail.take 4), { data := tail.drop 4, atEnd := e }) := by
        unfold readFull
        simp only [show ¬ (4 = 0) by decide, if_false, show 4 ≤ tail.length by omega, if_true]
      rw [hrf]
      simp only
      have hrange : ¬ (toInt32 (uint32LE (List.take 4 tail)) < 0
          ∨ toInt32 (uint32LE (List.take 4 tail)) > 4096) := by omega
      rw [if_neg hrange]
      generalize (toInt32 (uint32LE (List.take 4 tail))).toNat = n at hlt
      have hn0 : ¬ (n = 0) := by omega
      have hnl : ¬ (n ≤ (tail.drop 4).length) := by
        rw [List.length_drop]
        omega
      unfold readFull
      simp only [hn0, if_false, hnl]
      by_cases hd : tail.drop 4 = []
      · have hl4 : tail.length = 4 := by
          have := congrArg List.length hd
          rw [List.length_drop, List.length_nil] at this
          omega
        simp [hd, hl4]
      · have hl : ¬ (tail.length = 0 ∨ tail.length = 4) := by
          have : (tail.drop 4).length ≠ 0 := fun h => hd (List.length_eq_zero.mp h)
          rw [List.length_drop] at this
          omega
        simp only [hd, if_false, hl]
        by_cases he : e = .EOF
        · simp [he]
        · simp [he]

/-- A stream of complete VALUE frames followed by a part that fails gives the
frames and then the failure. -/
theorem reads_frames_then_fails (reqID : Int) (hR : isInt32 reqID) (e : IOError)
    (tail : List Byte) (err : Err)
    (hfail : (ReadPacket { data := tail, atEnd := e }).1 = .error err) :
    ∀ bodies : List (List Byte), (∀ b ∈ bodies, (0 : Byte) ∉ b ∧ b.length ≤ 4086) →
      readsThenFails
        (bodies.map (fun b => { Size := (b.length + 10 : Nat), RequestID := reqID,
                                Type_ := PacketTypeResponseValue, Body := b }))
        { data := (bodies.map (valueFrame reqID)).flatten ++ tail, atEnd := e } err := by
  intro bodies
  induction bodies with
  | nil =>
    intro _
    simpa [readsThenFails] using hfail
  | cons b bs ih =>
    intro hb
    obtain ⟨hz, hl⟩ := hb b (List.mem_cons_self b bs)
    have hrd := ReadPacket_frame reqID 0 b ((bs.map (valueFrame reqID)).flatten ++ tail) e hR
      (by decide) hz hl
    rw [← valueFrame_eq reqID b hl] at hrd
    have hdata : ((b :: bs).map (valueFrame reqID)).flatten ++ tail
        = valueFrame reqID b ++ ((bs.map (valueFrame reqID)).flatten ++ tail) := by
      simp only [List.map_cons, List.flatten_cons, List.append_assoc]
    rw [hdata, List.map_cons]
    unfold readsThenFails
    rw [hrd]
    exact ⟨rfl, ih (fun x hx => hb x (List.mem_cons_of_mem b hx))⟩

theorem collect_frames (reqID : Int) (bodies : List (List Byte)) :
    collect reqID (bodies.map (fun b => { Size := (b.length + 10 : Nat), RequestID := reqID,
                                          Type_ := PacketTypeResponseValue, Body := b }))
      = bodies.flatten := by
  induction bodies with
  | nil => rfl
  | cons b bs ih =>
    rw [List.map_cons, collect, if_pos ⟨rfl, rfl⟩, ih, List.flatten_cons]

/-- `Execute` on a stream of complete VALUE frames of the command followed by a
part on which the read fails. -/
theorem Execute_frames_then_fails (c : Client) (conn : Conn) (command : List Byte)
    (bodies : List (List Byte)) (tail : List Byte) (err : Err)
    (hconn : c.connected = true) (hc : c.conn = some conn) (hid : isInt32 c.requestID)
    (hcmd : command.length ≤ 4086) (hw : ∀ w ∈ conn.writes.take 2, w = .full)
    (hb : ∀ b ∈ bodies, (0 : Byte) ∉ b ∧ b.length ≤ 4086)
    (hin : conn.rd.data = (bodies.map (valueFrame c.nextRequestID.1)).flatten ++ tail)
    (hfail : (ReadPacket { data := tail, atEnd := conn.rd.atEnd }).1 = .error err) :
    (c.Execute command).1
      = (if err = .io .EOF then .ok bodies.flatten
         else .error (.wrap "rcon: execute read" err)) := by
  obtain ⟨res, rd, hloop, hres⟩ := Execute_fst c conn command hconn hc hcmd hw
  obtain ⟨hne, hS⟩ := sentinel_ne c
  have hreads := reads_frames_then_fails c.nextRequestID.1 hid conn.rd.atEnd tail err hfail
    bodies hb
  rw [← hin] at hreads
  obtain ⟨r1, hfl⟩ := executeLoop_fails c.nextRequestID.1 c.nextRequestID.2.nextRequestID.1 err
    _ (conn.rd.data.length + 1) conn.rd [] (by omega) hreads
    (fun p hp => by
      obtain ⟨b, _, rfl⟩ := List.mem_map.mp hp
      exact fun hsent => hne hsent.1.symm)
  rw [hfl] at hloop
  simp only [Option.some.injEq, Prod.mk.injEq, List.nil_append] at hloop
  rw [hres, ← hloop.1, collect_frames]

/-- C7, as amended: when the command and the sentinel have been sent and,
after any number of complete VALUE frames of the command, the stream stops
before the next frame is complete, then: if what ends the stream is a read
error or a timeout, Execute returns that error, wrapped, and no text; if the
stream is closed after part of the size field or part of what follows the size
field has arrived, Execute returns the wrapped error of a short read and no
text; if the stream is closed at the boundary between two frames, before the
sentinel, Execute stops reading and returns without error the text collected
so far. -/
theorem C7_read_error_amended (c : Client) (conn : Conn) (command : List Byte)
    (bodies : List (List Byte)) (tail : List Byte)
    (hconn : c.connected = true) (hc : c.conn = some conn) (hid : isInt32 c.requestID)
    (hcmd : command.length ≤ 4086) (hw : ∀ w ∈ conn.writes.take 2, w = .full)
    (hb : ∀ b ∈ bodies, (0 : Byte) ∉ b ∧ b.length ≤ 4086)
    (hin : conn.rd.data = (bodies.map (valueFrame c.nextRequestID.1)).flatten ++ tail)
    (htail : tail.length < 4 ∨
      (0 ≤ toInt32 (uint32LE (tail.take 4)) ∧ toInt32 (uint32LE (tail.take 4)) ≤ 4096 ∧
        tail.length < 4 + (toInt32 (uint32LE (tail.take 4))).toNat)) :
    (conn.rd.atEnd ≠ .EOF →
      (c.Execute command).1 = .error (.wrap "rcon: execute read" (.io conn.rd.atEnd))) ∧
    (conn.rd.atEnd = .EOF → tail ≠ [] → tail.length ≠ 4 →
      (c.Execute command).1 = .error (.wrap "rcon: execute read" (.io .ErrUnexpectedEOF))) ∧
    (conn.rd.atEnd = .EOF → tail = [] → (c.Execute command).1 = .ok bodies.flatten) := by
  have hfail := ReadPacket_incomplete tail conn.rd.atEnd htail
  refine ⟨?_, ?_, ?_⟩
  · intro he
    have h1 : (if tail.length = 0 ∨ tail.length = 4 then conn.rd.atEnd
        else if conn.rd.atEnd = .EOF then .ErrUnexpectedEOF else conn.rd.atEnd)
        = conn.rd.atEnd := by
      split
      · rfl
      · simp only [if_neg he]
    rw [h1] at hfail
    rw [Execute_frames_then_fails c conn command bodies tail _ hconn hc hid hcmd hw hb hin hfail,
      if_neg (by simpa using he)]
  · intro he h0 h4
    have hl : ¬ (tail.length = 0 ∨ tail.length = 4) := by
      have : tail.length ≠ 0 := fun h => h0 (List.length_eq_zero.mp h)
      omega
    rw [if_neg hl, if_pos he] at hfail
    rw [Execute_frames_then_fails c conn command bodies tail _ hconn hc hid hcmd hw hb hin hfail,
      if_neg (by simp)]
  · intro he h0
    have hl : tail.length = 0 ∨ tail.length = 4 := Or.inl (by rw [h0]; rfl)
    rw [if_pos hl] at hfail
    rw [Execute_frames_then_fails c conn command bodies tail _ hconn hc hid hcmd hw hb hin hfail,
      if_pos (by rw [he])]

/-- Witness of C7 as amended: one VALUE frame `abc` of the command arrives, then
two bytes of the next size field, and the server closes the stream; Execute
returns the wrapped error of a short read and no text. -/
theorem C7_read_error_amended_witness :
    (Client.Execute
      { addr := "127.0.0.1:27015", password := ascii "cs2admin", requestID := 1,
        connected := true,
        conn := some { rd := { data := valueFrame 1 (ascii "abc") ++ [14, 0], atEnd := .EOF },
                       written := [], writes := [], closeErr := none } }
      (ascii "status")).1
      = .error (.wrap "rcon: execute read" (.io .ErrUnexpectedEOF)) :=
  (C7_read_error_amended
    { addr := "127.0.0.1:27015", password := ascii "cs2admin", requestID := 1,
      connected := true,
      conn := some { rd := { data := valueFrame 1 (ascii "abc") ++ [14, 0], atEnd := .EOF },
                     written := [], writes := [], closeErr := none } }
    { rd := { data := valueFrame 1 (ascii "abc") ++ [14, 0], atEnd := .EOF },
      written := [], writes := [], closeErr := none }
    (ascii "status") [ascii "abc"] [14, 0]
    rfl rfl (by decide) (by decide) (by decide) (by decide) (by decide)
    (Or.inl (by decide))).2.1 rfl (by decide) (by decide)

/-- C7 as stated fails: one VALUE frame `abc` of the command arrives and the
server then closes the stream, before any sentinel. The read of the next frame
fails with io.EOF, and Execute returns the text `abc` and no error. -/
theorem C7_read_error_counterexample :
    (Client.Execute
        { addr := "127.0.0.1:27015", password := ascii "cs2admin", requestID := 1,
          connected := true,
          conn := some { rd := { data := valueFrame 1 (ascii "abc"), atEnd := .EOF },
                         written := [], writes := [], closeErr := none } }
        (ascii "status")).1 = .ok (ascii "abc") := by
  decide

/-! ## Connect -/

/-- The exchange of `authenticate` when the first frame the server sends carries
request-id -1: an error, and the authentication error if the AUTH frame went out. -/
theorem authenticate_refused (c : Client) (conn : Conn) (resp : Packet)
    (hr : (ReadPacket conn.rd).1 = .ok resp) (hid : resp.RequestID = -1) :
    (∃ e, (c.authenticate conn).1 = some e) ∧
    (c.password.length ≤ 4086 → (∀ w ∈ conn.writes.take 1, w = .full) →
      (c.authenticate conn).1 = some .authFailed) := by
  obtain ⟨addr, password, conn0, requestID, connected⟩ := c
  have hrd := sendPacketLocked_rd conn
    { Size := 0, RequestID := requestID, Type_ := PacketTypeAuth, Body := password }
  simp only [Client.authenticate, Client.nextRequestID]
  cases hsend : sendPacketLocked conn
    { Size := 0, RequestID := requestID, Type_ := PacketTypeAuth, Body := password } with
  | mk serr conn1 =>
    rw [hsend] at hrd
    simp only at hrd
    cases serr with
    | some e =>
      refine ⟨⟨_, rfl⟩, ?_⟩
      intro hlen hw
      rw [sendPacketLocked_ok conn _ hlen hw] at hsend
      simp at hsend
    | none =>
      simp only [readPacketLocked, hrd]
      cases hres : ReadPacket conn.rd with
      | mk res1 r1 =>
        rw [hres] at hr
        simp only at hr
        subst hr
        simp only [hid, if_true]
        exact ⟨⟨_, rfl⟩, fun _ _ => trivial⟩

/-- What `Connect` does on a client that is not connected when the dial
succeeds and the first frame the server sends carries request-id -1: it fails,
with the authentication error if the AUTH frame went out, and leaves the client
without connection. -/
theorem Connect_auth_refused (dial : String → Except IOError Conn) (c : Client) (conn : Conn)
    (resp : Packet) (hnc : c.connected = false) (hd : dial c.addr = .ok conn)
    (hr : (ReadPacket conn.rd).1 = .ok resp) (hid : resp.RequestID = -1) :
    (∃ e, (c.Connect dial).err = some e) ∧
    (c.Connect dial).client.connected = false ∧
    (c.Connect dial).client.conn = none ∧
    (c.Connect dial).dialed = [c.addr] ∧
    (c.password.length ≤ 4086 → (∀ w ∈ conn.writes.take 1, w = .full) →
      (c.Connect dial).err = some .authFailed) := by
  obtain ⟨⟨e, he⟩, hauth⟩ := authenticate_refused
    { c with conn := some conn, connected := true } conn resp hr hid
  have hf : ¬ (c.connected = true) := by simp [hnc]
  simp only [Client.Connect, if_neg hf, hd]
  cases hres : Client.authenticate { c with conn := some conn, connected := true } conn with
  | mk aerr c2 =>
    rw [hres] at he hauth
    simp only at he hauth
    subst he
    simp only
    refine ⟨⟨_, rfl⟩, ?_, ?_, ?_, ?_⟩ <;> trivial

theorem Execute_not_connected (c : Client) (command : List Byte)
    (h : c.connected = false ∨ c.conn = none) :
    c.Execute command = (.error .notConnected, c) := by
  obtain ⟨addr, password, conn0, requestID, connected⟩ := c
  simp only at h
  unfold Client.Execute
  rcases h with h | h
  · subst h
    rfl
  · subst h
    cases connected <;> rfl

/-- C6: when the client is not yet connected, the dial succeeds and the frame
the server sends in response to AUTH carries request-id -1, Client.Connect
returns an error (the authentication failure, once the AUTH frame has gone out),
and leaves the client not connected: connected = false and no socket, so that
any following Execute fails with `not connected`. -/
theorem C6_auth_failure (dial : String → Except IOError Conn) (c : Client) (conn : Conn)
    (resp : Packet) (command : List Byte)
    (hnc : c.connected = false) (hd : dial c.addr = .ok conn)
    (hr : (ReadPacket conn.rd).1 = .ok resp) (hid : resp.RequestID = -1) :
    (∃ e, (c.Connect dial).err = some e) ∧
    (c.password.length ≤ 4086 → (∀ w ∈ conn.writes.take 1, w = .full) →
      (c.Connect dial).err = some .authFailed) ∧
    (c.Connect dial).client.connected = false ∧
    (c.Connect dial).client.conn = none ∧
    ((c.Connect dial).client.Execute command).1 = .error .notConnected := by
  obtain ⟨h1, h2, h3, _, h5⟩ := Connect_auth_refused dial c conn resp hnc hd hr hid
  refine ⟨h1, h5, h2, h3, ?_⟩
  rw [Execute_not_connected _ command (Or.inl h2)]

/-- Witness of C6, scenario S2: the server accepts the connection and answers
AUTH with an AUTH_RESP frame carrying request-id -1. -/
theorem C6_auth_failure_witness :
    (∃ e, ((NewClient "127.0.0.1:27015" (ascii "wrong")).Connect
        (fun _ => .ok { rd := { data := wire { Size := 0, RequestID := -1, Type_ := 2, Body := [] },
                                atEnd := .other "i/o timeout" },
                        written := [], writes := [], closeErr := none })).err = some e) ∧
    ((ascii "wrong").length ≤ 4086 →
      (∀ w ∈ ([] : List WriteOutcome).take 1, w = .full) →
      ((NewClient "127.0.0.1:27015" (ascii "wrong")).Connect
        (fun _ => .ok { rd := { data := wire { Size := 0, RequestID := -1, Type_ := 2, Body := [] },
                                atEnd := .other "i/o timeout" },
                        written := [], writes := [], closeErr := none })).err
        = some .authFailed) ∧
    ((NewClient "127.0.0.1:27015" (ascii "wrong")).Connect
        (fun _ => .ok { rd := { data := wire { Size := 0, RequestID := -1, Type_ := 2, Body := [] },
                                atEnd := .other "i/o timeout" },
                        written := [], writes := [], closeErr := none })).client.connected
      = false ∧
    ((NewClient "127.0.0.1:27015" (ascii "wrong")).Connect
        (fun _ => .ok { rd := { data := wire { Size := 0, RequestID := -1, Type_ := 2, Body := [] },
                                atEnd := .other "i/o timeout" },
                        written := [], writes := [], closeErr := none })).client.conn = none ∧
    (((NewClient "127.0.0.1:27015" (ascii "wrong")).Connect
        (fun _ => .ok { rd := { data := wire { Size := 0, RequestID := -1, Type_ := 2, Body := [] },
                                atEnd := .other "i/o timeout" },
                        written := [], writes := [], closeErr := none })).client.Execute
        (ascii "status")).1 = .error .notConnected :=
  C6_auth_failure
    (fun _ => .ok { rd := { data := wire { Size := 0, RequestID := -1, Type_ := 2, Body := [] },
                            atEnd := .other "i/o timeout" },
                    written := [], writes := [], closeErr := none })
    (NewClient "127.0.0.1:27015" (ascii "wrong"))
    { rd := { data := wire { Size := 0, RequestID := -1, Type_ := 2, Body := [] },
              atEnd := .other "i/o timeout" },
      written := [], writes := [], closeErr := none }
    { Size := 10, RequestID := -1, Type_ := 2, Body := [] }
    (ascii "status") rfl rfl (by decide) rfl

/-! ## The pool's map -/

theorem mapGet_mapDelete_ne (key other : String) (h : other ≠ key) (m : ClientMap) :
    mapGet key (mapDelete other m) = mapGet key m := by
  induction m with
  | nil => rfl
  | cons e rest ih =>
    obtain ⟨k, v⟩ := e
    simp only [mapDelete, mapGet]
    split_ifs with h1 h2 h3
    · exact absurd (h1.symm.trans h2) h
    · exact ih
    · simp only [mapGet, h3, if_true]
    · simp only [mapGet, h3, if_false, ih]

theorem mapGet_mapSet_isSome (key other : String) (v : Client) (m : ClientMap)
    (h : (mapGet key m).isSome) : (mapGet key (mapSet other v m)).isSome := by
  unfold mapSet
  by_cases hk : other = key
  · simp only [mapGet, hk, if_true, Option.isSome_some]
  · simp only [mapGet, hk, if_false]
    rw [mapGet_mapDelete_ne key other hk]
    exact h

theorem mapGet_mapUpdate_isSome (key other : String) (v : Client) (m : ClientMap) :
    (mapGet key (mapUpdate other v m)).isSome = (mapGet key m).isSome := by
  induction m with
  | nil => rfl
  | cons e rest ih =>
    obtain ⟨k, w⟩ := e
    simp only [mapUpdate, mapGet]
    split_ifs with h1 h2 h3
    · simp only [mapGet, h2, if_true, Option.isSome_some]
    · simp only [mapGet, h2, if_false, ih]
    · simp only [mapGet, h3, if_true]
    · simp only [mapGet, h3, if_false, ih]

theorem mapCount_mapDelete_self (key : String) (m : ClientMap) :
    mapCount key (mapDelete key m) = 0 := by
  induction m with
  | nil => rfl
  | cons e rest ih =>
    obtain ⟨k, v⟩ := e
    by_cases hk : k = key
    · simp only [mapDelete, hk, if_true, ih]
    · simp only [mapDelete, hk, if_false, mapCount, ih]

theorem mapCount_mapDelete_le (key other : String) (m : ClientMap) :
    mapCount key (mapDelete other m) ≤ mapCount key m := by
  induction m with
  | nil => exact Nat.le_refl _
  | cons e rest ih =>
    obtain ⟨k, v⟩ := e
    by_cases hk : k = other
    · simp only [mapDelete, hk, if_true, mapCount]
      omega
    · simp only [mapDelete, hk, if_false, mapCount]
      omega

theorem mapCount_mapUpdate (key other : String) (v : Client) (m : ClientMap) :
    mapCount key (mapUpdate other v m) = mapCount key m := by
  induction m with
  | nil => rfl
  | cons e rest ih =>
    obtain ⟨k, w⟩ := e
    by_cases hk : k = other
    · simp only [mapUpdate, hk, if_true, mapCount, ih]
    · simp only [mapUpdate, hk, if_false, mapCount, ih]

/-- Every call on the pool keeps at most one entry per id. -/
theorem step_count_le (p : Pool) (op : PoolOp) (key : String) (h : p.count key ≤ 1) :
    (p.step op).count key ≤ 1 := by
  unfold Pool.count at h ⊢
  cases op with
  | get i => exact h
  | connect dial i addr password =>
    simp only [Pool.step, Pool.Connect]
    cases mapGet i p.clients with
    | some c => exact h
    | none =>
      simp only
      cases ((NewClient addr password).Connect dial).err with
      | some e => exact h
      | none =>
        simp only [mapSet, mapCount]
        by_cases hk : i = key
        · subst hk
          simp only [if_true, mapCount_mapDelete_self]
          omega
        · have hle := mapCount_mapDelete_le key i p.clients
          simp only [hk, if_false]
          omega
  | execute i command =>
    simp only [Pool.step, Pool.Execute]
    cases mapGet i p.clients with
    | none => exact h
    | some c =>
      simp only
      cases (c.Execute command).1 <;> (simp only [mapCount_mapUpdate]; exact h)
  | disconnect i =>
    simp only [Pool.step, Pool.Disconnect]
    have hle := mapCount_mapDelete_le key i p.clients
    cases mapGet i p.clients with
    | none => exact h
    | some c =>
      simp only
      cases c.Close with
      | mk cerr c2 => cases cerr <;> (simp only; omega)
  | disconnectAll => exact Nat.zero_le 1

theorem run_count_le (ops : List PoolOp) : ∀ (p : Pool) (key : String), p.count key ≤ 1 →
    (p.run ops).count key ≤ 1 := by
  induction ops with
  | nil => intro p key h; exact h
  | cons op rest ih =>
    intro p key h
    exact ih (p.step op) key (step_count_le p op key h)

/-- A call that is not a disconnect of `key` keeps the entry of `key`. -/
theorem step_keeps_entry (p : Pool) (op : PoolOp) (key : String)
    (h : (p.Get key).isSome) (hop : op.disconnects key = false) :
    ((p.step op).Get key).isSome := by
  unfold Pool.Get at h ⊢
  cases op with
  | get i => exact h
  | connect dial i addr password =>
    simp only [Pool.step, Pool.Connect]
    split
    · exact h
    · split
      · exact h
      · exact mapGet_mapSet_isSome key i _ _ h
  | execute i command =>
    simp only [Pool.step, Pool.Execute]
    split
    · exact h
    · split <;> (simp only [mapGet_mapUpdate_isSome]; exact h)
  | disconnect i =>
    have hne : i ≠ key := by
      intro e
      simp [PoolOp.disconnects, e] at hop
    simp only [Pool.step, Pool.Disconnect]
    split
    · exact h
    · split <;> (simp only [mapGet_mapDelete_ne key i hne]; exact h)
  | disconnectAll => simp [PoolOp.disconnects] at hop

theorem run_keeps_entry (ops : List PoolOp) : ∀ (p : Pool) (key : String),
    (p.Get key).isSome → (∀ op ∈ ops, op.disconnects key = false) →
    ((p.run ops).Get key).isSome := by
  induction ops with
  | nil => intro p key h _; exact h
  | cons op rest ih =>
    intro p key h hops
    exact ih (p.step op) key (step_keeps_entry p op key h (hops op (by simp)))
      (fun o ho => hops o (by simp [ho]))

theorem Connect_existing (dial : String → Except IOError Conn) (p : Pool)
    (instanceID addr : String) (password : List Byte) (h : (p.Get instanceID).isSome) :
    (p.Connect dial instanceID addr password).err = some (.alreadyConnected instanceID) ∧
    (p.Connect dial instanceID addr password).pool = p ∧
    (p.Connect dial instanceID addr password).dialed = [] := by
  unfold Pool.Get at h
  unfold Pool.Connect
  cases hg : mapGet instanceID p.clients with
  | none => simp [hg] at h
  | some c => exact ⟨rfl, rfl, rfl⟩

theorem Connect_success_entry (dial : String → Except IOError Conn) (p : Pool)
    (instanceID addr : String) (password : List Byte)
    (h : (p.Connect dial instanceID addr password).err = none) :
    ((p.Connect dial instanceID addr password).pool.Get instanceID).isSome := by
  unfold Pool.Connect at h ⊢
  cases hg : mapGet instanceID p.clients with
  | some c =>
    rw [hg] at h
    simp at h
  | none =>
    rw [hg] at h
    simp only at h ⊢
    cases herr : ((NewClient addr password).Connect dial).err with
    | some e =>
      rw [herr] at h
      simp at h
    | none =>
      simp only [Pool.Get, mapSet, mapGet, if_true, Option.isSome_some]

/-! ## Pool claims -/

/-- C8: Pool.Connect(id, addr, secret) on a pool that already holds an entry
for id returns the `already connected` error without dialing and leaves the
pool's map unchanged; across any sequence of pool operations from the empty
pool, at most one client exists per id; and after a successful connect of id, a
second connect of id fails as long as no disconnect of id (or of all) came in
between. -/
theorem C8_pool_unique :
    (∀ (dial : String → Except IOError Conn) (p : Pool) (instanceID addr : String)
        (password : List Byte), (p.Get instanceID).isSome →
      (p.Connect dial instanceID addr password).err = some (.alreadyConnected instanceID) ∧
      (p.Connect dial instanceID addr password).pool = p ∧
      (p.Connect dial instanceID addr password).dialed = []) ∧
    (∀ (ops : List PoolOp) (instanceID : String), (NewPool.run ops).count instanceID ≤ 1) ∧
    (∀ (dial1 dial2 : String → Except IOError Conn) (p : Pool) (ops : List PoolOp)
        (instanceID addr1 addr2 : String) (password1 password2 : List Byte),
      (p.Connect dial1 instanceID addr1 password1).err = none →
      (∀ op ∈ ops, op.disconnects instanceID = false) →
      (((p.Connect dial1 instanceID addr1 password1).pool.run ops).Connect dial2 instanceID
          addr2 password2).err = some (.alreadyConnected instanceID) ∧
      (((p.Connect dial1 instanceID addr1 password1).pool.run ops).Connect dial2 instanceID
          addr2 password2).dialed = []) := by
  refine ⟨fun dial p i addr pw h => Connect_existing dial p i addr pw h,
    fun ops i => run_count_le ops NewPool i (Nat.zero_le 1), ?_⟩
  intro dial1 dial2 p ops i addr1 addr2 pw1 pw2 hok hops
  have hentry := run_keeps_entry ops _ i (Connect_success_entry dial1 p i addr1 pw1 hok) hops
  have h := Connect_existing dial2 _ i addr2 pw2 hentry
  exact ⟨h.1, h.2.2⟩

/-- Witness of C8: on a pool holding a client for `srv1`, a connect of `srv1`
fails without dialing and changes nothing. -/
theorem C8_pool_unique_witness :
    (Pool.Connect (fun _ => .error (.other "connection refused"))
        { clients := [("srv1", NewClient "127.0.0.1:27015" (ascii "cs2admin"))] }
        "srv1" "127.0.0.1:27015" (ascii "cs2admin")).err = some (.alreadyConnected "srv1") ∧
    (Pool.Connect (fun _ => .error (.other "connection refused"))
        { clients := [("srv1", NewClient "127.0.0.1:27015" (ascii "cs2admin"))] }
        "srv1" "127.0.0.1:27015" (ascii "cs2admin")).pool
      = { clients := [("srv1", NewClient "127.0.0.1:27015" (ascii "cs2admin"))] } ∧
    (Pool.Connect (fun _ => .error (.other "connection refused"))
        { clients := [("srv1", NewClient "127.0.0.1:27015" (ascii "cs2admin"))] }
        "srv1" "127.0.0.1:27015" (ascii "cs2admin")).dialed = [] :=
  C8_pool_unique.1 (fun _ => .error (.other "connection refused"))
    { clients := [("srv1", NewClient "127.0.0.1:27015" (ascii "cs2admin"))] }
    "srv1" "127.0.0.1:27015" (ascii "cs2admin") (by decide)

/-- C9: on a pool without entry for id, if the client's connect fails, because
the dial fails or because the server's answer to AUTH carries request-id -1,
then Pool.Connect returns an error and leaves the pool as it was, with no entry
for id; and a following Pool.Execute(id, cmd) fails with `instance id not
connected` for every cmd, touching no connection (the pool is returned
unchanged). -/
theorem C9_failed_connect (dial : String → Except IOError Conn) (p : Pool)
    (instanceID addr : String) (password command : List Byte)
    (hno : p.Get instanceID = none)
    (hfail : (∃ e, dial addr = .error e) ∨
      (∃ conn resp, dial addr = .ok conn ∧ (ReadPacket conn.rd).1 = .ok resp
        ∧ resp.RequestID = -1)) :
    (∃ e, (p.Connect dial instanceID addr password).err = some e) ∧
    (p.Connect dial instanceID addr password).pool = p ∧
    (p.Connect dial instanceID addr password).pool.Get instanceID = none ∧
    (p.Connect dial instanceID addr password).pool.Execute instanceID command
      = (.error (.instanceNotConnected instanceID), p) := by
  have hcf : ∃ e, ((NewClient addr password).Connect dial).err = some e := by
    rcases hfail with ⟨e, he⟩ | ⟨conn, resp, hd, hr, hid⟩
    · refine ⟨.wrap "rcon: connect" (.io e), ?_⟩
      simp [Client.Connect, NewClient, he]
    · exact (Connect_auth_refused dial (NewClient addr password) conn resp rfl hd hr hid).1
  obtain ⟨e, he⟩ := hcf
  unfold Pool.Get at hno
  have hpool : (p.Connect dial instanceID addr password).pool = p := by
    simp only [Pool.Connect, hno, he]
  have herr : ∃ e2, (p.Connect dial instanceID addr password).err = some e2 := by
    simp only [Pool.Connect, hno, he]
    exact ⟨_, rfl⟩
  refine ⟨herr, hpool, ?_, ?_⟩
  · rw [hpool]
    exact hno
  · rw [hpool]
    simp only [Pool.Execute, hno]

/-- Witness of C9, scenario S2: the server answers AUTH with request-id -1. -/
theorem C9_failed_connect_witness :
    (∃ e, (NewPool.Connect
        (fun _ => .ok { rd := { data := wire { Size := 0, RequestID := -1, Type_ := 2, Body := [] },
                                atEnd := .other "i/o timeout" },
                        written := [], writes := [], closeErr := none })
        "srv1" "127.0.0.1:27015" (ascii "wrong")).err = some e) ∧
    (NewPool.Connect
        (fun _ => .ok { rd := { data := wire { Size := 0, RequestID := -1, Type_ := 2, Body := [] },
                                atEnd := .other "i/o timeout" },
                        written := [], writes := [], closeErr := none })
        "srv1" "127.0.0.1:27015" (ascii "wrong")).pool = NewPool ∧
    (NewPool.Connect
        (fun _ => .ok { rd := { data := wire { Size := 0, RequestID := -1, Type_ := 2, Body := [] },
                                atEnd := .other "i/o timeout" },
                        written := [], writes := [], closeErr := none })
        "srv1" "127.0.0.1:27015" (ascii "wrong")).pool.Get "srv1" = none ∧
    (NewPool.Connect
        (fun _ => .ok { rd := { data := wire { Size := 0, RequestID := -1, Type_ := 2, Body := [] },
                                atEnd := .other "i/o timeout" },
                        written := [], writes := [], closeErr := none })
        "srv1" "127.0.0.1:27015" (ascii "wrong")).pool.Execute "srv1" (ascii "status")
      = (.error (.instanceNotConnected "srv1"), NewPool) :=
  C9_failed_connect
    (fun _ => .ok { rd := { data := wire { Size := 0, RequestID := -1, Type_ := 2, Body := [] },
                                atEnd := .other "i/o timeout" },
                        written := [], writes := [], closeErr := none })
    NewPool "srv1" "127.0.0.1:27015" (ascii "wrong") (ascii "status") rfl
    (Or.inr ⟨_, { Size := 10, RequestID := -1, Type_ := 2, Body := [] }, rfl, by decide, rfl⟩)

end Rcon

namespace Instance

/-! ## Launch arguments -/

theorem fieldsAux_spaces (cs : List Char) (h : ∀ c ∈ cs, isSpace c = true) :
    fieldsAux cs [] = [] := by
  induction cs with
  | nil => rfl
  | cons c rest ih =>
    have hc : isSpace c = true := h c (by simp)
    have hrest : ∀ x ∈ rest, isSpace x = true := fun x hx => h x (by simp [hx])
    simp [fieldsAux, hc, ih hrest]

theorem spaces_of_dropWhile (cs : List Char)
    (h : ∀ c ∈ cs.dropWhile isSpace, isSpace c = true) : ∀ c ∈ cs, isSpace c = true := by
  induction cs with
  | nil => intro c hc; simp at hc
  | cons x rest ih =>
    by_cases hx : isSpace x = true
    · rw [List.dropWhile_cons_of_pos hx] at h
      intro c hc
      rcases List.mem_cons.mp hc with rfl | hin
      · exact hx
      · exact ih h c hin
    · rw [List.dropWhile_cons_of_neg hx] at h
      exact absurd (h x (by simp)) hx

/-- A text that `TrimSpace` reduces to nothing has no fields. -/
theorem Fields_of_TrimSpace_empty (s : String) (h : TrimSpace s = "") : Fields s = [] := by
  unfold TrimSpace at h
  have hl : ((s.data.dropWhile isSpace).reverse.dropWhile isSpace).reverse = [] := by
    have := congrArg String.data h
    simpa using this
  rw [List.reverse_eq_nil_iff, List.dropWhile_eq_nil_iff] at hl
  have hall : ∀ c ∈ s.data.dropWhile isSpace, isSpace c = true :=
    fun c hc => hl c (List.mem_reverse.mpr hc)
  exact fieldsAux_spaces s.data (spaces_of_dropWhile s.data hall)

/-- C10: for every instance, buildLaunchArgs returns the seventeen fixed
arguments -dedicated, -port, str(Port), +sv_lan, 1, +game_mode, str(X),
+game_type, str(Y), +map, M, -maxplayers, str(P), +rcon_password, S, -console,
-usercon followed by the white-space separated fields of LaunchArgs, where
(X, Y) = gameModeToValues(GameMode), M is CurrentMap or de_dust2 if that is
empty, P is MaxPlayers or 10 if that is not set (not positive), and S is
RconPassword or changeme if that is empty. For the instance of scenario S1 the
result is the seventeen-element list given there; for an instance in mode
Deathmatch without map, players and password, whose LaunchArgs hold five
fields separated by blanks, a tab and a line feed, the result is the seventeen
arguments with the defaults followed by the five fields. -/
theorem C10_launch_args :
    (∀ inst : ServerInstance,
      buildLaunchArgs inst =
        ["-dedicated",
         "-port", sprintfD inst.Port,
         "+sv_lan", "1",
         "+game_mode", sprintfD (gameModeToValues inst.GameMode).1,
         "+game_type", sprintfD (gameModeToValues inst.GameMode).2,
         "+map", (if inst.CurrentMap = "" then "de_dust2" else inst.CurrentMap),
         "-maxplayers", sprintfD (if inst.MaxPlayers ≤ 0 then 10 else inst.MaxPlayers),
         "+rcon_password", (if inst.RconPassword = "" then "changeme" else inst.RconPassword),
         "-console",
         "-usercon"] ++ Fields inst.LaunchArgs) ∧
    buildLaunchArgs
        { Name := "server", Port := 27015, RconPort := 27015, Status := "stopped",
          GameMode := "competitive", MaxPlayers := 10, CurrentMap := "de_dust2",
          InstallPath := "/srv/cs2", LaunchArgs := "", RconPassword := "cs2admin",
          GsltToken := "", AutoRestart := false, AutoStart := false }
      = ["-dedicated", "-port", "27015", "+sv_lan", "1", "+game_mode", "1", "+game_type", "0",
         "+map", "de_dust2", "-maxplayers", "10", "+rcon_password", "cs2admin", "-console",
         "-usercon"] ∧
    buildLaunchArgs
        { Name := "server", Port := 27016, RconPort := 27016, Status := "stopped",
          GameMode := "Deathmatch", MaxPlayers := 0, CurrentMap := "",
          InstallPath := "/srv/cs2",
          LaunchArgs := "  -insecure +exec  server.cfg\t+sv_cheats\n0 ",
          RconPassword := "", GsltToken := "", AutoRestart := false, AutoStart := false }
      = ["-dedicated", "-port", "27016", "+sv_lan", "1", "+game_mode", "2", "+game_type", "1",
         "+map", "de_dust2", "-maxplayers", "10", "+rcon_password", "changeme", "-console",
         "-usercon", "-insecure", "+exec", "server.cfg", "+sv_cheats", "0"] ∧
    Fields "  -insecure +exec  server.cfg\t+sv_cheats\n0 "
      = ["-insecure", "+exec", "server.cfg", "+sv_cheats", "0"] ∧
    Fields " \t\n" = [] := by
  refine ⟨fun inst => ?_, by decide, by decide, by decide, by decide⟩
  unfold buildLaunchArgs
  by_cases h : TrimSpace inst.LaunchArgs = ""
  · simp [h, Fields_of_TrimSpace_empty inst.LaunchArgs h]
  · simp [h]

end Instance

namespace Instance

/-! ## Game modes -/

/-- C11, as amended: gameModeToValues looks at the lower-cased mode string and
maps competitive to (1,0), casual to (0,0), wingman to (2,0), deathmatch and
dm to (2,1), custom to (3,0), and every string whose lower case is none of
these six to (1,0). -/
theorem C11_game_mode_amended (mode : String) :
    (ToLower mode = "competitive" → gameModeToValues mode = (1, 0)) ∧
    (ToLower mode = "casual" → gameModeToValues mode = (0, 0)) ∧
    (ToLower mode = "wingman" → gameModeToValues mode = (2, 0)) ∧
    (ToLower mode = "deathmatch" ∨ ToLower mode = "dm" → gameModeToValues mode = (2, 1)) ∧
    (ToLower mode = "custom" → gameModeToValues mode = (3, 0)) ∧
    (ToLower mode ≠ "competitive" → ToLower mode ≠ "casual" → ToLower mode ≠ "wingman" →
      ToLower mode ≠ "deathmatch" → ToLower mode ≠ "dm" → ToLower mode ≠ "custom" →
      gameModeToValues mode = (1, 0)) := by
  unfold gameModeToValues
  refine ⟨?_, ?_, ?_, ?_, ?_, ?_⟩
  · intro h
    simp only [h, if_true]
  · intro h
    rw [h]
    decide
  · intro h
    rw [h]
    decide
  · rintro (h | h) <;> (rw [h]; decide)
  · intro h
    rw [h]
    decide
  · intro h1 h2 h3 h4 h5 h6
    simp only [h1, h2, h3, h4, h5, h6, if_false, or_self]

/-- Witness of C11 as amended: `Wingman`, whose lower case is `wingman`. -/
theorem C11_game_mode_amended_witness : gameModeToValues "Wingman" = (2, 0) :=
  (C11_game_mode_amended "Wingman").2.2.1 (by decide)

/-- C11 as stated fails: `dm` is none of the five names, yet it is mapped to
(2,1), not to (1,0); and `CASUAL`, another string, is mapped to (0,0). -/
theorem C11_game_mode_counterexample :
    gameModeToValues "dm" = (2, 1) ∧ gameModeToValues "CASUAL" = (0, 0) ∧
    ("dm" ≠ "competitive" ∧ "dm" ≠ "casual" ∧ "dm" ≠ "wingman" ∧ "dm" ≠ "deathmatch"
      ∧ "dm" ≠ "custom") := by
  decide

end Instance

namespace Instance

/-! ## The statuses written by the manager -/

theorem updateStatus_log (parse : String → Option String) (m : Manager)
    (instanceID status : String) :
    (m.updateStatus parse instanceID status).statusLog
      = m.statusLog ++ (if (parse instanceID).isSome then [(instanceID, status)] else []) := by
  unfold Manager.updateStatus
  cases parse instanceID <;> simp

theorem updateStatus_watchdogs (parse : String → Option String) (m : Manager)
    (instanceID status : String) :
    (m.updateStatus parse instanceID status).watchdogs = m.watchdogs := by
  unfold Manager.updateStatus
  cases parse instanceID <;> rfl

/-- What `Start` writes: nothing when it fails before touching the instance,
`starting` then `stopped` when the spawn fails, `starting` then `running` when
it succeeds. -/
theorem Start_log (parse : String → Option String) (spawnOk : Bool) (now : Int) (m : Manager)
    (instanceID : String) :
    ((m.Start parse spawnOk now instanceID).1 = some .startProcess ∧
      (m.Start parse spawnOk now instanceID).2.statusLog
        = m.statusLog ++ [(instanceID, StatusStarting), (instanceID, StatusStopped)]) ∨
    ((m.Start parse spawnOk now instanceID).1 = none ∧
      (m.Start parse spawnOk now instanceID).2.statusLog
        = m.statusLog ++ [(instanceID, StatusStarting), (instanceID, StatusRunning)]) ∨
    ((∃ e, (m.Start parse spawnOk now instanceID).1 = some e ∧ e ≠ .startProcess) ∧
      (m.Start parse spawnOk now instanceID).2 = m) := by
  cases hp : m.processes instanceID with
  | some proc =>
    refine Or.inr (Or.inr ⟨⟨.alreadyRunning instanceID, ?_, by simp⟩, ?_⟩) <;>
      simp only [Manager.Start, hp]
  | none =>
    cases hu : parse instanceID with
    | none =>
      refine Or.inr (Or.inr ⟨⟨.invalidID, ?_, by simp⟩, ?_⟩) <;>
        simp only [Manager.Start, hp, hu]
    | some id =>
      cases hd : m.db id with
      | none =>
        refine Or.inr (Or.inr ⟨⟨.notFound instanceID, ?_, by simp⟩, ?_⟩) <;>
          simp only [Manager.Start, hp, hu, hd]
      | some inst =>
        cases spawnOk with
        | false =>
          refine Or.inl ⟨?_, ?_⟩
          · simp [Manager.Start, hp, hu, hd]
          · simp [Manager.Start, hp, hu, hd, updateStatus_log]
        | true =>
          refine Or.inr (Or.inl ⟨?_, ?_⟩)
          · simp [Manager.Start, hp, hu, hd]
          · simp only [Manager.Start, hp, hu, hd]
            cases (if inst.AutoRestart = true ∧
                (m.updateStatus parse instanceID StatusStarting).watchdogs instanceID = none
              then some (NewWatchdog instanceID)
              else (m.updateStatus parse instanceID StatusStarting).watchdogs instanceID) <;>
              simp [updateStatus_log, hu]

/-- What `Stop` writes: `stopped`, after `stopping` when there was a process,
and nothing when the identifier does not parse. -/
theorem Stop_log (parse : String → Option String) (m : Manager) (instanceID : String) :
    (m.Stop parse instanceID).2.statusLog
      = m.statusLog ++
        (if (parse instanceID).isSome then
          (if (m.processes instanceID).isSome then
            [(instanceID, StatusStopping), (instanceID, StatusStopped)]
           else [(instanceID, StatusStopped)])
         else []) := by
  unfold Manager.Stop
  cases hp : m.processes instanceID <;> cases hu : parse instanceID <;>
    simp [updateStatus_log, hu]

/-- What the exit callback writes: `crashed` when the row read has the status
`running`, nothing otherwise. -/
theorem exitCallback_log (parse : String → Option String) (m : Manager)
    (instanceID id : String) (code : Int) :
    (m.exitCallback parse instanceID id code).statusLog
      = m.statusLog ++
        (if (parse instanceID).isSome ∧ (m.db id).map (fun r => r.Status) = some StatusRunning
         then [(instanceID, StatusCrashed)] else []) := by
  cases hd : m.db id with
  | none => cases hw : m.watchdogs instanceID <;> simp [Manager.exitCallback, hd, hw]
  | some inst =>
    by_cases hs : inst.Status = StatusRunning <;> cases hw : m.watchdogs instanceID <;>
      cases hu : parse instanceID <;>
      simp [Manager.exitCallback, hd, hw, hs, updateStatus_log, hu]

end Instance

namespace Instance

theorem statusesOf_append (instanceID : String) (a b : List (String × String)) :
    statusesOf instanceID (a ++ b) = statusesOf instanceID a ++ statusesOf instanceID b := by
  simp [statusesOf]

theorem statusesOf_pair (instanceID i s1 s2 : String) :
    statusesOf instanceID [(i, s1), (i, s2)] = if i = instanceID then [s1, s2] else [] := by
  by_cases h : i = instanceID <;> simp [statusesOf, List.filter, h]

theorem statusesOf_single (instanceID i s1 : String) :
    statusesOf instanceID [(i, s1)] = if i = instanceID then [s1] else [] := by
  by_cases h : i = instanceID <;> simp [statusesOf, List.filter, h]

theorem runningAfterStarting_append (l s : List String)
    (hs : ∀ q, runningAfterStarting q s = true) :
    ∀ prev, runningAfterStarting prev l = true → runningAfterStarting prev (l ++ s) = true := by
  induction l with
  | nil => intro prev _; exact hs prev
  | cons a rest ih =>
    intro prev h
    simp only [runningAfterStarting, List.cons_append, Bool.and_eq_true] at h ⊢
    exact ⟨h.1, ih (some a) h.2⟩

theorem runningAfterStarting_split (post : List String) :
    ∀ (pre : List String) (prev : Option String),
      runningAfterStarting prev (pre ++ StatusRunning :: post) = true →
      (pre = [] ∧ prev = some StatusStarting) ∨ ∃ pre1, pre = pre1 ++ [StatusStarting] := by
  intro pre
  induction pre with
  | nil =>
    intro prev h
    simp only [runningAfterStarting, List.nil_append, Bool.and_eq_true, Bool.or_eq_true,
      decide_eq_true_eq] at h
    rcases h.1 with h1 | h1
    · exact absurd rfl h1
    · exact Or.inl ⟨rfl, h1⟩
  | cons a rest ih =>
    intro prev h
    simp only [runningAfterStarting, List.cons_append, Bool.and_eq_true] at h
    rcases ih (some a) h.2 with ⟨h1, h2⟩ | ⟨pre1, h1⟩
    · refine Or.inr ⟨[], ?_⟩
      rw [h1, Option.some.inj h2]
      rfl
    · exact Or.inr ⟨a :: pre1, by rw [h1]; rfl⟩

theorem suffix_ok (sfx : List String)
    (h : sfx = [] ∨ sfx = [StatusStarting, StatusStopped] ∨ sfx = [StatusStarting, StatusRunning]
      ∨ sfx = [StatusStopped] ∨ sfx = [StatusStopping, StatusStopped] ∨ sfx = [StatusCrashed]) :
    ∀ q, runningAfterStarting q sfx = true := by
  intro q
  rcases h with h | h | h | h | h | h <;> subst h <;>
    simp [runningAfterStarting, StatusStarting, StatusStopped, StatusRunning, StatusStopping,
      StatusCrashed]

/-- Each operation adds, to the statuses written for an instance, a run of
statuses in which `running` comes only right after `starting`. -/
theorem step_statuses (parse : String → Option String) (m : Manager) (op : ManagerOp)
    (instanceID : String) :
    ∃ sfx, statusesOf instanceID (m.step parse op).statusLog
        = statusesOf instanceID m.statusLog ++ sfx ∧ ∀ q, runningAfterStarting q sfx = true := by
  cases op with
  | start i spawnOk now =>
    simp only [Manager.step]
    rcases Start_log parse spawnOk now m i with ⟨_, h⟩ | ⟨_, h⟩ | ⟨_, h⟩
    · refine ⟨_, by rw [h, statusesOf_append], suffix_ok _ ?_⟩
      rw [statusesOf_pair]
      split <;> simp
    · refine ⟨_, by rw [h, statusesOf_append], suffix_ok _ ?_⟩
      rw [statusesOf_pair]
      split <;> simp
    · exact ⟨[], by rw [h, List.append_nil], suffix_ok _ (Or.inl rfl)⟩
  | stop i =>
    simp only [Manager.step]
    refine ⟨_, by rw [Stop_log, statusesOf_append], suffix_ok _ ?_⟩
    split
    · split
      · rw [statusesOf_pair]
        split <;> simp
      · rw [statusesOf_single]
        split <;> simp
    · exact Or.inl rfl
  | exit i code =>
    simp only [Manager.step]
    cases hu : parse i with
    | none => exact ⟨[], by simp, suffix_ok _ (Or.inl rfl)⟩
    | some id =>
      simp only
      refine ⟨_, by rw [exitCallback_log, statusesOf_append], suffix_ok _ ?_⟩
      split
      · rw [statusesOf_single]
        split <;> simp
      · exact Or.inl rfl

theorem run_statuses (parse : String → Option String) (instanceID : String)
    (ops : List ManagerOp) :
    ∀ m : Manager, runningAfterStarting none (statusesOf instanceID m.statusLog) = true →
      runningAfterStarting none (statusesOf instanceID (m.run parse ops).statusLog) = true := by
  induction ops with
  | nil => intro m h; exact h
  | cons op rest ih =>
    intro m h
    obtain ⟨sfx, h1, h2⟩ := step_statuses parse m op instanceID
    have h3 := runningAfterStarting_append _ sfx h2 none h
    rw [← h1] at h3
    exact ih (m.step parse op) h3

end Instance

namespace Instance

/-! ## Life-cycle claims -/

/-- When no two calls overlap: in every sequence of calls of `Start`, `Stop` and
the exit callback on a new manager, each run to its end before the next one
begins, the statuses written for an instance never hold running immediately
followed by running, and every running is immediately preceded by starting. In
scenario S1 followed by a crash, a restart and a stop, the statuses written
are starting, running, crashed, starting, running, stopping, stopped. -/
theorem status_order_without_overlap (parse : String → Option String)
    (db : String → Option ServerInstance) (ops : List ManagerOp) (instanceID : String) :
    (∀ pre post,
      statusesOf instanceID ((NewManager db).run parse ops).statusLog
        = pre ++ StatusRunning :: post → ∃ pre1, pre = pre1 ++ [StatusStarting]) ∧
    (∀ pre post,
      statusesOf instanceID ((NewManager db).run parse ops).statusLog
        ≠ pre ++ StatusRunning :: StatusRunning :: post) ∧
    statusesOf scenarioID
        (((NewManager (oneRow scenarioInstance)).run (parseOnly scenarioID)
          [.start scenarioID true 0, .exit scenarioID 139, .start scenarioID true 5,
           .stop scenarioID]).statusLog)
      = [StatusStarting, StatusRunning, StatusCrashed, StatusStarting, StatusRunning,
         StatusStopping, StatusStopped] := by
  have hinv := run_statuses parse instanceID ops (NewManager db) rfl
  have h1 : ∀ pre post,
      statusesOf instanceID ((NewManager db).run parse ops).statusLog
        = pre ++ StatusRunning :: post → ∃ pre1, pre = pre1 ++ [StatusStarting] := by
    intro pre post h
    rw [h] at hinv
    rcases runningAfterStarting_split post pre none hinv with ⟨_, h2⟩ | h2
    · exact absurd h2 (by simp)
    · exact h2
  refine ⟨h1, ?_, by decide⟩
  intro pre post h
  have h2 : statusesOf instanceID ((NewManager db).run parse ops).statusLog
      = (pre ++ [StatusRunning]) ++ StatusRunning :: post := by
    rw [h]
    simp
  obtain ⟨pre1, h3⟩ := h1 _ _ h2
  have h4 := congrArg List.getLast? h3
  simp [StatusRunning, StatusStarting] at h4

/-- C13: when the process of an instance exits, the exit callback registered by
Manager.Start (so for an identifier that parsed) writes crashed if the stored
status at that moment is running, and the stored status becomes crashed; for
any other stored status, stopping among them, and when there is no row, it
writes nothing and leaves the store as it is. -/
theorem C13_exit_callback (parse : String → Option String) (m : Manager)
    (instanceID id : String) (code : Int) (hparse : parse instanceID = some id) :
    ((m.db id).map (fun r => r.Status) = some StatusRunning →
      (m.exitCallback parse instanceID id code).statusLog
        = m.statusLog ++ [(instanceID, StatusCrashed)] ∧
      ((m.exitCallback parse instanceID id code).db id).map (fun r => r.Status)
        = some StatusCrashed) ∧
    ((m.db id).map (fun r => r.Status) ≠ some StatusRunning →
      (m.exitCallback parse instanceID id code).statusLog = m.statusLog ∧
      (m.exitCallback parse instanceID id code).db = m.db) := by
  constructor
  · intro h
    cases hd : m.db id with
    | none => simp [hd] at h
    | some inst =>
      have hs : inst.Status = StatusRunning := by simpa [hd] using h
      cases hw : m.watchdogs instanceID <;>
        simp [Manager.exitCallback, hd, hw, hs, Manager.updateStatus, hparse, setKey]
  · intro h
    cases hd : m.db id with
    | none => cases hw : m.watchdogs instanceID <;> simp [Manager.exitCallback, hd, hw]
    | some inst =>
      have hs : ¬ inst.Status = StatusRunning := by simpa [hd] using h
      cases hw : m.watchdogs instanceID <;> simp [Manager.exitCallback, hd, hw, hs]

/-- Witness of C13: the process of the running instance of scenario S4 exits
with code 139; crashed is written and stored. -/
theorem C13_exit_callback_witness :
    (Manager.exitCallback (parseOnly scenarioID)
        (NewManager (oneRow { scenarioInstance with Status := StatusRunning }))
        scenarioID scenarioID 139).statusLog = [] ++ [(scenarioID, StatusCrashed)] ∧
    ((Manager.exitCallback (parseOnly scenarioID)
        (NewManager (oneRow { scenarioInstance with Status := StatusRunning }))
        scenarioID scenarioID 139).db scenarioID).map (fun r => r.Status)
      = some StatusCrashed :=
  (C13_exit_callback (parseOnly scenarioID)
    (NewManager (oneRow { scenarioInstance with Status := StatusRunning }))
    scenarioID scenarioID 139 (by decide)).1 (by decide)

end Instance

namespace Instance

/-- The store after a failed spawn holds `stopped` for the instance. -/
theorem Start_spawn_failure_db (parse : String → Option String) (now : Int) (m : Manager)
    (instanceID id : String) (inst : ServerInstance) (hp : m.processes instanceID = none)
    (hu : parse instanceID = some id) (hd : m.db id = some inst) :
    ((m.Start parse false now instanceID).2.db id).map (fun r => r.Status)
      = some StatusStopped := by
  simp [Manager.Start, hp, hu, hd, Manager.updateStatus, setKey]

/-- C14, as amended: when Manager.Start(id) returns an error because the spawn
of the process failed, it has written starting then stopped and the stored
status of the instance after the call is stopped; when it returns any other
error (the id already has a process, the id is not a UUID, no such instance is
stored) it has written nothing and the manager and the store are as before. -/
theorem C14_start_error_amended (parse : String → Option String) (spawnOk : Bool) (now : Int)
    (m : Manager) (instanceID : String) (e : StartError)
    (h : (m.Start parse spawnOk now instanceID).1 = some e) :
    (e = .startProcess →
      (m.Start parse spawnOk now instanceID).2.statusLog
        = m.statusLog ++ [(instanceID, StatusStarting), (instanceID, StatusStopped)] ∧
      ∃ id, parse instanceID = some id ∧
        ((m.Start parse spawnOk now instanceID).2.db id).map (fun r => r.Status)
          = some StatusStopped) ∧
    (e ≠ .startProcess → (m.Start parse spawnOk now instanceID).2 = m) := by
  rcases Start_log parse spawnOk now m instanceID with ⟨h1, h2⟩ | ⟨h1, _⟩ | ⟨⟨e2, h1, h3⟩, h2⟩
  · rw [h1] at h
    have he : e = .startProcess := (Option.some.inj h).symm
    refine ⟨fun _ => ⟨h2, ?_⟩, fun hne => absurd he hne⟩
    cases hp : m.processes instanceID with
    | some proc => simp [Manager.Start, hp] at h1
    | none =>
      cases hu : parse instanceID with
      | none => simp [Manager.Start, hp, hu] at h1
      | some id =>
        cases hd : m.db id with
        | none => simp [Manager.Start, hp, hu, hd] at h1
        | some inst =>
          cases spawnOk with
          | true => simp [Manager.Start, hp, hu, hd] at h1
          | false => exact ⟨id, rfl, Start_spawn_failure_db parse now m instanceID id inst hp hu hd⟩
  · rw [h1] at h
    simp at h
  · rw [h1] at h
    have he : e = e2 := (Option.some.inj h).symm
    subst he
    exact ⟨fun hs => absurd hs h3, fun _ => h2⟩

/-- Witness of C14 as amended: the spawn of the instance of scenario S1 fails. -/
theorem C14_start_error_amended_witness :
    (Manager.Start (parseOnly scenarioID) false 0 (NewManager (oneRow scenarioInstance))
        scenarioID).2.statusLog
      = [] ++ [(scenarioID, StatusStarting), (scenarioID, StatusStopped)] ∧
    ∃ id, parseOnly scenarioID scenarioID = some id ∧
      ((Manager.Start (parseOnly scenarioID) false 0 (NewManager (oneRow scenarioInstance))
          scenarioID).2.db id).map (fun r => r.Status) = some StatusStopped :=
  (C14_start_error_amended (parseOnly scenarioID) false 0 (NewManager (oneRow scenarioInstance))
    scenarioID .startProcess (by decide)).1 rfl

/-- C14 as stated fails: Start on an instance that already has a process
returns an error and the stored status stays running. -/
theorem C14_start_error_counterexample :
    (Manager.Start (parseOnly scenarioID) true 9
        ((Manager.Start (parseOnly scenarioID) true 0 (NewManager (oneRow scenarioInstance))
          scenarioID).2)
        scenarioID).1 = some (.alreadyRunning scenarioID) ∧
    ((Manager.Start (parseOnly scenarioID) true 9
        ((Manager.Start (parseOnly scenarioID) true 0 (NewManager (oneRow scenarioInstance))
          scenarioID).2)
        scenarioID).2.db scenarioID).map (fun r => r.Status) = some StatusRunning := by
  decide

end Instance

namespace Instance

/-! ## Watchdog backoff -/

/-- The exit branch on a watchdog whose limit is thirty seconds: the delay is
one second after a long run, the current backoff otherwise, and the backoff
left is the double of the delay, at most thirty seconds. -/
theorem exitBranch_spec (w : Watchdog) (startedAt exitAt : Int)
    (hmax : w.maxBackoff = 30 * second) :
    ((w.SetLastStartAt startedAt).exitBranch exitAt).1
        = (if exitAt - startedAt > 60 * second then 1 * second else w.backoff) ∧
    ((w.SetLastStartAt startedAt).exitBranch exitAt).2.backoff
        = min (2 * ((w.SetLastStartAt startedAt).exitBranch exitAt).1) (30 * second) ∧
    ((w.SetLastStartAt startedAt).exitBranch exitAt).2.maxBackoff = 30 * second := by
  simp only [Watchdog.exitBranch, Watchdog.SetLastStartAt]
  by_cases hlong : exitAt - startedAt > 60 * second
  · simp only [hlong, decide_True, if_true, hmax]
    refine ⟨trivial, ?_, ?_⟩
    · split <;> rename_i h <;> simp only [second] at h ⊢ <;> omega
    · split <;> rfl
  · simp only [hlong, decide_False, if_false, Bool.false_eq_true, hmax]
    refine ⟨trivial, ?_, ?_⟩
    · split <;> rename_i h <;> simp only [second] at h ⊢ <;> omega
    · split <;> rfl

theorem delays_eq_reference (runs : List (Int × Int)) :
    ∀ (w : Watchdog) (prev : Option Int), w.maxBackoff = 30 * second →
      (prev = none → w.backoff = 1 * second) →
      (∀ p, prev = some p → w.backoff = min (2 * p) (30 * second)) →
      w.delays runs = referenceDelays prev runs := by
  induction runs with
  | nil => intro w prev _ _ _; rfl
  | cons r rest ih =>
    intro w prev hmax h1 h2
    obtain ⟨startedAt, exitAt⟩ := r
    obtain ⟨hd, hb, hm⟩ := exitBranch_spec w startedAt exitAt hmax
    have hnext : ∀ d, ((w.SetLastStartAt startedAt).exitBranch exitAt).1 = d →
        ((w.SetLastStartAt startedAt).exitBranch exitAt).2.delays rest
          = referenceDelays (some d) rest := by
      intro d hdd
      apply ih _ _ hm
      · intro h
        exact absurd h (by simp)
      · intro p hp
        rw [hb, hdd, Option.some.inj hp]
    cases prev with
    | none =>
      have hdelay : ((w.SetLastStartAt startedAt).exitBranch exitAt).1 = 1 * second := by
        rw [hd, h1 rfl]
        simp
      simp only [Watchdog.delays, referenceDelays]
      rw [hnext _ hdelay, hdelay]
    | some p =>
      have hdelay : ((w.SetLastStartAt startedAt).exitBranch exitAt).1
          = (if exitAt - startedAt > 60 * second then 1 * second
             else min (2 * p) (30 * second)) := by
        rw [hd, h2 p rfl]
      simp only [Watchdog.delays, referenceDelays]
      rw [hnext _ hdelay, hdelay]

/-- C16: starting from a new watchdog, whose backoff is one second, the delay
slept after each exit notification is the reference: one second for the first
exit and whenever the run that just ended lasted more than sixty seconds,
otherwise the double of the previous delay, at most thirty seconds. Seven
short runs give 1, 2, 4, 8, 16, 30, 30 seconds, and a run of 65 seconds after
them gives one second. -/
theorem C16_backoff (instanceID : String) (runs : List (Int × Int)) :
    (NewWatchdog instanceID).delays runs = referenceDelays none runs ∧
    (NewWatchdog scenarioID).delays
        [(0, 3 * second), (10 * second, 14 * second), (20 * second, 24 * second),
         (30 * second, 34 * second), (50 * second, 54 * second), (80 * second, 84 * second),
         (120 * second, 124 * second), (160 * second, 225 * second)]
      = [1 * second, 2 * second, 4 * second, 8 * second, 16 * second, 30 * second,
         30 * second, 1 * second] := by
  refine ⟨delays_eq_reference runs (NewWatchdog instanceID) none rfl (fun _ => rfl) ?_, ?_⟩
  · intro p hp
    simp at hp
  · decide

end Instance

namespace Sched

/-! ## The clock -/

theorem lookup_fixed (l : Location) (h : l.transitions = []) (t : Int) :
    l.lookup t = (l.offset0, alpha, omega) := by
  simp only [Location.lookup, h, lookupFrom]

theorem wall_fixed (l : Location) (h : l.transitions = []) (t : Int) :
    l.wall t = t + l.offset0 := by
  simp only [Location.wall, lookup_fixed l h]

/-- On a clock without shift, today at `hour:min` is the start of the local day
plus the time of day, brought back to UTC. -/
theorem dateToday_fixed (l : Location) (h : l.transitions = []) (now hour min : Int) :
    dateToday l now hour min
      = ((now + l.offset0) / nsPerDay) * nsPerDay + hour * nsPerHour + min * nsPerMinute
        - l.offset0 := by
  simp only [dateToday, lookup_fixed l h, wall_fixed l h]
  by_cases h0 : l.offset0 = 0
  · simp [h0]
  · simp only [ne_eq, h0, not_false_eq_true, if_true]
    split <;> rfl

theorem Hour_range (l : Location) (t : Int) : 0 ≤ Hour l t ∧ Hour l t ≤ 23 := by
  simp only [Hour, nsPerDay, nsPerHour]
  omega

theorem Minute_range (l : Location) (t : Int) : 0 ≤ Minute l t ∧ Minute l t ≤ 59 := by
  simp only [Minute, nsPerHour, nsPerMinute]
  omega

end Sched

namespace Sched

/-! ## Fields of a calendar expression -/

theorem wrapInt64_id (x : Int) (h1 : -9223372036854775808 ≤ x) (h2 : x ≤ 9223372036854775807) :
    wrapInt64 x = x := by
  unfold wrapInt64
  omega

theorem Atoi_range (s : String) (v : Int) (h : Atoi s = some v) :
    -9223372036854775808 ≤ v ∧ v ≤ 9223372036854775807 := by
  unfold Atoi at h
  simp only at h
  split at h
  · exact absurd h (by simp)
  · split at h
    · exact absurd h (by simp)
    · generalize (if (splitSign s.data).1 = true then _ else _ : Int) = w at h
      split at h
      · rename_i hr
        rw [← Option.some.inj h]
        exact hr
      · exact absurd h (by simp)

/-- The value computed for a step: without overflow it is the next multiple of
the step after the current value. -/
theorem stepValue (c S : Int) (hc : 0 ≤ c) (hc2 : c < 4611686018427387904) (hS : 1 ≤ S)
    (hS2 : S ≤ 9223372036854775807) :
    wrapInt64 (wrapInt64 (Int.tdiv c S + 1) * S) = (c / S + 1) * S ∧
    c < (c / S + 1) * S ∧ (c / S + 1) * S ≤ c + S := by
  have hSpos : 0 < S := by omega
  have hdiv : Int.tdiv c S = c / S := Int.tdiv_eq_ediv hc (by omega)
  have hq0 : 0 ≤ c / S := Int.ediv_nonneg hc (by omega)
  have hqc : c / S ≤ c := Int.ediv_le_self S hc
  have hle : c / S * S ≤ c := Int.ediv_mul_le c (by omega)
  have hlt : c < (c / S + 1) * S := Int.lt_ediv_add_one_mul_self c hSpos
  have hexp : (c / S + 1) * S = c / S * S + S := by rw [Int.add_mul, Int.one_mul]
  have hbound : (c / S + 1) * S ≤ 9223372036854775807 := by
    by_cases hcs : c < S
    · have hz : c / S = 0 := Int.ediv_eq_zero_of_lt hc hcs
      rw [hz]
      omega
    · rw [hexp]
      omega
  rw [hdiv, wrapInt64_id (c / S + 1) (by omega) (by omega),
    wrapInt64_id ((c / S + 1) * S) (by omega) hbound]
  refine ⟨rfl, hlt, ?_⟩
  rw [hexp]
  omega

theorem stepPrefix_ne_star (f : String) (h : hasStepPrefix f = true) : f ≠ "*" := by
  intro hf
  subst hf
  exact absurd h (by decide)

/-- The result of `parseCronField` on a step field. -/
theorem parseCronField_step (f : String) (lo hi c S : Int) (hf : hasStepPrefix f = true)
    (hA : Atoi (String.mk (f.data.drop 2)) = some S) (hS : 1 ≤ S) (hc : 0 ≤ c)
    (hc2 : c < 4611686018427387904) :
    parseCronField f lo hi c
      = .ok (if (c / S + 1) * S > hi then 0 else (c / S + 1) * S) := by
  have hv := (stepValue c S hc hc2 hS (Atoi_range _ _ hA).2).1
  have hS0 : ¬ S ≤ 0 := by omega
  simp only [parseCronField, if_neg (stepPrefix_ne_star f hf), hf, if_true, hA, if_neg hS0, hv]

/-- Between bounds that hold 0, and for a current value within them, a field
that parses gives a value within the bounds. -/
theorem parseCronField_range (f : String) (lo hi c v : Int) (hlo : lo ≤ 0) (hc : 0 ≤ c)
    (hchi : c ≤ hi) (hbig : hi < 4611686018427387904)
    (h : parseCronField f lo hi c = .ok v) : lo ≤ v ∧ v ≤ hi := by
  unfold parseCronField at h
  split at h
  · simp only [Except.ok.injEq] at h
    omega
  · split at h
    · split at h
      · simp at h
      · rename_i step hA
        split at h
        · simp at h
        · rename_i hs
          have hsv := stepValue c step hc (by omega) (by omega) (Atoi_range _ _ hA).2
          simp only [hsv.1, Except.ok.injEq] at h
          rw [← h]
          split <;> omega
    · split at h
      · simp at h
      · split at h
        · simp at h
        · simp only [Except.ok.injEq] at h
          omega

end Sched

namespace Sched

/-! ## Next run of a calendar expression -/

/-- What `ParseSimpleCron` returns when it accepts: today at some `hour:min`
within the ranges, or that plus twenty-four hours when it is not after `now`. -/
theorem ParseSimpleCron_ok (l : Location) (now : Int) (expr : String) (next : Int)
    (h : ParseSimpleCron l now expr = .ok next) :
    ∃ hour min, 0 ≤ hour ∧ hour ≤ 23 ∧ 0 ≤ min ∧ min ≤ 59 ∧
      next = (if dateToday l now hour min < now ∨ dateToday l now hour min = now
              then dateToday l now hour min + 24 * nsPerHour else dateToday l now hour min) := by
  unfold ParseSimpleCron at h
  split at h
  · rename_i f0 f1 f2 f3 f4 hfields
    split at h
    · exact absurd h (by simp)
    · rename_i min hmin
      split at h
      · exact absurd h (by simp)
      · rename_i hour hhour
        have hm := parseCronField_range f0 0 59 _ min (Int.le_refl 0) (Minute_range l now).1
          (Minute_range l now).2 (by decide) hmin
        have hh := parseCronField_range f1 0 23 _ hour (Int.le_refl 0) (Hour_range l now).1
          (Hour_range l now).2 (by decide) hhour
        refine ⟨hour, min, hh.1, hh.2, hm.1, hm.2, ?_⟩
        simp only at h
        split at h
        · rename_i hc
          rw [if_pos hc]
          exact (Except.ok.inj h).symm
        · rename_i hc
          rw [if_neg hc]
          exact (Except.ok.inj h).symm
  · exact absurd h (by simp)

/-- C17 does not hold of the code. ParseSimpleCron adds twenty-four hours where
its comment says `advance to next day`. On 2024-11-03, in a zone that goes from
four to five hours behind UTC at 06:00 UTC, the local day is twenty-five hours
long; `0 0 * * *` evaluated at 23:30 local time (T = 04:30 UTC of the next day)
gives midnight of that day plus twenty-four hours, which is 23:00 local time,
half an hour before T. -/
theorem C17_next_run_before_now :
    autumnZone.wall (civil 2024 11 4 4 30 0) = civil 2024 11 3 23 30 0 ∧
    ParseSimpleCron autumnZone (civil 2024 11 4 4 30 0) "0 0 * * *"
      = .ok (civil 2024 11 4 4 0 0) ∧
    civil 2024 11 4 4 0 0 < civil 2024 11 4 4 30 0 ∧
    autumnZone.wall (civil 2024 11 4 4 0 0) = civil 2024 11 3 23 0 0 := by
  decide

end Sched

namespace Sched

theorem digitsValue_star (rest : List Char) (acc : Int) :
    digitsValue ('*' :: rest) acc = none := by
  simp [digitsValue]

/-- A field that `Atoi` reads is neither `*` nor a step. -/
theorem Atoi_not_star (f : String) (v : Int) (h : Atoi f = some v) :
    f ≠ "*" ∧ hasStepPrefix f = false := by
  have hstar : ∀ rest, f.data ≠ '*' :: rest := by
    intro rest hd
    simp [Atoi, hd, splitSign, digitsValue_star] at h
  constructor
  · intro hf
    exact hstar [] (by rw [hf])
  · unfold hasStepPrefix
    split
    · rename_i rest hd
      exact absurd hd (hstar _)
    · rfl

/-- The result of `parseCronField` on a number within the bounds. -/
theorem parseCronField_literal (f : String) (lo hi c v : Int) (h : Atoi f = some v)
    (h1 : lo ≤ v) (h2 : v ≤ hi) : parseCronField f lo hi c = .ok v := by
  obtain ⟨hs, hp⟩ := Atoi_not_star f v h
  have hr : ¬ (v < lo ∨ v > hi) := by omega
  simp only [parseCronField, if_neg hs, hp, Bool.false_eq_true, if_false, h, if_neg hr]

/-- On a clock without shift, for an expression of five fields whose first two
are the numbers M in [0,59] and H in [0,23], `ParseSimpleCron` evaluated at T
returns the earliest instant strictly after T at which the local time of day is
H:M:00: on the local day of T if that instant is after T, on the next day
otherwise. At 2024-06-01 10:00:00 the expression `30 2 * * *` gives 2024-06-02
02:30:00. -/
theorem literal_fields_fixed_clock (l : Location) (now : Int) (expr f0 f1 f2 f3 f4 : String)
    (M H : Int) (hfix : l.transitions = [])
    (hfields : Instance.Fields (Instance.TrimSpace expr) = [f0, f1, f2, f3, f4])
    (hM : Atoi f0 = some M) (hH : Atoi f1 = some H)
    (hM1 : 0 ≤ M) (hM2 : M ≤ 59) (hH1 : 0 ≤ H) (hH2 : H ≤ 23) :
    (∃ next, ParseSimpleCron l now expr = .ok next ∧ now < next ∧
      l.wall next % nsPerDay = H * nsPerHour + M * nsPerMinute ∧
      (∀ t, now < t → l.wall t % nsPerDay = H * nsPerHour + M * nsPerMinute → next ≤ t) ∧
      (l.wall next / nsPerDay = l.wall now / nsPerDay ∨
        (l.wall next / nsPerDay = l.wall now / nsPerDay + 1 ∧
          l.wall now % nsPerDay ≥ H * nsPerHour + M * nsPerMinute))) ∧
    ParseSimpleCron (fixedZone 0) (civil 2024 6 1 10 0 0) "30 2 * * *"
      = .ok (civil 2024 6 2 2 30 0) := by
  refine ⟨?_, by decide⟩
  have hp : ParseSimpleCron l now expr
      = .ok (if dateToday l now H M < now ∨ dateToday l now H M = now
             then dateToday l now H M + 24 * nsPerHour else dateToday l now H M) := by
    simp only [ParseSimpleCron, hfields, parseCronField_literal f0 0 59 _ M hM hM1 hM2,
      parseCronField_literal f1 0 23 _ H hH hH1 hH2]
    split <;> rfl
  refine ⟨_, hp, ?_⟩
  simp only [dateToday_fixed l hfix, wall_fixed l hfix, nsPerDay, nsPerHour, nsPerMinute]
  refine ⟨?_, ?_, ?_, ?_⟩
  · split <;> omega
  · split <;> omega
  · intro t ht hw
    split <;> omega
  · split <;> omega

/-- C18 does not hold of the code. ParseSimpleCron adds twenty-four hours where
its comment says `advance to next day`. In a zone that falls back one hour on
2024-11-03, `0 12 * * *` evaluated on 2024-11-02 at 13:00 local time (17:00
UTC) gives noon of that day plus twenty-four hours, at which the local clock
reads 11:00 on 2024-11-03, not 12:00. -/
theorem C18_noon_gives_eleven :
    autumnZone.wall (civil 2024 11 2 17 0 0) = civil 2024 11 2 13 0 0 ∧
    ParseSimpleCron autumnZone (civil 2024 11 2 17 0 0) "0 12 * * *"
      = .ok (civil 2024 11 3 16 0 0) ∧
    autumnZone.wall (civil 2024 11 3 16 0 0) = civil 2024 11 3 11 0 0 ∧
    Hour autumnZone (civil 2024 11 3 16 0 0) = 11 := by
  decide

end Sched

namespace Sched

/-- C19, as amended: for a field `*/S` whose step S is read by Atoi as a
positive int, and a current value c with 0 <= c < 2^62, parseCronField returns
the next multiple of S after c (the multiple v of S with c < v <= c + S), or 0
when that multiple exceeds hi; the value returned lies in [lo, hi] whenever
lo <= 0 <= hi, which is the case in both calls of the code (lo = 0). A step
that Atoi does not read, or reads as zero or negative, is rejected. -/
theorem C19_step_field_amended (f : String) (lo hi c : Int) (hf : hasStepPrefix f = true) :
    (∀ S, Atoi (String.mk (f.data.drop 2)) = some S → 1 ≤ S → 0 ≤ c →
      c < 4611686018427387904 →
      ∃ v, S ∣ v ∧ c < v ∧ v ≤ c + S ∧
        parseCronField f lo hi c = .ok (if v > hi then 0 else v) ∧
        (lo ≤ 0 → 0 ≤ hi → lo ≤ (if v > hi then 0 else v) ∧ (if v > hi then 0 else v) ≤ hi)) ∧
    (Atoi (String.mk (f.data.drop 2)) = none → parseCronField f lo hi c = .error (.invalidStep f)) ∧
    (∀ S, Atoi (String.mk (f.data.drop 2)) = some S → S ≤ 0 →
      parseCronField f lo hi c = .error (.invalidStep f)) := by
  have hs := stepPrefix_ne_star f hf
  refine ⟨?_, ?_, ?_⟩
  · intro S hA hS hc hc2
    obtain ⟨_, h2, h3⟩ := stepValue c S hc hc2 hS (Atoi_range _ _ hA).2
    refine ⟨(c / S + 1) * S, Dvd.intro_left _ rfl, h2, h3,
      parseCronField_step f lo hi c S hf hA hS hc hc2, ?_⟩
    intro hlo hhi
    split <;> omega
  · intro hA
    simp only [parseCronField, if_neg hs, hf, if_true, hA]
  · intro S hA hS
    simp only [parseCronField, if_neg hs, hf, if_true, hA, if_pos hS]

/-- Witness of C19 as amended: the hour field `*/6` at 13 o'clock gives 18. -/
theorem C19_step_field_amended_witness :
    ∃ v, (6 : Int) ∣ v ∧ 13 < v ∧ v ≤ 13 + 6 ∧
      parseCronField "*/6" 0 23 13 = .ok (if v > 23 then 0 else v) ∧
      ((0 : Int) ≤ 0 → (0 : Int) ≤ 23 →
        0 ≤ (if v > 23 then 0 else v) ∧ (if v > 23 then 0 else v) ≤ 23) :=
  (C19_step_field_amended "*/6" 0 23 13 (by decide)).1 6 (by decide) (by decide) (by decide)
    (by decide)

/-- C19 as stated fails for bounds that do not hold 0: with the bounds [1, 31]
of a day field, `*/20` at the current value 25 overshoots and gives 0, which is
below lo. -/
theorem C19_step_field_counterexample :
    parseCronField "*/20" 1 31 25 = .ok 0 ∧ ¬ ((1 : Int) ≤ 0) := by
  decide

/-! ## The tick of the scheduler -/

theorem checkEntry_actions (l : Location) (now parseNow : Int) (s : Scheduler)
    (entry : ScheduledEntry) :
    (checkEntry l now parseNow s entry).1.hasOnAction = s.hasOnAction ∧
    (checkEntry l now parseNow s entry).1.actions
      = s.actions ++ (if s.hasOnAction = true ∧ isDue now entry = true
                      then [(entry.Task.InstanceID, entry.Task.Action, entry.Task.Payload)]
                      else []) := by
  unfold checkEntry isDue
  by_cases hen : entry.Task.Enabled = true
  · by_cases hnr : entry.NextRun > now
    · have hle : ¬ entry.NextRun ≤ now := by omega
      simp [hen, hnr, hle]
    · have hle : entry.NextRun ≤ now := by omega
      cases hcb : s.hasOnAction <;> simp [hen, hnr, hle, hcb]
  · simp [hen]

theorem checkLoop_actions (l : Location) (now : Int) (parseNow : String → Int)
    (rest : List (String × ScheduledEntry)) :
    ∀ (s : Scheduler) (done : List (String × ScheduledEntry)),
      (checkLoop l now parseNow s done rest).1.actions
        = s.actions ++ (if s.hasOnAction = true then
            ((rest.map (fun e => e.2)).filter (isDue now)).map
              (fun e => (e.Task.InstanceID, e.Task.Action, e.Task.Payload))
           else []) := by
  induction rest with
  | nil =>
    intro s done
    simp [checkLoop]
  | cons e rest ih =>
    intro s done
    obtain ⟨key, entry⟩ := e
    obtain ⟨h1, h2⟩ := checkEntry_actions l now (parseNow key) s entry
    simp only [checkLoop]
    rw [ih, h1, h2]
    by_cases hcb : s.hasOnAction = true <;> by_cases hd : isDue now entry = true <;>
      simp [hcb, hd, List.filter]

/-- C20: a tick of the scheduler (checkAndRun) evaluated at time now, with an
action callback set, calls it exactly once for each entry of the table that is
enabled and has next-run <= now, in the order of the visit, with that task's
instance id, action and payload, and does not call it for any other entry;
without a callback no call is made. In scenario S5 the task `30 2 * * *`, due
at 2024-06-02 02:30:00, is called once by the tick at that instant. -/
theorem C20_tick (l : Location) (now : Int) (parseNow : String → Int) (s : Scheduler) :
    (s.hasOnAction = true →
      (s.checkAndRun l now parseNow).actions
        = s.actions ++ ((s.tasks.map (fun e => e.2)).filter (isDue now)).map
            (fun e => (e.Task.InstanceID, e.Task.Action, e.Task.Payload))) ∧
    (s.hasOnAction = false → (s.checkAndRun l now parseNow).actions = s.actions) ∧
    (Scheduler.checkAndRun (fixedZone 0) (civil 2024 6 2 2 30 0) (fun _ => civil 2024 6 2 2 30 0)
        { tasks := [("t1", { Task := { ID := "t1", InstanceID := "srv1",
                                       CronExpr := "30 2 * * *", Action := "restart",
                                       Payload := "", Enabled := true, LastRun := none,
                                       NextRun := some (civil 2024 6 2 2 30 0) },
                             NextRun := civil 2024 6 2 2 30 0 })],
          db := [], started := true, hasOnAction := true, actions := [] }).actions
      = [("srv1", "restart", "")] := by
  refine ⟨?_, ?_, by decide⟩
  · intro h
    simp only [Scheduler.checkAndRun, checkLoop_actions, h, if_true]
  · intro h
    simp only [Scheduler.checkAndRun, checkLoop_actions, h, Bool.false_eq_true, if_false,
      List.append_nil]

/-- Witness of C20: two entries, one due and one not yet, with a callback. -/
theorem C20_tick_witness :
    (Scheduler.checkAndRun (fixedZone 0) 100 (fun _ => 100)
        { tasks := [("a", { Task := { ID := "a", InstanceID := "srv1", CronExpr := "0 3 * * *",
                                      Action := "rcon", Payload := "say hi", Enabled := true,
                                      LastRun := none, NextRun := some 50 }, NextRun := 50 }),
                    ("b", { Task := { ID := "b", InstanceID := "srv2", CronExpr := "0 3 * * *",
                                      Action := "backup", Payload := "", Enabled := true,
                                      LastRun := none, NextRun := some 500 }, NextRun := 500 })],
          db := [], started := true, hasOnAction := true, actions := [] }).actions
      = [] ++ [("srv1", "rcon", "say hi")] :=
  (C20_tick (fixedZone 0) 100 (fun _ => 100)
    { tasks := [("a", { Task := { ID := "a", InstanceID := "srv1", CronExpr := "0 3 * * *",
                                  Action := "rcon", Payload := "say hi", Enabled := true,
                                  LastRun := none, NextRun := some 50 }, NextRun := 50 }),
                ("b", { Task := { ID := "b", InstanceID := "srv2", CronExpr := "0 3 * * *",
                                  Action := "backup", Payload := "", Enabled := true,
                                  LastRun := none, NextRun := some 500 }, NextRun := 500 })],
      db := [], started := true, hasOnAction := true, actions := [] }).1 rfl

end Sched

namespace Sched

/-- On a clock without shift an accepted expression gives an instant after
`now`, at most twenty-four hours after it. -/
theorem ParseSimpleCron_window (l : Location) (now : Int) (expr : String) (next : Int)
    (hfix : l.transitions = []) (h : ParseSimpleCron l now expr = .ok next) :
    now < next ∧ next ≤ now + 24 * nsPerHour := by
  obtain ⟨hour, min, h1, h2, h3, h4, hn⟩ := ParseSimpleCron_ok l now expr next h
  rw [dateToday_fixed l hfix] at hn
  rw [hn]
  simp only [nsPerDay, nsPerHour, nsPerMinute]
  split <;> omega

theorem mem_tableSet (m : List (String × ScheduledEntry)) (key : String) (v : ScheduledEntry)
    (x : String × ScheduledEntry) (h : x ∈ tableSet m key v) : x ∈ m ∨ x = (key, v) := by
  induction m with
  | nil =>
    simp only [tableSet, List.mem_singleton] at h
    exact Or.inr h
  | cons y rest ih =>
    obtain ⟨k, e⟩ := y
    simp only [tableSet] at h
    split at h
    · rcases List.mem_cons.mp h with h1 | h1
      · exact Or.inr h1
      · exact Or.inl (List.mem_cons_of_mem _ h1)
    · rcases List.mem_cons.mp h with h1 | h1
      · exact Or.inl (by rw [h1]; exact List.mem_cons_self _ _)
      · rcases ih h1 with h2 | h2
        · exact Or.inl (List.mem_cons_of_mem _ h2)
        · exact Or.inr h2

theorem tableGet_tableSet (m : List (String × ScheduledEntry)) (key : String)
    (v : ScheduledEntry) : tableGet (tableSet m key v) key = some v := by
  induction m with
  | nil => simp [tableSet, tableGet]
  | cons y rest ih =>
    obtain ⟨k, e⟩ := y
    by_cases hk : k = key
    · simp [tableSet, tableGet, hk]
    · simp [tableSet, tableGet, hk, ih]

theorem tableGet_tableSet_ne (m : List (String × ScheduledEntry)) (key key2 : String)
    (v : ScheduledEntry) (hne : key2 ≠ key) :
    tableGet (tableSet m key v) key2 = tableGet m key2 := by
  induction m with
  | nil =>
    have : ¬ key = key2 := fun h => hne h.symm
    simp [tableSet, tableGet, this]
  | cons y rest ih =>
    obtain ⟨k, e⟩ := y
    by_cases hk : k = key
    · have : ¬ key = key2 := fun h => hne h.symm
      have h3 : ¬ k = key2 := by rw [hk]; exact this
      simp [tableSet, tableGet, hk, this]
    · by_cases hk2 : k = key2
      · subst hk2
        simp [tableSet, tableGet, hk]
      · simp [tableSet, tableGet, hk, hk2, ih]

/-- What `AddTask` does when it succeeds. -/
theorem AddTask_ok (l : Location) (now : Int) (newID : String) (createOk : Bool)
    (s : Scheduler) (task : ScheduledTask)
    (h : (s.AddTask l now newID createOk task).1 = none) :
    ∃ t, ParseSimpleCron l now task.CronExpr = .ok t ∧
      (s.AddTask l now newID createOk task).2.db
        = s.db ++ [{ task with ID := if task.ID = nilUUID then newID else task.ID,
                               Enabled := true, NextRun := some t }] ∧
      tableGet (s.AddTask l now newID createOk task).2.tasks
          (if task.ID = nilUUID then newID else task.ID)
        = some { Task := { task with ID := if task.ID = nilUUID then newID else task.ID,
                                     Enabled := true, NextRun := some t },
                 NextRun := t } := by
  unfold Scheduler.AddTask at h ⊢
  cases hp : ParseSimpleCron l now task.CronExpr with
  | error e => simp [hp] at h
  | ok t =>
    simp only [hp] at h ⊢
    cases hc : createOk with
    | false => simp [hc] at h
    | true =>
      refine ⟨t, rfl, ?_⟩
      by_cases hid : task.ID = nilUUID
      · simp [hid, tableGet_tableSet]
      · simp [hid, tableGet_tableSet]

/-- Every entry of the table after the loading loop was there before or has its
next run after `T`. -/
theorem loadLoop_mem (l : Location) (hfix : l.transitions = []) (parseNow : String → Int)
    (T : Int) (hT : ∀ id, T ≤ parseNow id) (rows : List ScheduledTask) :
    ∀ (tasks : List (String × ScheduledEntry)) (x : String × ScheduledEntry),
      x ∈ loadLoop l parseNow tasks rows → x ∈ tasks ∨ T < x.2.NextRun := by
  induction rows with
  | nil =>
    intro tasks x hx
    exact Or.inl hx
  | cons t rest ih =>
    intro tasks x hx
    simp only [loadLoop] at hx
    cases hp : ParseSimpleCron l (parseNow t.ID) t.CronExpr with
    | error e =>
      simp only [hp] at hx
      exact ih tasks x hx
    | ok n =>
      simp only [hp] at hx
      rcases ih _ x hx with h1 | h1
      · rcases mem_tableSet _ _ _ _ h1 with h2 | h2
        · exact Or.inl h2
        · right
          rw [h2]
          have := (ParseSimpleCron_window l _ _ n hfix hp).1
          have := hT t.ID
          simp only
          omega
      · exact Or.inr h1

/-- The loading loop keeps an entry with next run after `T` under a key that
has one. -/
theorem loadLoop_keeps (l : Location) (hfix : l.transitions = []) (parseNow : String → Int)
    (T : Int) (hT : ∀ id, T ≤ parseNow id) (key : String) (rows : List ScheduledTask) :
    ∀ (tasks : List (String × ScheduledEntry)),
      (∃ entry, tableGet tasks key = some entry ∧ T < entry.NextRun) →
      ∃ entry, tableGet (loadLoop l parseNow tasks rows) key = some entry ∧ T < entry.NextRun := by
  induction rows with
  | nil =>
    intro tasks h
    exact h
  | cons t rest ih =>
    intro tasks h
    simp only [loadLoop]
    cases hp : ParseSimpleCron l (parseNow t.ID) t.CronExpr with
    | error e => exact ih tasks h
    | ok n =>
      apply ih
      by_cases hk : key = t.ID
      · refine ⟨_, by rw [hk]; exact tableGet_tableSet _ _ _, ?_⟩
        have := (ParseSimpleCron_window l _ _ n hfix hp).1
        have := hT t.ID
        simp only
        omega
      · rw [tableGet_tableSet_ne _ _ _ _ hk]
        exact h

/-- The loading loop gives every row that it accepts an entry with next run
after `T`. -/
theorem loadLoop_loads (l : Location) (hfix : l.transitions = []) (parseNow : String → Int)
    (T : Int) (hT : ∀ id, T ≤ parseNow id) (rows : List ScheduledTask) :
    ∀ (tasks : List (String × ScheduledEntry)) (t : ScheduledTask), t ∈ rows →
      (∃ n, ParseSimpleCron l (parseNow t.ID) t.CronExpr = .ok n) →
      ∃ entry, tableGet (loadLoop l parseNow tasks rows) t.ID = some entry ∧
        T < entry.NextRun := by
  induction rows with
  | nil =>
    intro tasks t ht
    simp at ht
  | cons r rest ih =>
    intro tasks t ht hacc
    rcases List.mem_cons.mp ht with h1 | h1
    · subst h1
      obtain ⟨n, hn⟩ := hacc
      simp only [loadLoop, hn]
      apply loadLoop_keeps l hfix parseNow T hT
      refine ⟨_, tableGet_tableSet _ _ _, ?_⟩
      have := (ParseSimpleCron_window l _ _ n hfix hn).1
      have := hT t.ID
      simp only
      omega
    · simp only [loadLoop]
      cases hp : ParseSimpleCron l (parseNow r.ID) r.CronExpr with
      | error e => exact ih tasks t h1 hacc
      | ok n => exact ih _ t h1 hacc

/-- The entry left by the body of the tick. -/
theorem checkEntry_entry (l : Location) (hfix : l.transitions = []) (now parseNow : Int)
    (hn : now ≤ parseNow) (s : Scheduler) (entry : ScheduledEntry)
    (he : (checkEntry l now parseNow s entry).2.Task.Enabled = true) :
    now < (checkEntry l now parseNow s entry).2.NextRun := by
  unfold checkEntry at he ⊢
  by_cases hen : entry.Task.Enabled = true
  · by_cases hnr : entry.NextRun > now
    · simp only [hen, hnr, Bool.not_true, Bool.false_eq_true, false_or, if_true]
    · simp only [hen, hnr, Bool.not_true, Bool.false_eq_true, false_or, if_false]
      cases hp : ParseSimpleCron l parseNow entry.Task.CronExpr with
      | error e =>
        show now < now + 24 * nsPerHour
        simp only [nsPerHour]
        omega
      | ok t =>
        have := (ParseSimpleCron_window l _ _ t hfix hp).1
        show now < t
        omega
  · simp [hen] at he

theorem checkLoop_entries (l : Location) (hfix : l.transitions = []) (now : Int)
    (parseNow : String → Int) (hn : ∀ key, now ≤ parseNow key)
    (rest : List (String × ScheduledEntry)) :
    ∀ (s : Scheduler) (done : List (String × ScheduledEntry)),
      (∀ x ∈ done, x.2.Task.Enabled = true → now < x.2.NextRun) →
      ∀ x ∈ (checkLoop l now parseNow s done rest).2,
        x.2.Task.Enabled = true → now < x.2.NextRun := by
  induction rest with
  | nil =>
    intro s done hdone x hx
    simp only [checkLoop, List.mem_reverse] at hx
    exact hdone x hx
  | cons e rest ih =>
    intro s done hdone
    obtain ⟨key, entry⟩ := e
    simp only [checkLoop]
    apply ih
    intro x hx
    rcases List.mem_cons.mp hx with h1 | h1
    · rw [h1]
      exact checkEntry_entry l hfix now (parseNow key) (hn key) s entry
    · exact hdone x h1

end Sched

namespace Sched

/-- On a clock without shift every operation that writes the next run of a task
writes an instant strictly in the future. `AddTask` at time T, when it
succeeds, stores the task enabled with next run > T, in the store and in the
table. `Scheduler.Start` at time T leaves in the table only entries that were
there before or have next run > T, and every enabled row whose expression is
accepted has an entry with next run > T. After a tick evaluated at time now
every enabled entry of the table has next run > now; for a due entry whose
expression is refused the next run written is now + 24 h. (The clock does not
run backwards: each reading taken inside the operation is at or after T.) -/
theorem next_run_future_fixed_clock (l : Location) (hfix : l.transitions = []) :
    (∀ (T : Int) (newID : String) (createOk : Bool) (s : Scheduler) (task : ScheduledTask),
      (s.AddTask l T newID createOk task).1 = none →
      ∃ t stored, T < t ∧ stored.Enabled = true ∧ stored.NextRun = some t ∧
        (s.AddTask l T newID createOk task).2.db = s.db ++ [stored] ∧
        tableGet (s.AddTask l T newID createOk task).2.tasks stored.ID
          = some { Task := stored, NextRun := t }) ∧
    (∀ (T : Int) (parseNow : String → Int) (s : Scheduler), (∀ id, T ≤ parseNow id) →
      s.started = false →
      (∀ x ∈ (s.Start l parseNow true).2.tasks, x ∈ s.tasks ∨ T < x.2.NextRun) ∧
      (∀ t ∈ s.db, t.Enabled = true →
        (∃ n, ParseSimpleCron l (parseNow t.ID) t.CronExpr = .ok n) →
        ∃ entry, tableGet (s.Start l parseNow true).2.tasks t.ID = some entry ∧
          T < entry.NextRun)) ∧
    (∀ (now : Int) (parseNow : String → Int) (s : Scheduler), (∀ key, now ≤ parseNow key) →
      ∀ x ∈ (s.checkAndRun l now parseNow).tasks,
        x.2.Task.Enabled = true → now < x.2.NextRun) ∧
    (∀ (now parseNow : Int) (s : Scheduler) (entry : ScheduledEntry) (e : CronError),
      isDue now entry = true → ParseSimpleCron l parseNow entry.Task.CronExpr = .error e →
      (checkEntry l now parseNow s entry).2.NextRun = now + 24 * nsPerHour) := by
  refine ⟨?_, ?_, ?_, ?_⟩
  · intro T newID createOk s task h
    obtain ⟨t, hp, hdb, htab⟩ := AddTask_ok l T newID createOk s task h
    exact ⟨t, _, (ParseSimpleCron_window l T _ t hfix hp).1, rfl, rfl, hdb, htab⟩
  · intro T parseNow s hT hs
    simp only [Scheduler.Start, hs, Bool.false_eq_true, if_false, not_true_eq_false]
    refine ⟨?_, ?_⟩
    · intro x hx
      exact loadLoop_mem l hfix parseNow T hT _ _ x hx
    · intro t ht hen hacc
      exact loadLoop_loads l hfix parseNow T hT _ _ t
        (List.mem_filter.mpr ⟨ht, by simp [hen]⟩) hacc
  · intro now parseNow s hn x hx
    simp only [Scheduler.checkAndRun] at hx
    exact checkLoop_entries l hfix now parseNow hn s.tasks s [] (by simp) x hx
  · intro now parseNow s entry e hdue hp
    unfold isDue at hdue
    simp only [Bool.and_eq_true, decide_eq_true_eq] at hdue
    have hnr : ¬ entry.NextRun > now := by omega
    simp only [checkEntry, hdue.1, hnr, Bool.not_true, Bool.false_eq_true, false_or, if_false, hp]

/-- C21 does not hold of the code. ParseSimpleCron adds twenty-four hours where
its comment says `advance to next day`. In a zone that falls back one hour on
2024-11-03, AddTask of `0 0 * * *` at 23:30 local time of that day (T = 04:30
UTC of the next day) succeeds and stores, in the store and in the table, the
next-run 04:00 UTC, half an hour before T. A tick at 04:00:30 UTC that finds
this task due writes the same next-run 04:00 UTC again, which is before now,
so the task is due again at the next tick. -/
theorem C21_next_run_before_now :
    (Scheduler.AddTask autumnZone (civil 2024 11 4 4 30 0) "t1" true
        { tasks := [], db := [], started := false, hasOnAction := false, actions := [] }
        { ID := nilUUID, InstanceID := "srv1", CronExpr := "0 0 * * *", Action := "restart",
          Payload := "", Enabled := false, LastRun := none, NextRun := none })
      = (none,
         { tasks := [("t1", { Task := { ID := "t1", InstanceID := "srv1",
                                        CronExpr := "0 0 * * *", Action := "restart",
                                        Payload := "", Enabled := true, LastRun := none,
                                        NextRun := some (civil 2024 11 4 4 0 0) },
                              NextRun := civil 2024 11 4 4 0 0 })],
           db := [{ ID := "t1", InstanceID := "srv1", CronExpr := "0 0 * * *",
                    Action := "restart", Payload := "", Enabled := true, LastRun := none,
                    NextRun := some (civil 2024 11 4 4 0 0) }],
           started := false, hasOnAction := false, actions := [] }) ∧
    civil 2024 11 4 4 0 0 < civil 2024 11 4 4 30 0 ∧
    (Scheduler.checkAndRun autumnZone (civil 2024 11 4 4 0 30) (fun _ => civil 2024 11 4 4 0 30)
        { tasks := [("t1", { Task := { ID := "t1", InstanceID := "srv1",
                                       CronExpr := "0 0 * * *", Action := "restart",
                                       Payload := "", Enabled := true, LastRun := none,
                                       NextRun := some (civil 2024 11 4 4 0 0) },
                             NextRun := civil 2024 11 4 4 0 0 })],
          db := [], started := true, hasOnAction := true, actions := [] }).tasks.map
        (fun e => (e.2.Task.Enabled, e.2.NextRun))
      = [(true, civil 2024 11 4 4 0 0)] ∧
    civil 2024 11 4 4 0 0 < civil 2024 11 4 4 0 30 := by
  decide

end Sched

namespace Sched

/-- C25: the result of ParseSimpleCron depends only on the minute and hour
fields. For every clock, every time T and any two expressions of five fields
that have the same first two fields, ParseSimpleCron gives the same outcome on
both, the same error or the same next-run, whatever stands in the day, month
and day-of-week fields. -/
theorem C25_hour_minute_only (l : Location) (now : Int) (e1 e2 f0 f1 a b c a2 b2 c2 : String)
    (h1 : Instance.Fields (Instance.TrimSpace e1) = [f0, f1, a, b, c])
    (h2 : Instance.Fields (Instance.TrimSpace e2) = [f0, f1, a2, b2, c2]) :
    ParseSimpleCron l now e1 = ParseSimpleCron l now e2 := by
  simp only [ParseSimpleCron, h1, h2]

/-- Witness of C25: `30 2 * * *` and `30 2 31 feb x` at 2024-06-01 10:00:00. -/
theorem C25_hour_minute_only_witness :
    ParseSimpleCron (fixedZone 0) (civil 2024 6 1 10 0 0) "30 2 * * *"
      = ParseSimpleCron (fixedZone 0) (civil 2024 6 1 10 0 0) "30 2 31 feb x" :=
  C25_hour_minute_only (fixedZone 0) (civil 2024 6 1 10 0 0) "30 2 * * *" "30 2 31 feb x"
    "30" "2" "*" "*" "*" "31" "feb" "x" (by decide) (by decide)

/-- The next run that `* * * * *` gives on a clock without shift: the start of
the current minute, plus twenty-four hours. -/
theorem every_minute_value (off now : Int) :
    ParseSimpleCron (fixedZone off) now "* * * * *"
      = .ok (now - (now + off) % nsPerMinute + 24 * nsPerHour) := by
  have hf : Instance.Fields (Instance.TrimSpace "* * * * *") = ["*", "*", "*", "*", "*"] := by
    decide
  have hfix : (fixedZone off).transitions = [] := rfl
  have hoff : (fixedZone off).offset0 = off := rfl
  simp only [ParseSimpleCron, hf, parseCronField, if_true, dateToday_fixed _ hfix, Hour, Minute,
    wall_fixed _ hfix, hoff, nsPerDay, nsPerHour, nsPerMinute]
  split
  · congr 1
    omega
  · rename_i h
    exfalso
    apply h
    omega

/-- C26 does not hold of the code. On every clock without shift and at every
time T, ParseSimpleCron accepts `* * * * *` and returns the start of the
current minute plus 24 hours, which is more than 23 hours and 59 minutes after
T; at 2024-06-01 10:00:00 UTC it returns 2024-06-02 10:00:00. -/
theorem C26_every_minute_is_daily :
    (∀ off now : Int, ∃ next,
      ParseSimpleCron (fixedZone off) now "* * * * *" = .ok next ∧
      next = now - (now + off) % nsPerMinute + 24 * nsPerHour ∧
      now + 23 * nsPerHour + 59 * nsPerMinute < next) ∧
    ParseSimpleCron (fixedZone 0) (civil 2024 6 1 10 0 0) "* * * * *"
      = .ok (civil 2024 6 2 10 0 0) := by
  refine ⟨fun off now => ⟨_, every_minute_value off now, rfl, ?_⟩, by decide⟩
  simp only [nsPerHour, nsPerMinute]
  omega

/-- C29: on a clock without daylight-saving shift, for every expression that
ParseSimpleCron accepts and every time T at which it is evaluated, the next-run
returned is at most 24 hours after T. -/
theorem C29_within_a_day (l : Location) (now : Int) (expr : String) (next : Int)
    (hfix : l.transitions = []) (h : ParseSimpleCron l now expr = .ok next) :
    next ≤ now + 24 * nsPerHour :=
  (ParseSimpleCron_window l now expr next hfix h).2

/-- Witness of C29: `0 10 * * *` at 2024-06-01 10:00:00 UTC gives the same
time of the next day, exactly 24 hours later. -/
theorem C29_within_a_day_witness :
    civil 2024 6 2 10 0 0 ≤ civil 2024 6 1 10 0 0 + 24 * nsPerHour :=
  C29_within_a_day (fixedZone 0) (civil 2024 6 1 10 0 0) "0 10 * * *" (civil 2024 6 2 10 0 0)
    rfl (by decide)

end Sched

namespace Rcon

/-! ## Frames on a stream -/

/-- C28: ReadPacket consumes exactly one frame. For every packet p (RequestID
and Type being 32-bit integers) whose Body has no zero byte and at most 4086
bytes, and every byte string rest, EncodePacket(p) succeeds and ReadPacket on
the stream EncodePacket(p) ++ rest returns a packet with p's RequestID, Type
and Body and Size = len(Body)+10, and leaves exactly rest unread; so two
frames sent back to back, of p and then of such a packet q, are decoded by two
calls in that order, and the second call leaves rest. -/
theorem C28_one_frame (p : Packet) (rest : List Byte) (e : IOError)
    (hid : isInt32 p.RequestID) (hty : isInt32 p.Type_) (hz : (0 : Byte) ∉ p.Body)
    (hlen : p.Body.length ≤ 4086) :
    (∃ bytes, EncodePacket p = .ok bytes ∧
      ReadPacket { data := bytes ++ rest, atEnd := e }
        = (.ok { Size := (p.Body.length + 10 : Nat), RequestID := p.RequestID,
                 Type_ := p.Type_, Body := p.Body },
           { data := rest, atEnd := e })) ∧
    (∀ q : Packet, isInt32 q.RequestID → isInt32 q.Type_ → (0 : Byte) ∉ q.Body →
      q.Body.length ≤ 4086 →
      ∃ bytes1 bytes2 r1, EncodePacket p = .ok bytes1 ∧ EncodePacket q = .ok bytes2 ∧
        ReadPacket { data := bytes1 ++ bytes2 ++ rest, atEnd := e }
          = (.ok { Size := (p.Body.length + 10 : Nat), RequestID := p.RequestID,
                   Type_ := p.Type_, Body := p.Body }, r1) ∧
        ReadPacket r1
          = (.ok { Size := (q.Body.length + 10 : Nat), RequestID := q.RequestID,
                   Type_ := q.Type_, Body := q.Body },
             { data := rest, atEnd := e })) := by
  refine ⟨⟨_, EncodePacket_ok p hlen, ?_⟩, ?_⟩
  · exact ReadPacket_frame p.RequestID p.Type_ p.Body rest e hid hty hz hlen
  · intro q hqid hqty hqz hqlen
    refine ⟨_, _, { data := putUint32 (q.Body.length + 10) ++ putUint32 (toUint32 q.RequestID)
        ++ putUint32 (toUint32 q.Type_) ++ q.Body ++ [0, 0] ++ rest, atEnd := e },
      EncodePacket_ok p hlen, EncodePacket_ok q hqlen, ?_, ?_⟩
    · rw [List.append_assoc]
      exact ReadPacket_frame p.RequestID p.Type_ p.Body _ e hid hty hz hlen
    · exact ReadPacket_frame q.RequestID q.Type_ q.Body rest e hqid hqty hqz hqlen

/-- Witness of C28: a VALUE frame with the body `hostname: x`, followed on the
stream by the empty VALUE frame of request 8. -/
theorem C28_one_frame_witness :
    ∃ bytes, EncodePacket { Size := 0, RequestID := 7, Type_ := 0, Body := ascii "hostname: x" }
        = .ok bytes ∧
      ReadPacket { data := bytes ++ [10, 0, 0, 0, 8, 0, 0, 0, 0, 0, 0, 0, 0, 0], atEnd := .EOF }
        = (.ok { Size := ((ascii "hostname: x").length + 10 : Nat), RequestID := 7,
                 Type_ := 0, Body := ascii "hostname: x" },
           { data := [10, 0, 0, 0, 8, 0, 0, 0, 0, 0, 0, 0, 0, 0], atEnd := .EOF }) :=
  (C28_one_frame { Size := 0, RequestID := 7, Type_ := 0, Body := ascii "hostname: x" }
    [10, 0, 0, 0, 8, 0, 0, 0, 0, 0, 0, 0, 0, 0] .EOF (by decide) (by decide) (by decide)
    (by decide)).1

end Rcon

namespace Instance

/-! ## A spawn that fails -/

end Instance

namespace App

/-! ## The admin password -/

/-- C24 does not hold of the code. For every stored instance, the argument that
buildLaunchArgs places after `+rcon_password` (positions 13 and 14 of the
arguments) is the stored value as it is, or `changeme` when that is empty,
while getRconPassword returns the stored value decrypted, or `cs2admin` when
it is empty or cannot be decrypted. For a stored instance with an empty
password the application authenticates with `cs2admin` and the server is
started with `changeme`; CreateInstance stores the encryption of `cs2admin`
for a configuration without password. -/
theorem C24_password_mismatch :
    (∀ (decrypt : String → Option String) (inst : Instance.ServerInstance),
      (Instance.buildLaunchArgs inst)[13]? = some "+rcon_password" ∧
      (Instance.buildLaunchArgs inst)[14]?
        = some (if inst.RconPassword = "" then "changeme" else inst.RconPassword) ∧
      getRconPassword decrypt inst
        = (if inst.RconPassword = "" then "cs2admin"
           else (decrypt inst.RconPassword).getD "cs2admin")) ∧
    (∀ decrypt : String → Option String,
      getRconPassword decrypt { Instance.scenarioInstance with RconPassword := "" }
        = "cs2admin") ∧
    (Instance.buildLaunchArgs { Instance.scenarioInstance with RconPassword := "" })[14]?
      = some "changeme" ∧
    (∀ encrypt : String → Option String,
      createdRconPassword encrypt { RconPassword := "" } = encrypt "cs2admin") := by
  refine ⟨?_, ?_, by decide, ?_⟩
  · intro decrypt inst
    refine ⟨?_, ?_, ?_⟩
    · unfold Instance.buildLaunchArgs
      by_cases h : Instance.TrimSpace inst.LaunchArgs = "" <;> simp [h]
    · unfold Instance.buildLaunchArgs
      by_cases h : Instance.TrimSpace inst.LaunchArgs = "" <;> simp [h]
    · unfold getRconPassword
      by_cases h : inst.RconPassword = ""
      · simp [h]
      · cases hd : decrypt inst.RconPassword <;> simp [h, hd]
  · intro decrypt
    rfl
  · intro encrypt
    rfl

end App

namespace Monitor

/-! ## The first sample of the network rates -/

/-- C27 does not hold of the code. The first sample of a new collector is not
rejected: one second after the creation, on a host whose counters stand at
1048576 bytes received and 2097152 bytes sent, collectMetrics reports
NetInKbps = 1024 and NetOutKbps = 2048, the counters themselves divided by 1024
and by the time since the creation; the previous counters are zero. -/
theorem C27_first_sample_not_rejected :
    (NewCollector 0).prevNetRecv = 0 ∧ (NewCollector 0).prevNetSent = 0 ∧
    (collectMetrics (some (1048576, 2097152)) 1000000000 (NewCollector 0)).1
      = { NetInKbps := 1024, NetOutKbps := 2048 } := by
  refine ⟨rfl, rfl, ?_⟩
  simp only [collectMetrics, NewCollector, seconds, subUint64]
  norm_num

end Monitor

namespace Benchmark

/-! ## The tick rate in a status reply -/

/-- A line of more than four bytes that does not start with `tick` and has
fewer than eight bytes makes the loop over the lines panic. -/
theorem parseTickLines_short {F : Type} (scanTick scanTickrate : List Rcon.Byte → F)
    (isZero : F → Bool) (zero : F) (line : List Rcon.Byte) (rest : List (List Rcon.Byte))
    (h1 : line.length > 4) (h2 : line.take 4 ≠ Rcon.ascii "tick") (h3 : line.length < 8) :
    parseTickLines scanTick scanTickrate isZero zero (line :: rest) = none := by
  have h4 : sliceTo line 4 = some (line.take 4) := by
    unfold sliceTo
    rw [if_pos (by omega)]
  have h8 : sliceTo line 8 = none := by
    unfold sliceTo
    rw [if_neg (by omega)]
  rw [parseTickLines, if_pos h1]
  simp only [h4, if_neg h2, h8]

/-- C23 does not hold of the code. On the status reply `hello`, one line of
five bytes that does not start with `tick`, parseTickFromStatus evaluates
`line[:8]` and panics, whatever the scanning functions are; so it does on the
reply `vac ok` followed by the line `tick : 64`. A reply whose first line is
`tick : 64` gives the value scanned. -/
theorem C23_short_line_panics :
    (∀ (F : Type) (scanTick scanTickrate : List Rcon.Byte → F) (isZero : F → Bool) (zero : F),
      parseTickFromStatus scanTick scanTickrate isZero zero (Rcon.ascii "hello") = none ∧
      parseTickFromStatus scanTick scanTickrate isZero zero (Rcon.ascii "vac ok\ntick : 64")
        = none) ∧
    splitLines (Rcon.ascii "hello") = [Rcon.ascii "hello"] ∧
    (Rcon.ascii "hello").length = 5 ∧
    sliceTo (Rcon.ascii "hello") 4 = some (Rcon.ascii "hell") ∧
    sliceTo (Rcon.ascii "hello") 8 = none ∧
    parseTickFromStatus (fun _ => (64 : Int)) (fun _ => 0) (fun v => decide (v = 0)) 0
        (Rcon.ascii "tick : 64") = some 64 := by
  refine ⟨?_, by decide, by decide, by decide, by decide, by decide⟩
  intro F scanTick scanTickrate isZero zero
  have h1 : splitLines (Rcon.ascii "hello") = [Rcon.ascii "hello"] := by decide
  have h2 : splitLines (Rcon.ascii "vac ok\ntick : 64")
      = [Rcon.ascii "vac ok", Rcon.ascii "tick : 64"] := by decide
  constructor
  · unfold parseTickFromStatus
    rw [h1]
    exact parseTickLines_short _ _ _ _ _ _ (by decide) (by decide) (by decide)
  · unfold parseTickFromStatus
    rw [h2]
    exact parseTickLines_short _ _ _ _ _ _ (by decide) (by decide) (by decide)

end Benchmark

namespace Benchmark

/-! ## The steps of a run -/

/-- Without a stop request and without a reply that makes the parser panic,
the sampling loop of a step runs to its end. -/
theorem sampleLoop_done {F : Type} (scanTick scanTickrate : List Rcon.Byte → F)
    (isZero : F → Bool) (zero : F) (poolSet : Bool) (samples : List Sample)
    (hstop : ∀ s ∈ samples, s.stopSeen = false)
    (hpanic : ∀ s ∈ samples, ∀ out, s.status = some out →
      (parseTickFromStatus scanTick scanTickrate isZero zero out).isSome = true) :
    sampleLoop scanTick scanTickrate isZero zero poolSet samples = .done := by
  induction samples with
  | nil => rfl
  | cons s rest ih =>
    have hs : s.stopSeen = false := hstop s (List.mem_cons_self _ _)
    have ih2 := ih (fun x hx => hstop x (List.mem_cons_of_mem _ hx))
      (fun x hx => hpanic x (List.mem_cons_of_mem _ hx))
    rw [sampleLoop]
    simp only [hs, Bool.false_eq_true, if_false]
    cases hq : (if poolSet = true then s.status else none) with
    | none => exact ih2
    | some out =>
      have hst : s.status = some out := by
        cases poolSet with
        | false => simp at hq
        | true => simpa using hq
      have hp := hpanic s (List.mem_cons_self _ _) out hst
      obtain ⟨v, hv⟩ := Option.isSome_iff_exists.mp hp
      simp only [hv]
      exact ih2

/-- The events delivered by the loop over the steps, when nothing stops it. -/
theorem runSteps_events {F : Type} (scanTick scanTickrate : List Rcon.Byte → F)
    (isZero : F → Bool) (zero : F) (env : Env) (r : BenchmarkRunner) (totalSteps : Int)
    (hcb : r.hasOnProgress = true)
    (hstop : ∀ k, env.stopAtStep k = false ∧ ∀ s ∈ env.samples k, s.stopSeen = false)
    (hpanic : ∀ k, ∀ s ∈ env.samples k, ∀ out, s.status = some out →
      (parseTickFromStatus scanTick scanTickrate isZero zero out).isSome = true)
    (n : Nat) :
    ∀ (step : Int) (tr : Trace),
      (∀ j : Int, step ≤ j → j < step + n →
        Sched.wrapInt64 (j * r.config.StepSize) = j * r.config.StepSize) →
      (runSteps scanTick scanTickrate isZero zero env r totalSteps n step tr).1 = none ∧
      (runSteps scanTick scanTickrate isZero zero env r totalSteps n step tr).2.events
        = tr.events ++ (List.range n).map (fun i : Nat =>
            (step + (i : Int), totalSteps,
              min ((step + (i : Int)) * r.config.StepSize) r.config.MaxBots)) := by
  induction n with
  | zero =>
    intro step tr _
    simp [runSteps]
  | succ n ih =>
    intro step tr hw
    have hs := (hstop step).1
    have hd := sampleLoop_done scanTick scanTickrate isZero zero r.poolSet (env.samples step)
      (hstop step).2 (hpanic step)
    have hw0 := hw step (Int.le_refl _) (by omega)
    have hmin : (if step * r.config.StepSize > r.config.MaxBots then r.config.MaxBots
        else step * r.config.StepSize) = min (step * r.config.StepSize) r.config.MaxBots := by
      rw [Int.min_def]
      split <;> split <;> omega
    rw [runSteps]
    simp only [hs, Bool.false_eq_true, if_false, hd, hcb, if_true, hw0, hmin]
    have ih2 := fun tr2 => ih (step + 1) tr2 (fun j h1 h2 => hw j (by omega) (by omega))
    refine ⟨(ih2 _).1, ?_⟩
    rw [(ih2 _).2]
    simp only [List.range_succ_eq_map, List.map_cons, List.map_map]
    have hfun : ((fun i : Nat => (step + (i : Int), totalSteps,
          min ((step + (i : Int)) * r.config.StepSize) r.config.MaxBots)) ∘ Nat.succ)
        = (fun i : Nat => (step + 1 + (i : Int), totalSteps,
          min ((step + 1 + (i : Int)) * r.config.StepSize) r.config.MaxBots)) := by
      funext i
      have : step + ((Nat.succ i : Nat) : Int) = step + 1 + (i : Int) := by
        push_cast
        omega
      simp only [Function.comp, this]
    rw [hfun]
    split <;> simp

end Benchmark

namespace Benchmark

/-- The number of steps computed by `Run`, without overflow: the least `q` with
`MaxBots ≤ q * StepSize`. -/
theorem totalSteps_value (M S : Int) (hM : 0 < M) (hS : 0 < S)
    (hbound : M + S ≤ 9223372036854775807) :
    Int.tdiv (Sched.wrapInt64 (Sched.wrapInt64 (M + S) - 1)) S = (M + S - 1) / S ∧
    1 ≤ (M + S - 1) / S ∧ ((M + S - 1) / S - 1) * S < M ∧ M ≤ (M + S - 1) / S * S := by
  have h1 : Sched.wrapInt64 (M + S) = M + S := Sched.wrapInt64_id _ (by omega) (by omega)
  have h2 : Sched.wrapInt64 (M + S - 1) = M + S - 1 := Sched.wrapInt64_id _ (by omega) (by omega)
  have h3 : Int.tdiv (M + S - 1) S = (M + S - 1) / S := Int.tdiv_eq_ediv (by omega) (by omega)
  have hle : (M + S - 1) / S * S ≤ M + S - 1 := Int.ediv_mul_le _ (by omega)
  have hlt : M + S - 1 < ((M + S - 1) / S + 1) * S := Int.lt_ediv_add_one_mul_self _ hS
  have hexp : ((M + S - 1) / S + 1) * S = (M + S - 1) / S * S + S := by
    rw [Int.add_mul, Int.one_mul]
  have hexp2 : ((M + S - 1) / S - 1) * S = (M + S - 1) / S * S - S := by
    rw [Int.sub_mul, Int.one_mul]
  have hq : 1 ≤ (M + S - 1) / S := Int.le_ediv_of_mul_le hS (by omega)
  rw [h1, h2, h3]
  refine ⟨rfl, hq, ?_, ?_⟩
  · rw [hexp2]
    omega
  · rw [hexp] at hlt
    omega

/-- C22, as amended: for MaxBots > 0 and StepSize > 0 whose sum fits an int, an
InstanceID that uuid.Parse accepts, a progress callback set, no stop request,
and status replies on which parseTickFromStatus does not panic,
BenchmarkRunner.Run performs exactly ceil(MaxBots / StepSize) steps (the least
n with MaxBots <= n * StepSize) and delivers one progress event per step; the
event of step k (1-based) carries k, the number of steps and the bot count
min(k * StepSize, MaxBots), the last one MaxBots; the run then saves its result
or fails on saving it. MaxBots 10 and StepSize 5 give exactly two events, with
bot counts 5 then 10. -/
theorem C22_steps_amended {F : Type} (scanTick scanTickrate : List Rcon.Byte → F)
    (isZero : F → Bool) (zero : F) (env : Env) (r : BenchmarkRunner) (id : String)
    (hM : 0 < r.config.MaxBots) (hS : 0 < r.config.StepSize)
    (hbound : r.config.MaxBots + r.config.StepSize ≤ 9223372036854775807)
    (hid : env.parse r.config.InstanceID = some id)
    (hcb : r.hasOnProgress = true)
    (hstop : ∀ k, env.stopAtStep k = false ∧ ∀ s ∈ env.samples k, s.stopSeen = false)
    (hpanic : ∀ k, ∀ s ∈ env.samples k, ∀ out, s.status = some out →
      (parseTickFromStatus scanTick scanTickrate isZero zero out).isSome = true) :
    (∃ n : Nat, ((n : Int) - 1) * r.config.StepSize < r.config.MaxBots ∧
      r.config.MaxBots ≤ (n : Int) * r.config.StepSize ∧
      (r.Run scanTick scanTickrate isZero zero env).2.events
        = (List.range n).map (fun i : Nat =>
            ((i : Int) + 1, (n : Int),
              min (((i : Int) + 1) * r.config.StepSize) r.config.MaxBots)) ∧
      (r.Run scanTick scanTickrate isZero zero env).2.events.length = n ∧
      ((r.Run scanTick scanTickrate isZero zero env).2.events.getLast?).map (fun e => e.2.2)
        = some r.config.MaxBots ∧
      (r.Run scanTick scanTickrate isZero zero env).1
        = (if env.saveOk then .ok id r.config.MaxBots else .error .saveResult)) ∧
    (BenchmarkRunner.Run (fun _ => (0 : Int)) (fun _ => 0) (fun v => decide (v = 0)) 0
        { parse := fun s => some s, stopAtStep := fun _ => false, connected := fun _ => true,
          samples := fun _ => [{ stopSeen := false, status := none }], connectedAtEnd := true,
          saveOk := true }
        { config := { InstanceID := "6ba7b810-9dad-11d1-80b4-00c04fd430c8", MaxBots := 10,
                      StepSize := 5, StepDuration := 1000000000 },
          poolSet := true, hasOnProgress := true })
      = (.ok "6ba7b810-9dad-11d1-80b4-00c04fd430c8" 10,
         { events := [(1, 2, 5), (2, 2, 10)],
           commands := ["bot_quota 5", "bot_quota 10", "bot_quota 0"] }) := by
  refine ⟨?_, by decide⟩
  obtain ⟨ht, hq, hlo, hhi⟩ := totalSteps_value r.config.MaxBots r.config.StepSize hM hS hbound
  generalize hqdef : (r.config.MaxBots + r.config.StepSize - 1) / r.config.StepSize = q at *
  have hcfg : ¬ (r.config.MaxBots ≤ 0 ∨ r.config.StepSize ≤ 0) := by omega
  have hq0 : ¬ q = 0 := by omega
  have hn : ((q.toNat : Nat) : Int) = q := Int.toNat_of_nonneg (by omega)
  have hwrap : ∀ j : Int, 1 ≤ j → j < 1 + (q.toNat : Int) →
      Sched.wrapInt64 (j * r.config.StepSize) = j * r.config.StepSize := by
    intro j h1 h2
    have hj1 : 0 ≤ j * r.config.StepSize := Int.mul_nonneg (by omega) (by omega)
    have hj2 : j * r.config.StepSize ≤ q * r.config.StepSize :=
      Int.mul_le_mul_of_nonneg_right (by omega) (by omega)
    have hq2 : q * r.config.StepSize ≤ r.config.MaxBots + r.config.StepSize - 1 := by
      have hexp2 : (q - 1) * r.config.StepSize = q * r.config.StepSize - r.config.StepSize := by
        rw [Int.sub_mul, Int.one_mul]
      omega
    exact Sched.wrapInt64_id _ (by omega) (by omega)
  obtain ⟨hr1, hr2⟩ := runSteps_events scanTick scanTickrate isZero zero env r q hcb hstop hpanic
    q.toNat 1 { events := [], commands := [] } hwrap
  have hev : (r.Run scanTick scanTickrate isZero zero env).2.events
      = (List.range q.toNat).map (fun i : Nat =>
          ((i : Int) + 1, ((q.toNat : Nat) : Int),
            min (((i : Int) + 1) * r.config.StepSize) r.config.MaxBots)) := by
    unfold BenchmarkRunner.Run
    simp only [if_neg hcfg, ht, if_neg hq0, hid]
    generalize hrs : runSteps scanTick scanTickrate isZero zero env r q q.toNat 1
      { events := [], commands := [] } = res at hr1 hr2
    obtain ⟨res1, tr⟩ := res
    simp only at hr1 hr2
    subst hr1
    simp only [hn]
    have hfun : (fun i : Nat => ((1 : Int) + (i : Int), q,
          min (((1 : Int) + (i : Int)) * r.config.StepSize) r.config.MaxBots))
        = (fun i : Nat => ((i : Int) + 1, q,
          min (((i : Int) + 1) * r.config.StepSize) r.config.MaxBots)) := by
      funext i
      rw [Int.add_comm 1 (i : Int)]
    have hr3 : tr.events = (List.range q.toNat).map (fun i : Nat => ((i : Int) + 1, q,
          min (((i : Int) + 1) * r.config.StepSize) r.config.MaxBots)) := by
      rw [hr2, List.nil_append, hfun]
    split <;> split <;> exact hr3
  have hres : (r.Run scanTick scanTickrate isZero zero env).1
      = (if env.saveOk then .ok id r.config.MaxBots else .error .saveResult) := by
    unfold BenchmarkRunner.Run
    simp only [if_neg hcfg, ht, if_neg hq0, hid]
    generalize hrs : runSteps scanTick scanTickrate isZero zero env r q q.toNat 1
      { events := [], commands := [] } = res at hr1 hr2
    obtain ⟨res1, tr⟩ := res
    simp only at hr1 hr2
    subst hr1
    cases env.saveOk <;> simp
  refine ⟨q.toNat, by rw [hn]; exact hlo, by rw [hn]; exact hhi, hev, ?_, ?_, hres⟩
  · rw [hev, List.length_map, List.length_range]
  · rw [hev]
    obtain ⟨m, hm⟩ : ∃ m, q.toNat = m + 1 := ⟨q.toNat - 1, by omega⟩
    rw [hm, List.range_succ, List.map_append, List.map_singleton, List.getLast?_concat]
    simp only [Option.map_some', Option.some.injEq]
    have : ((m : Int) + 1) = q := by omega
    rw [this]
    exact Int.min_eq_right hhi

end Benchmark

namespace Benchmark

/-- Witness of C22 as amended: MaxBots 7 and StepSize 3, with one status reply
`tick : 64` in every step, give three events with bot counts 3, 6 and 7. -/
theorem C22_steps_amended_witness :
    ∃ n : Nat, ((n : Int) - 1) * 3 < 7 ∧ (7 : Int) ≤ (n : Int) * 3 ∧
      (BenchmarkRunner.Run (fun _ => (64 : Int)) (fun _ => 0) (fun v => decide (v = 0)) 0
          { parse := fun s => some s, stopAtStep := fun _ => false, connected := fun _ => true,
            samples := fun _ => [{ stopSeen := false, status := some (Rcon.ascii "tick : 64") }],
            connectedAtEnd := true, saveOk := true }
          { config := { InstanceID := "6ba7b810-9dad-11d1-80b4-00c04fd430c8", MaxBots := 7,
                        StepSize := 3, StepDuration := 1000000000 },
            poolSet := true, hasOnProgress := true }).2.events
        = (List.range n).map (fun i : Nat => ((i : Int) + 1, (n : Int), min (((i : Int) + 1) * 3) 7)) ∧
      (BenchmarkRunner.Run (fun _ => (64 : Int)) (fun _ => 0) (fun v => decide (v = 0)) 0
          { parse := fun s => some s, stopAtStep := fun _ => false, connected := fun _ => true,
            samples := fun _ => [{ stopSeen := false, status := some (Rcon.ascii "tick : 64") }],
            connectedAtEnd := true, saveOk := true }
          { config := { InstanceID := "6ba7b810-9dad-11d1-80b4-00c04fd430c8", MaxBots := 7,
                        StepSize := 3, StepDuration := 1000000000 },
            poolSet := true, hasOnProgress := true }).2.events.length = n ∧
      ((BenchmarkRunner.Run (fun _ => (64 : Int)) (fun _ => 0) (fun v => decide (v = 0)) 0
          { parse := fun s => some s, stopAtStep := fun _ => false, connected := fun _ => true,
            samples := fun _ => [{ stopSeen := false, status := some (Rcon.ascii "tick : 64") }],
            connectedAtEnd := true, saveOk := true }
          { config := { InstanceID := "6ba7b810-9dad-11d1-80b4-00c04fd430c8", MaxBots := 7,
                        StepSize := 3, StepDuration := 1000000000 },
            poolSet := true, hasOnProgress := true }).2.events.getLast?).map (fun e => e.2.2)
        = some 7 ∧
      (BenchmarkRunner.Run (fun _ => (64 : Int)) (fun _ => 0) (fun v => decide (v = 0)) 0
          { parse := fun s => some s, stopAtStep := fun _ => false, connected := fun _ => true,
            samples := fun _ => [{ stopSeen := false, status := some (Rcon.ascii "tick : 64") }],
            connectedAtEnd := true, saveOk := true }
          { config := { InstanceID := "6ba7b810-9dad-11d1-80b4-00c04fd430c8", MaxBots := 7,
                        StepSize := 3, StepDuration := 1000000000 },
            poolSet := true, hasOnProgress := true }).1
        = (if true = true then .ok "6ba7b810-9dad-11d1-80b4-00c04fd430c8" 7
           else .error .saveResult) :=
  (C22_steps_amended (fun _ => (64 : Int)) (fun _ => 0) (fun v => decide (v = 0)) 0
    { parse := fun s => some s, stopAtStep := fun _ => false, connected := fun _ => true,
      samples := fun _ => [{ stopSeen := false, status := some (Rcon.ascii "tick : 64") }],
      connectedAtEnd := true, saveOk := true }
    { config := { InstanceID := "6ba7b810-9dad-11d1-80b4-00c04fd430c8", MaxBots := 7,
                  StepSize := 3, StepDuration := 1000000000 },
      poolSet := true, hasOnProgress := true }
    "6ba7b810-9dad-11d1-80b4-00c04fd430c8" (by decide) (by decide) (by decide) rfl rfl
    (fun _ => ⟨rfl, fun s hs => by rw [List.mem_singleton.mp hs]⟩)
    (fun _ s hs out hout => by
      rw [List.mem_singleton.mp hs] at hout
      rw [← Option.some.inj hout]
      decide)).1

/-- C22 as stated fails. With MaxBots 10, StepSize 5 and no stop request: an
InstanceID that is no UUID makes Run return `invalid instance id` before the
first step, with no event; a status reply `hello` in the first step makes the
run panic in parseTickFromStatus, with no event; without a progress callback
the two steps are done and no event is delivered. With MaxBots 2^63 - 1 and
StepSize 2 the number of steps overflows and the run does no step at all. -/
theorem C22_steps_counterexample :
    (BenchmarkRunner.Run (fun _ => (0 : Int)) (fun _ => 0) (fun v => decide (v = 0)) 0
        { parse := Instance.parseOnly "6ba7b810-9dad-11d1-80b4-00c04fd430c8",
          stopAtStep := fun _ => false, connected := fun _ => true,
          samples := fun _ => [{ stopSeen := false, status := none }], connectedAtEnd := true,
          saveOk := true }
        { config := { InstanceID := "srv1", MaxBots := 10, StepSize := 5,
                      StepDuration := 1000000000 },
          poolSet := true, hasOnProgress := true })
      = (.error .invalidInstanceID, { events := [], commands := [] }) ∧
    (BenchmarkRunner.Run (fun _ => (0 : Int)) (fun _ => 0) (fun v => decide (v = 0)) 0
        { parse := fun s => some s, stopAtStep := fun _ => false, connected := fun _ => true,
          samples := fun _ => [{ stopSeen := false, status := some (Rcon.ascii "hello") }],
          connectedAtEnd := true, saveOk := true }
        { config := { InstanceID := "6ba7b810-9dad-11d1-80b4-00c04fd430c8", MaxBots := 10,
                      StepSize := 5, StepDuration := 1000000000 },
          poolSet := true, hasOnProgress := true })
      = (.panicked, { events := [], commands := ["bot_quota 5"] }) ∧
    (BenchmarkRunner.Run (fun _ => (0 : Int)) (fun _ => 0) (fun v => decide (v = 0)) 0
        { parse := fun s => some s, stopAtStep := fun _ => false, connected := fun _ => true,
          samples := fun _ => [{ stopSeen := false, status := none }], connectedAtEnd := true,
          saveOk := true }
        { config := { InstanceID := "6ba7b810-9dad-11d1-80b4-00c04fd430c8", MaxBots := 10,
                      StepSize := 5, StepDuration := 1000000000 },
          poolSet := true, hasOnProgress := false })
      = (.ok "6ba7b810-9dad-11d1-80b4-00c04fd430c8" 10,
         { events := [], commands := ["bot_quota 5", "bot_quota 10", "bot_quota 0"] }) ∧
    (BenchmarkRunner.Run (fun _ => (0 : Int)) (fun _ => 0) (fun v => decide (v = 0)) 0
        { parse := fun s => some s, stopAtStep := fun _ => false, connected := fun _ => true,
          samples := fun _ => [{ stopSeen := false, status := none }], connectedAtEnd := true,
          saveOk := true }
        { config := { InstanceID := "6ba7b810-9dad-11d1-80b4-00c04fd430c8",
                      MaxBots := 9223372036854775807, StepSize := 2,
                      StepDuration := 1000000000 },
          poolSet := true, hasOnProgress := true })
      = (.ok "6ba7b810-9dad-11d1-80b4-00c04fd430c8" 9223372036854775807,
         { events := [], commands := ["bot_quota 0"] }) := by
  decide

end Benchmark

namespace Instance

/-! ## Calls that overlap -/

/-- A call of `Start` whose steps are run with no other call in between does what
`Manager.Start` says. -/
theorem startSteps_alone (parse : String → Option String) (spawnOk : Bool) (now : Int)
    (m : Manager) (instanceID : String) :
    Manager.startSteps parse spawnOk now instanceID 8 (.check, m)
      = (.done (m.Start parse spawnOk now instanceID).1,
         (m.Start parse spawnOk now instanceID).2) := by
  simp only [Manager.startSteps]
  cases hp : m.processes instanceID with
  | some proc => simp [Manager.startStep, Manager.Start, hp]
  | none =>
    cases hu : parse instanceID with
    | none => simp [Manager.startStep, Manager.Start, hp, hu]
    | some id =>
      cases hd : m.db id with
      | none => simp [Manager.startStep, Manager.Start, hp, hu, hd]
      | some inst =>
        cases spawnOk with
        | false => simp [Manager.startStep, Manager.Start, hp, hu, hd]
        | true =>
          cases hw : m.watchdogs instanceID with
          | none =>
            cases ha : inst.AutoRestart <;>
              simp [Manager.startStep, Manager.Start, hp, hu, hd, hw, ha, setKey,
                updateStatus_watchdogs]
          | some w =>
            simp [Manager.startStep, Manager.Start, hp, hu, hd, hw, setKey,
              updateStatus_watchdogs]

/-- A call of `Stop` whose steps are run with no other call in between does what
`Manager.Stop` says. -/
theorem stopSteps_alone (parse : String → Option String) (m : Manager) (instanceID : String) :
    Manager.stopSteps parse instanceID 4 (.take, m)
      = (.done, (m.Stop parse instanceID).2) := by
  simp only [Manager.stopSteps]
  cases hp : m.processes instanceID <;> simp [Manager.stopStep, Manager.Stop, hp]

/-- A run of the exit callback whose steps are run with no other call in between
does what `Manager.exitCallback` says. -/
theorem exitSteps_alone (parse : String → Option String) (m : Manager)
    (instanceID id : String) (code : Int) :
    Manager.exitSteps parse instanceID id code 4 (.unregister, m)
      = (.done, m.exitCallback parse instanceID id code) := by
  simp only [Manager.exitSteps]
  cases hd : m.db id with
  | none =>
    cases hw : m.watchdogs instanceID <;>
      simp [Manager.exitStep, Manager.exitCallback, hd, hw, setKey]
  | some inst =>
    by_cases hs : inst.Status = StatusRunning
    · cases hw : m.watchdogs instanceID <;>
        simp [Manager.exitStep, Manager.exitCallback, hd, hw, hs, setKey, updateStatus_watchdogs]
    · cases hw : m.watchdogs instanceID <;>
        simp [Manager.exitStep, Manager.exitCallback, hd, hw, hs, setKey]

end Instance

namespace Instance

/-- C12 does not hold of the code. `Start` gives up the lock between its check
that the instance has no process and the storing of the process, and every
status is written outside the lock. When `Stop` runs between the write of
`starting` by a call of `Start` and its spawn, the statuses written are
starting, stopped, running: a `running` that does not follow `starting`, and a
process left registered after `Stop` has returned. When two calls of `Start`
overlap (the watchdog restarts the instance while it is started from outside),
both pass the check and the statuses written are starting, starting, running,
running: `running` right after `running`. -/
theorem C12_overlapping_calls :
    (statusesOf scenarioID
        (System.run (parseOnly scenarioID)
          { manager := NewManager (oneRow scenarioInstance), calls := [] }
          [.beginStart scenarioID true 0, .advance 0, .advance 0, .advance 0,
           .beginStop scenarioID, .advance 1, .advance 1,
           .advance 0, .advance 0, .advance 0, .advance 0, .advance 0]).manager.statusLog
      = [StatusStarting, StatusStopped, StatusRunning] ∧
    (System.run (parseOnly scenarioID)
        { manager := NewManager (oneRow scenarioInstance), calls := [] }
        [.beginStart scenarioID true 0, .advance 0, .advance 0, .advance 0,
         .beginStop scenarioID, .advance 1, .advance 1,
         .advance 0, .advance 0, .advance 0, .advance 0, .advance 0]).calls
      = [.start scenarioID true 0 (.done none), .stop scenarioID .done] ∧
    (System.run (parseOnly scenarioID)
        { manager := NewManager (oneRow scenarioInstance), calls := [] }
        [.beginStart scenarioID true 0, .advance 0, .advance 0, .advance 0,
         .beginStop scenarioID, .advance 1, .advance 1,
         .advance 0, .advance 0, .advance 0, .advance 0, .advance 0]).manager.hasProcess
      scenarioID = true ∧
    runningAfterStarting none [StatusStarting, StatusStopped, StatusRunning] = false) ∧
    (statusesOf scenarioID
        (System.run (parseOnly scenarioID)
          { manager := NewManager (oneRow scenarioInstance), calls := [] }
          [.beginStart scenarioID true 0, .beginStart scenarioID true 0,
           .advance 0, .advance 1, .advance 0, .advance 0, .advance 1, .advance 1,
           .advance 0, .advance 0, .advance 0, .advance 0, .advance 0,
           .advance 1, .advance 1, .advance 1, .advance 1, .advance 1]).manager.statusLog
      = [StatusStarting, StatusStarting, StatusRunning, StatusRunning] ∧
    (System.run (parseOnly scenarioID)
        { manager := NewManager (oneRow scenarioInstance), calls := [] }
        [.beginStart scenarioID true 0, .beginStart scenarioID true 0,
         .advance 0, .advance 1, .advance 0, .advance 0, .advance 1, .advance 1,
         .advance 0, .advance 0, .advance 0, .advance 0, .advance 0,
         .advance 1, .advance 1, .advance 1, .advance 1, .advance 1]).calls
      = [.start scenarioID true 0 (.done none), .start scenarioID true 0 (.done none)] ∧
    runningAfterStarting none [StatusStarting, StatusStarting, StatusRunning, StatusRunning]
      = false) := by
  decide

end Instance
